import Mathlib

/-!
# Vectorized array functions of the Doris backend

A shallow embedding of

* `be/src/vec/functions/array/function_array_map.h`
  (`OpenMapImpl::apply`, `ArrayMapImpl::execute`, `ArrayMapImpl::_execute_internal`),
* `be/src/vec/functions/array/function_array_pop.cpp`
  (`FunctionArrayPop::execute_impl`, `FunctionArrayPopback`, `FunctionArrayPopfront`),
* `be/src/runtime/primitive_type.cpp`
  (`thrift_to_type`, `to_thrift`, `type_to_string`),
* `be/src/vec/functions/function_bit_count.cpp` (`BitCountImpl`).

Columns are lists, builders are passed explicitly as state, the unsigned 64-bit
arithmetic of `size_t` is written with an explicit `% 2^64`. The frequency map
compares its keys with `==` of the element type, as `phmap::flat_hash_map` does
with its default key equality; `Float64` carries the IEEE 754 comparison.

The helpers of `function_array_utils`, `index_check_const` and the two action
structs `IntersectAction` / `UnionAction` are declared or called by these
sources but defined elsewhere; each of them is modelled from the specification
and marked as such. So are the enums and data types these sources only use.
-/

namespace doris

/-! ## Data model -/

/-- Result of a call, `common/status.h` as far as the embedded functions use it. -/
inductive Status where
  | OK : Status
  | RuntimeError (msg : String) : Status
deriving DecidableEq

/-- A flattened element column. `kind` is the physical representation that
`is_column<ColumnType>` tests, `data` the elements of all rows back to back. -/
structure IColumn (α : Type) where
  kind : Nat
  data : List α
deriving DecidableEq

/-- Read view of one array column (`ColumnArrayExecutionData`), restricted to the
three members the embedded functions read. A null `nested_nullmap_data` pointer is
`none`; the nullmap holds `UInt8` values. `offsets_ptr[r]` is the end of row `r`. -/
structure ColumnArrayExecutionData (α : Type) where
  nested_col : IColumn α
  nested_nullmap_data : Option (List Nat)
  offsets_ptr : List Nat
deriving DecidableEq

/-- Write side of one output array column (`ColumnArrayMutableData`). -/
structure ColumnArrayMutableData (α : Type) where
  nested_col : IColumn α
  nested_nullmap_data : Option (List Nat)
  offsets_ptr : List Nat
deriving DecidableEq

/-- A column handle (`ColumnPtr`); `none` is the null handle. -/
abbrev ColumnPtr (α : Type) := Option (ColumnArrayExecutionData α)

/-- The operation selector of `function_array_map.h`. -/
inductive MapOperation where
  | INTERSECT : MapOperation
  | UNION : MapOperation
deriving DecidableEq

/-- The frequency map `phmap::flat_hash_map<Key, size_t>`: an association list in
which no key `==` another one. Its iteration order is the order of the list. -/
abbrev Map (α : Type) := List (α × Nat)

variable {α : Type}

/-! ## Reading a row of an array column -/

/-- The start of row `row`: `(*offsets_ptr)[row - 1]`. The offsets array is padded
on the left, so that the entry before the first one reads as 0. -/
def ColumnArrayExecutionData.row_begin (d : ColumnArrayExecutionData α) (row : Nat) : Nat :=
  if row = 0 then 0 else d.offsets_ptr.getD (row - 1) 0

/-- The end of row `row`: `(*offsets_ptr)[row]`. -/
def ColumnArrayExecutionData.row_end (d : ColumnArrayExecutionData α) (row : Nat) : Nat :=
  d.offsets_ptr.getD row 0

/-- The test `nested_nullmap_data && nested_nullmap_data[off]`. -/
def ColumnArrayExecutionData.is_null_at (d : ColumnArrayExecutionData α) (off : Nat) : Bool :=
  match d.nested_nullmap_data with
  | none => false
  | some m => m.getD off 0 != 0

/-- The element stored at nested position `off`: `none` for a null element. -/
def ColumnArrayExecutionData.element_at [Inhabited α] (d : ColumnArrayExecutionData α)
    (off : Nat) : Option α :=
  if d.is_null_at off then none else some (d.nested_col.data.getD off default)

/-- The elements of row `row`, those at the nested positions
`[offsets[row - 1], offsets[row])`, in order. -/
def ColumnArrayExecutionData.row_elements [Inhabited α] (d : ColumnArrayExecutionData α)
    (row : Nat) : List (Option α) :=
  (List.range' (d.row_begin row) (d.row_end row - d.row_begin row)).map d.element_at

/-! ## Helpers defined outside the embedded sources -/

/-- Modelled from the spec: `index_check_const` is called by `OpenMapImpl::apply`
but defined outside the embedded sources. Specification 4.2: for a broadcast
constant the physical row index is always 0, otherwise it is the logical row. -/
def index_check_const (logical_row : Nat) (is_constant : Bool) : Nat :=
  if is_constant then 0 else logical_row

/-- Modelled from the spec: `create_mutable_data` of `function_array_utils` is
missing from the embedded sources. Specification 4.1: the builder is created
empty, for the physical representation of the given nested column, and carries a
nullmap iff it is asked to. -/
def create_mutable_data (nested_col : IColumn α) (is_nullable : Bool) :
    ColumnArrayMutableData α :=
  { nested_col := { kind := nested_col.kind, data := [] }
    nested_nullmap_data := if is_nullable then some [] else none
    offsets_ptr := [] }

/-- Modelled from the spec: `assemble_column_array` of `function_array_utils` is
missing from the embedded sources. Specification 3: the builder is consumed once
to assemble the output array column, which has the builder's nested column,
nullmap and offsets. -/
def assemble_column_array (dst : ColumnArrayMutableData α) : ColumnArrayExecutionData α :=
  { nested_col := dst.nested_col
    nested_nullmap_data := dst.nested_nullmap_data
    offsets_ptr := dst.offsets_ptr }

/-- The call `dst.nested_col->insert_default()`. -/
def ColumnArrayMutableData.insert_default [Inhabited α] (dst : ColumnArrayMutableData α) :
    ColumnArrayMutableData α :=
  { dst with nested_col := { dst.nested_col with data := dst.nested_col.data ++ [default] } }

/-- The call `get_data().push_back(v)` (`insert_data` for strings) on `dst.nested_col`. -/
def ColumnArrayMutableData.push_value (dst : ColumnArrayMutableData α) (v : α) :
    ColumnArrayMutableData α :=
  { dst with nested_col := { dst.nested_col with data := dst.nested_col.data ++ [v] } }

/-- The statement `if (dst.nested_nullmap_data) dst.nested_nullmap_data->push_back(flag)`. -/
def ColumnArrayMutableData.push_nullmap (dst : ColumnArrayMutableData α) (flag : Nat) :
    ColumnArrayMutableData α :=
  match dst.nested_nullmap_data with
  | none => dst
  | some m => { dst with nested_nullmap_data := some (m ++ [flag]) }

/-- The call `dst.offsets_ptr->push_back(off)`. -/
def ColumnArrayMutableData.push_offset (dst : ColumnArrayMutableData α) (off : Nat) :
    ColumnArrayMutableData α :=
  { dst with offsets_ptr := dst.offsets_ptr ++ [off] }

/-! ## The set-operation strategy -/

/-- Increment the count of `key`, inserting it with count 1 when it is new. The
map is declared `phmap::flat_hash_map<ElementNativeType, size_t>` with the default
key equality, `operator==` of the native element type: `k == key`. For the
integer, decimal and string representations this is equality of values; for
`Float32` / `Float64` it is the IEEE 754 comparison, under which a NaN equals no
key, itself included. -/
def Map.incr [BEq α] : Map α → α → Map α
  | [], key => [(key, 1)]
  | (k, c) :: m, key => if k == key then (k, c + 1) :: m else (k, c) :: Map.incr m key

/-- Modelled from the spec: the state of `IntersectAction` / `UnionAction`, which
are declared in `function_array_map.h` and defined outside the embedded sources.
Specification 4.4: the action tracks, separately from the frequency map, whether a
null element was observed in each argument's row; `null_seen` holds one flag per
argument folded so far. -/
structure Action where
  null_seen : List Bool
deriving DecidableEq

/-- Modelled from the spec: `Action::reset` is missing from the embedded sources.
Specification 4.4: clear the accumulated state for a new row. -/
def Action.reset : Action := { null_seen := [] }

/-- Modelled from the spec: `Action::apply` is missing from the embedded sources.
Specification 4.4: fold the elements of argument `arg_idx` at `row_idx` into the
frequency map, incrementing each distinct key's count by at most 1 per argument
(duplicates inside the row do not inflate the count), and record whether a null
element was observed in this argument's row. The distinct keys of the row are
told apart by the key equality of the map: of the non-null elements a sublist is
kept in which no element `==` another one. -/
def Action.apply [BEq α] [Inhabited α] (action : Action) (map : Map α)
    (_arg_idx : Nat) (row_idx : Nat) (param : ColumnArrayExecutionData α) : Action × Map α :=
  let elems := param.row_elements row_idx
  ({ null_seen := action.null_seen ++ [elems.contains none] },
   ((elems.filterMap id).pwFilter (fun a b => (a == b) = false)).foldl Map.incr map)

/-- Modelled from the spec: `Action::apply_null` is missing from the embedded
sources. Specification 4.4: Intersect returns true iff every argument had at
least one null element in this row, Union iff any argument had one. -/
def Action.apply_null (operation : MapOperation) (action : Action) : Bool :=
  match operation with
  | MapOperation.INTERSECT => action.null_seen.all id
  | MapOperation.UNION => action.null_seen.any id

/-! ## `OpenMapImpl` -/

/-- The members `action` and `map` of `OpenMapImpl`. -/
structure OpenMapImpl (α : Type) where
  action : Action
  map : Map α

/-- The method `OpenMapImpl::reset`: `map.clear(); action.reset();`. -/
def OpenMapImpl.reset : OpenMapImpl α := { action := Action.reset, map := [] }

/-- The inner loop of `OpenMapImpl::apply`,
`for (i = 0; i < params.size(); ++i) action.apply(map, i, index_check_const(row, col_const[i]), params[i])`,
started at argument index `i` with the arguments from `i` on. -/
def OpenMapImpl.apply_params [BEq α] [Inhabited α] (col_const : List Bool) (row : Nat) :
    Nat → List (ColumnArrayExecutionData α) → OpenMapImpl α → OpenMapImpl α
  | _, [], impl => impl
  | i, p :: ps, impl =>
    let r := impl.action.apply impl.map i (index_check_const row (col_const.getD i false)) p
    OpenMapImpl.apply_params col_const row (i + 1) ps { action := r.1, map := r.2 }

/-- The emission loop of `OpenMapImpl::apply`, `for (const auto& entry : map)`:
an entry is pushed when the operation is INTERSECT and its count equals
`params.size()`, or when the operation is UNION. The state is the builder and the
running `dst_off`. -/
def OpenMapImpl.emit_entries (operation : MapOperation) (params_size : Nat) :
    Map α → ColumnArrayMutableData α × Nat → ColumnArrayMutableData α × Nat
  | [], st => st
  | entry :: rest, st =>
    if (operation = MapOperation.INTERSECT ∧ entry.2 = params_size)
        ∨ operation = MapOperation.UNION then
      OpenMapImpl.emit_entries operation params_size rest
        (((st.1.push_value entry.1).push_nullmap 0), st.2 + 1)
    else
      OpenMapImpl.emit_entries operation params_size rest st

/-- One iteration of the row loop of `OpenMapImpl::apply`. -/
def OpenMapImpl.apply_row [BEq α] [Inhabited α] (operation : MapOperation)
    (params : List (ColumnArrayExecutionData α)) (col_const : List Bool)
    (st : ColumnArrayMutableData α × Nat) (row : Nat) : ColumnArrayMutableData α × Nat :=
  let impl := OpenMapImpl.apply_params col_const row 0 params OpenMapImpl.reset
  let st1 : ColumnArrayMutableData α × Nat :=
    if impl.action.apply_null operation then
      ((st.1.insert_default).push_nullmap 1, st.2 + 1)
    else st
  let st2 := OpenMapImpl.emit_entries operation params.length impl.map st1
  (st2.1.push_offset st2.2, st2.2)

/-- The method `OpenMapImpl::apply`: the row loop over `[start_row, end_row)`, with
`dst_off` starting at 0. -/
def OpenMapImpl.apply [BEq α] [Inhabited α] (operation : MapOperation)
    (dst : ColumnArrayMutableData α) (params : List (ColumnArrayExecutionData α))
    (col_const : List Bool) (start_row end_row : Nat) : ColumnArrayMutableData α :=
  ((List.range' start_row (end_row - start_row)).foldl
    (OpenMapImpl.apply_row operation params col_const) (dst, 0)).1

/-! ## `ArrayMapImpl` -/

/-- The single-candidate overload of `ArrayMapImpl::_execute_internal`: false,
with the builder untouched, when some input's nested column is not backed by
`candidate`; otherwise the row transform runs and the result is true. -/
def ArrayMapImpl.execute_internal_one [BEq α] [Inhabited α] (operation : MapOperation)
    (candidate : Nat) (dst : ColumnArrayMutableData α)
    (datas : List (ColumnArrayExecutionData α)) (col_const : List Bool)
    (start_row end_row : Nat) : Bool × ColumnArrayMutableData α :=
  if datas.all (fun data => data.nested_col.kind == candidate) then
    (true, OpenMapImpl.apply operation dst datas col_const start_row end_row)
  else
    (false, dst)

/-- The variadic overload of `ArrayMapImpl::_execute_internal`:
`_execute_internal<T>(...) || _execute_internal<Ts...>(...)` over the candidate
list. The list `ALL_COLUMNS_SIMPLE` is a parameter. -/
def ArrayMapImpl.execute_internal [BEq α] [Inhabited α] (operation : MapOperation) :
    List Nat → ColumnArrayMutableData α → List (ColumnArrayExecutionData α) → List Bool →
    Nat → Nat → Bool × ColumnArrayMutableData α
  | [], dst, _, _, _, _ => (false, dst)
  | candidate :: rest, dst, datas, col_const, start_row, end_row =>
    let r := ArrayMapImpl.execute_internal_one operation candidate dst datas col_const
      start_row end_row
    if r.1 then r
    else ArrayMapImpl.execute_internal operation rest r.2 datas col_const start_row end_row

/-- The function `ArrayMapImpl::execute`. The builder is created from `datas[0]`;
the source indexes it unconditionally, here an empty `datas` gives the builder of
an empty column without nullmap. Returns the status and the new `res_ptr`. -/
def ArrayMapImpl.execute [BEq α] [Inhabited α] (operation : MapOperation)
    (ALL_COLUMNS_SIMPLE : List Nat) (res_ptr : ColumnPtr α)
    (datas : List (ColumnArrayExecutionData α)) (col_const : List Bool)
    (start_row end_row : Nat) : Status × ColumnPtr α :=
  let dst : ColumnArrayMutableData α :=
    match datas with
    | [] => create_mutable_data { kind := 0, data := [] } false
    | d0 :: _ => create_mutable_data d0.nested_col d0.nested_nullmap_data.isSome
  let r := ArrayMapImpl.execute_internal operation ALL_COLUMNS_SIMPLE dst datas col_const
    start_row end_row
  if r.1 then (Status.OK, some (assemble_column_array r.2))
  else (Status.RuntimeError "Unexpected columns", res_ptr)


/-! ## `FunctionArrayPop` -/

/-- A column of a block: an array column, seen through its execution data, or a
column of another shape. -/
inductive Column (α : Type) where
  | array (data : ColumnArrayExecutionData α) : Column α
  | other (values : List α) : Column α
deriving DecidableEq

/-- Modelled from the spec: `extract_column_array_info` of `function_array_utils`
is missing from the embedded sources. Specification 4.1: extraction fails if the
column is not an array column, and on success yields the nested column, the
offsets and the optional nullmap without copying. -/
def extract_column_array_info : Column α → Option (ColumnArrayExecutionData α)
  | Column.array data => some data
  | Column.other _ => none

/-- The template parameter `PopType`: the static members `name` and `start_offset`. -/
structure PopType where
  name : String
  start_offset : Int
deriving DecidableEq

/-- The class `FunctionArrayPopback`. -/
def FunctionArrayPopback : PopType := { name := "array_popback", start_offset := 1 }

/-- The class `FunctionArrayPopfront`. -/
def FunctionArrayPopfront : PopType := { name := "array_popfront", start_offset := 2 }

/-- Subtraction of `size_t` values: modulo `2^64`. -/
def size_t_sub (a b : Nat) : Nat := (a % 2 ^ 64 + 2 ^ 64 - b % 2 ^ 64) % 2 ^ 64

/-- Conversion of a `size_t` value to `Int64` (two's complement). -/
def to_int64 (u : Nat) : Int :=
  if u % 2 ^ 64 < 2 ^ 63 then ((u % 2 ^ 64 : Nat) : Int) else ((u % 2 ^ 64 : Nat) : Int) - 2 ^ 64

/-- The loop of `execute_impl` that fills `length_column`: for every row,
`off = offsets[row - 1]`, `len = offsets[row] - off` and `insert_value(len - 1)`,
computed on `size_t` and stored as `Int64`. -/
def FunctionArrayPop.length_column (src : ColumnArrayExecutionData α) : List Int :=
  (List.range src.offsets_ptr.length).map (fun row =>
    let off := src.row_begin row
    let len := size_t_sub (src.row_end row) off
    to_int64 (size_t_sub len 1))

/-- The nullmap entry of `src` at nested position `pos`, 0 without nullmap. -/
def ColumnArrayExecutionData.null_flag_at (src : ColumnArrayExecutionData α) (pos : Nat) : Nat :=
  match src.nested_nullmap_data with
  | none => 0
  | some m => m.getD pos 0

/-- Modelled from the spec: part of `slice_array`. Specification 4.6: the element
at `pos` and its null marker are copied verbatim into the output builder. -/
def slice_copy_element [Inhabited α] (src : ColumnArrayExecutionData α)
    (dst : ColumnArrayMutableData α) (pos : Nat) : ColumnArrayMutableData α :=
  (dst.push_value (src.nested_col.data.getD pos default)).push_nullmap (src.null_flag_at pos)

/-- Modelled from the spec: part of `slice_array`. Specification 4.6: the
sub-range `[lo, hi)` of a row with `len` elements selected by the 1-based start
offset and the signed length, clamped to the row. For the arguments of pop-back,
`(1, len - 1)`, it is `[0, max(len - 1, 0))`; for those of pop-front,
`(2, len - 1)`, it is `[min(1, len), len)`. -/
def slice_range (len : Nat) (start : Int) (size : Int) : Nat × Nat :=
  let lo := min (start - 1).toNat len
  let hi := (max (lo : Int) (min (len : Int) ((lo : Int) + size))).toNat
  (lo, hi)

/-- Modelled from the spec: one row of `slice_array`. Specification 4.6 and 3: the
selected sub-range of the row is copied in order, then the cumulative element
count is pushed to the offsets builder. The state is the builder and the running
element count. -/
def slice_row [Inhabited α] (src : ColumnArrayExecutionData α) (offset_column : List Int)
    (length_column : List Int) (st : ColumnArrayMutableData α × Nat) (row : Nat) :
    ColumnArrayMutableData α × Nat :=
  let off := src.row_begin row
  let len := src.row_end row - off
  let range := slice_range len (offset_column.getD row 0) (length_column.getD row 0)
  let positions := List.range' (off + range.1) (range.2 - range.1)
  let dst := positions.foldl (slice_copy_element src) st.1
  (dst.push_offset (st.2 + positions.length), st.2 + positions.length)

/-- Modelled from the spec: `slice_array` of `function_array_utils` is missing from
the embedded sources. Specification 4.6: a single-argument transform that, for
each row of `src` in increasing order, copies the selected sub-range into the
output builder. -/
def slice_array [Inhabited α] (dst : ColumnArrayMutableData α)
    (src : ColumnArrayExecutionData α) (offset_column : List Int) (length_column : List Int) :
    ColumnArrayMutableData α :=
  ((List.range src.offsets_ptr.length).foldl (slice_row src offset_column length_column)
    (dst, 0)).1

/-- The function `FunctionArrayPop<PopType>::execute_impl`. The block is the list
of its columns, all of them full columns; the result is `none` where the source
indexes `arguments` or the block out of range. The type name that the source
appends to the error message is left out. -/
def FunctionArrayPop.execute_impl [Inhabited α] (pop : PopType) (block : List (Column α))
    (arguments : List Nat) (result : Nat) (_input_rows_count : Nat) :
    Option (Status × List (Column α)) :=
  match arguments with
  | [] => none
  | argument :: _ =>
    match block[argument]? with
    | none => none
    | some array_column =>
      match extract_column_array_info array_column with
      | none =>
        some (Status.RuntimeError
          ("execute failed, unsupported types for function " ++ pop.name), block)
      | some src =>
        let is_nullable := src.nested_nullmap_data.isSome
        let dst := create_mutable_data src.nested_col is_nullable
        let offset_column := List.replicate src.offsets_ptr.length pop.start_offset
        let length_column := FunctionArrayPop.length_column src
        let dst := slice_array dst src offset_column length_column
        let res_column := assemble_column_array dst
        if result < block.length then
          some (Status.OK, block.set result (Column.array res_column))
        else none

/-! ## Auxiliary definitions used to state and prove the properties -/

/-- Running totals: the offsets pushed for rows of the given lengths, starting
from `acc` elements. -/
def cum_offsets (acc : Nat) : List Nat → List Nat
  | [] => []
  | n :: ns => (acc + n) :: cum_offsets (acc + n) ns

/-- Appending a list of (value, nullmap flag) cells to the builder. -/
def ColumnArrayMutableData.append_cells (dst : ColumnArrayMutableData α) (cells : List (α × Nat)) :
    ColumnArrayMutableData α :=
  { nested_col := { kind := dst.nested_col.kind, data := dst.nested_col.data ++ cells.map Prod.fst }
    nested_nullmap_data := dst.nested_nullmap_data.map (fun m => m ++ cells.map Prod.snd)
    offsets_ptr := dst.offsets_ptr }

/-- The argument rows read for logical row `row`: argument `i` is read at
`index_check_const row col_const[i]`. The list starts at argument index `i`. -/
def argument_rows [Inhabited α] (col_const : List Bool) (row : Nat) (i : Nat)
    (params : List (ColumnArrayExecutionData α)) : List (List (Option α)) :=
  (params.enumFrom i).map
    (fun p => p.2.row_elements (index_check_const row (col_const.getD p.1 false)))

/-- The map entries that pass the emission test of `OpenMapImpl::apply`. -/
def emitted_entries (operation : MapOperation) (params_size : Nat) (map : Map α) : Map α :=
  map.filter (fun entry =>
    decide ((operation = MapOperation.INTERSECT ∧ entry.2 = params_size)
      ∨ operation = MapOperation.UNION))

/-- The cells one iteration of the row loop appends: the placeholder with flag 1
when `apply_null` holds, then the emitted entries with flag 0. -/
def row_cells [BEq α] [Inhabited α] (operation : MapOperation)
    (params : List (ColumnArrayExecutionData α)) (col_const : List Bool) (row : Nat) :
    List (α × Nat) :=
  let impl := OpenMapImpl.apply_params col_const row 0 params OpenMapImpl.reset
  (if impl.action.apply_null operation then [(default, 1)] else [])
    ++ (emitted_entries operation params.length impl.map).map (fun entry => (entry.1, 0))

/-- How a cell reads back from a column: null when the column has a nullmap and
the flag is not 0. -/
def read_cell (has_nullmap : Bool) (cell : α × Nat) : Option α :=
  if has_nullmap && cell.2 != 0 then none else some cell.1

/-- The count stored for `v` in the frequency map, 0 when `v` is not a key. -/
def Map.count [DecidableEq α] : Map α → α → Nat
  | [], _ => 0
  | (k, c) :: m, v => if k = v then c else Map.count m v

/-- A frequency map is well formed when its keys are pairwise distinct and every
stored count is positive. -/
def Map.WF (m : Map α) : Prop :=
  (m.map Prod.fst).Nodup ∧ ∀ e ∈ m, 1 ≤ e.2

/-- The frequency map after folding the given argument rows into `m`, one
`Action.apply` per row. -/
def frequency_map [DecidableEq α] (rows : List (List (Option α))) (m : Map α) : Map α :=
  rows.foldl (fun acc r => (r.filterMap id).dedup.foldl Map.incr acc) m

/-- The value of `apply_null` after the given argument rows were folded. -/
def rows_apply_null [DecidableEq α] (operation : MapOperation)
    (rows : List (List (Option α))) : Bool :=
  match operation with
  | MapOperation.INTERSECT => rows.all (fun r => r.contains none)
  | MapOperation.UNION => rows.any (fun r => r.contains none)

/-- The cells `slice_array` appends for row `row`. -/
def slice_cells [Inhabited α] (src : ColumnArrayExecutionData α) (offset_column : List Int)
    (length_column : List Int) (row : Nat) : List (α × Nat) :=
  let off := src.row_begin row
  let len := src.row_end row - off
  let range := slice_range len (offset_column.getD row 0) (length_column.getD row 0)
  (List.range' (off + range.1) (range.2 - range.1)).map
    (fun pos => (src.nested_col.data.getD pos default, src.null_flag_at pos))

/-! ## Concrete columns -/

/-- One row `[1, 2, 2, 3]` of integers, nullable nested column. -/
def ints_1223 : ColumnArrayExecutionData Int :=
  { nested_col := { kind := 3, data := [1, 2, 2, 3] }
    nested_nullmap_data := some [0, 0, 0, 0]
    offsets_ptr := [4] }

/-- One row `[2, 3, 4]` of integers, nullable nested column. -/
def ints_234 : ColumnArrayExecutionData Int :=
  { nested_col := { kind := 3, data := [2, 3, 4] }
    nested_nullmap_data := some [0, 0, 0]
    offsets_ptr := [3] }

/-- One row `[1, null]` of integers. -/
def ints_1_null : ColumnArrayExecutionData Int :=
  { nested_col := { kind := 3, data := [1, 0] }
    nested_nullmap_data := some [0, 1]
    offsets_ptr := [2] }

/-- One row `[null, 2]` of integers. -/
def ints_null_2 : ColumnArrayExecutionData Int :=
  { nested_col := { kind := 3, data := [0, 2] }
    nested_nullmap_data := some [1, 0]
    offsets_ptr := [2] }

/-- One row `[7]` of integers whose nested column is not nullable: no nullmap. -/
def ints_7_plain : ColumnArrayExecutionData Int :=
  { nested_col := { kind := 3, data := [7] }
    nested_nullmap_data := none
    offsets_ptr := [1] }

/-- One row `[null]` of integers. -/
def ints_null : ColumnArrayExecutionData Int :=
  { nested_col := { kind := 3, data := [0] }
    nested_nullmap_data := some [1]
    offsets_ptr := [1] }

/-- Two rows `[10, 20, 30]` and `[]` of integers. -/
def ints_two_rows : ColumnArrayExecutionData Int :=
  { nested_col := { kind := 3, data := [10, 20, 30] }
    nested_nullmap_data := some [0, 0, 0]
    offsets_ptr := [3, 3] }

/-- One row `[1, 2]` of integers whose nested column is not nullable: no nullmap. -/
def ints_12_plain : ColumnArrayExecutionData Int :=
  { nested_col := { kind := 3, data := [1, 2] }
    nested_nullmap_data := none
    offsets_ptr := [2] }

/-- One row `["a", "b"]` of strings. -/
def strings_ab : ColumnArrayExecutionData String :=
  { nested_col := { kind := 9, data := ["a", "b"] }
    nested_nullmap_data := some [0, 0]
    offsets_ptr := [2] }

/-- One row `["b", "c"]` of strings. -/
def strings_bc : ColumnArrayExecutionData String :=
  { nested_col := { kind := 9, data := ["b", "c"] }
    nested_nullmap_data := some [0, 0]
    offsets_ptr := [2] }

/-! ## `runtime/primitive_type.cpp` -/

/-- Modelled from the spec: the enum `PrimitiveType` is declared in
`runtime/define_primitive_type.h`, outside the embedded sources. The named
constructors are the tags `primitive_type.cpp` names in its `case` labels;
`other` stands for every further value of the enum, by its numeric value. -/
inductive PrimitiveType where
  | INVALID_TYPE : PrimitiveType
  | TYPE_NULL : PrimitiveType
  | TYPE_BOOLEAN : PrimitiveType
  | TYPE_TINYINT : PrimitiveType
  | TYPE_SMALLINT : PrimitiveType
  | TYPE_INT : PrimitiveType
  | TYPE_BIGINT : PrimitiveType
  | TYPE_LARGEINT : PrimitiveType
  | TYPE_FLOAT : PrimitiveType
  | TYPE_DOUBLE : PrimitiveType
  | TYPE_DATE : PrimitiveType
  | TYPE_DATETIME : PrimitiveType
  | TYPE_DATEV2 : PrimitiveType
  | TYPE_DATETIMEV2 : PrimitiveType
  | TYPE_TIMEV2 : PrimitiveType
  | TYPE_VARCHAR : PrimitiveType
  | TYPE_STRING : PrimitiveType
  | TYPE_JSONB : PrimitiveType
  | TYPE_VARIANT : PrimitiveType
  | TYPE_BINARY : PrimitiveType
  | TYPE_IPV4 : PrimitiveType
  | TYPE_IPV6 : PrimitiveType
  | TYPE_DECIMALV2 : PrimitiveType
  | TYPE_DECIMAL32 : PrimitiveType
  | TYPE_DECIMAL64 : PrimitiveType
  | TYPE_DECIMAL128I : PrimitiveType
  | TYPE_DECIMAL256 : PrimitiveType
  | TYPE_CHAR : PrimitiveType
  | TYPE_HLL : PrimitiveType
  | TYPE_BITMAP : PrimitiveType
  | TYPE_QUANTILE_STATE : PrimitiveType
  | TYPE_ARRAY : PrimitiveType
  | TYPE_MAP : PrimitiveType
  | TYPE_STRUCT : PrimitiveType
  | TYPE_LAMBDA_FUNCTION : PrimitiveType
  | TYPE_AGG_STATE : PrimitiveType
  | other (value : Nat) : PrimitiveType
deriving DecidableEq

/-- Modelled from the spec: the wire enum `TPrimitiveType::type` is generated from
the thrift definitions (`gen_cpp/Types_types.h`), outside the embedded sources.
The named constructors are the wire tags `primitive_type.cpp` names in its `case`
labels; `other` stands for every further wire value, by its numeric value. -/
inductive TPrimitiveType where
  | INVALID_TYPE : TPrimitiveType
  | NULL_TYPE : TPrimitiveType
  | BOOLEAN : TPrimitiveType
  | TINYINT : TPrimitiveType
  | SMALLINT : TPrimitiveType
  | INT : TPrimitiveType
  | BIGINT : TPrimitiveType
  | LARGEINT : TPrimitiveType
  | FLOAT : TPrimitiveType
  | DOUBLE : TPrimitiveType
  | DATE : TPrimitiveType
  | DATETIME : TPrimitiveType
  | DATEV2 : TPrimitiveType
  | DATETIMEV2 : TPrimitiveType
  | TIMEV2 : TPrimitiveType
  | TIME : TPrimitiveType
  | VARCHAR : TPrimitiveType
  | STRING : TPrimitiveType
  | JSONB : TPrimitiveType
  | BINARY : TPrimitiveType
  | IPV4 : TPrimitiveType
  | IPV6 : TPrimitiveType
  | DECIMALV2 : TPrimitiveType
  | DECIMAL32 : TPrimitiveType
  | DECIMAL64 : TPrimitiveType
  | DECIMAL128I : TPrimitiveType
  | DECIMAL256 : TPrimitiveType
  | CHAR : TPrimitiveType
  | HLL : TPrimitiveType
  | BITMAP : TPrimitiveType
  | QUANTILE_STATE : TPrimitiveType
  | ARRAY : TPrimitiveType
  | MAP : TPrimitiveType
  | STRUCT : TPrimitiveType
  | LAMBDA_FUNCTION : TPrimitiveType
  | AGG_STATE : TPrimitiveType
  | VARIANT : TPrimitiveType
  | other (value : Nat) : TPrimitiveType
deriving DecidableEq

/-- The function `thrift_to_type`. The `default` branch runs `CHECK(false)`, which
ends the process with the fatal message "meet unknown type"; that outcome is
`none`. -/
def thrift_to_type (ttype : TPrimitiveType) : Option PrimitiveType :=
  match ttype with
  | TPrimitiveType.INVALID_TYPE => some PrimitiveType.INVALID_TYPE
  | TPrimitiveType.NULL_TYPE => some PrimitiveType.TYPE_NULL
  | TPrimitiveType.BOOLEAN => some PrimitiveType.TYPE_BOOLEAN
  | TPrimitiveType.TINYINT => some PrimitiveType.TYPE_TINYINT
  | TPrimitiveType.SMALLINT => some PrimitiveType.TYPE_SMALLINT
  | TPrimitiveType.INT => some PrimitiveType.TYPE_INT
  | TPrimitiveType.BIGINT => some PrimitiveType.TYPE_BIGINT
  | TPrimitiveType.LARGEINT => some PrimitiveType.TYPE_LARGEINT
  | TPrimitiveType.FLOAT => some PrimitiveType.TYPE_FLOAT
  | TPrimitiveType.DOUBLE => some PrimitiveType.TYPE_DOUBLE
  | TPrimitiveType.DATE => some PrimitiveType.TYPE_DATE
  | TPrimitiveType.DATETIME => some PrimitiveType.TYPE_DATETIME
  | TPrimitiveType.DATEV2 => some PrimitiveType.TYPE_DATEV2
  | TPrimitiveType.DATETIMEV2 => some PrimitiveType.TYPE_DATETIMEV2
  | TPrimitiveType.TIMEV2 => some PrimitiveType.TYPE_TIMEV2
  | TPrimitiveType.TIME => some PrimitiveType.TYPE_TIMEV2
  | TPrimitiveType.VARCHAR => some PrimitiveType.TYPE_VARCHAR
  | TPrimitiveType.STRING => some PrimitiveType.TYPE_STRING
  | TPrimitiveType.JSONB => some PrimitiveType.TYPE_JSONB
  | TPrimitiveType.BINARY => some PrimitiveType.TYPE_BINARY
  | TPrimitiveType.IPV4 => some PrimitiveType.TYPE_IPV4
  | TPrimitiveType.IPV6 => some PrimitiveType.TYPE_IPV6
  | TPrimitiveType.DECIMALV2 => some PrimitiveType.TYPE_DECIMALV2
  | TPrimitiveType.DECIMAL32 => some PrimitiveType.TYPE_DECIMAL32
  | TPrimitiveType.DECIMAL64 => some PrimitiveType.TYPE_DECIMAL64
  | TPrimitiveType.DECIMAL128I => some PrimitiveType.TYPE_DECIMAL128I
  | TPrimitiveType.DECIMAL256 => some PrimitiveType.TYPE_DECIMAL256
  | TPrimitiveType.CHAR => some PrimitiveType.TYPE_CHAR
  | TPrimitiveType.HLL => some PrimitiveType.TYPE_HLL
  | TPrimitiveType.BITMAP => some PrimitiveType.TYPE_BITMAP
  | TPrimitiveType.QUANTILE_STATE => some PrimitiveType.TYPE_QUANTILE_STATE
  | TPrimitiveType.ARRAY => some PrimitiveType.TYPE_ARRAY
  | TPrimitiveType.MAP => some PrimitiveType.TYPE_MAP
  | TPrimitiveType.STRUCT => some PrimitiveType.TYPE_STRUCT
  | TPrimitiveType.LAMBDA_FUNCTION => some PrimitiveType.TYPE_LAMBDA_FUNCTION
  | TPrimitiveType.AGG_STATE => some PrimitiveType.TYPE_AGG_STATE
  | TPrimitiveType.VARIANT => some PrimitiveType.TYPE_VARIANT
  | TPrimitiveType.other _ => none

/-- The function `to_thrift`. -/
def to_thrift (ptype : PrimitiveType) : TPrimitiveType :=
  match ptype with
  | PrimitiveType.INVALID_TYPE => TPrimitiveType.INVALID_TYPE
  | PrimitiveType.TYPE_NULL => TPrimitiveType.NULL_TYPE
  | PrimitiveType.TYPE_BOOLEAN => TPrimitiveType.BOOLEAN
  | PrimitiveType.TYPE_TINYINT => TPrimitiveType.TINYINT
  | PrimitiveType.TYPE_SMALLINT => TPrimitiveType.SMALLINT
  | PrimitiveType.TYPE_INT => TPrimitiveType.INT
  | PrimitiveType.TYPE_BIGINT => TPrimitiveType.BIGINT
  | PrimitiveType.TYPE_LARGEINT => TPrimitiveType.LARGEINT
  | PrimitiveType.TYPE_FLOAT => TPrimitiveType.FLOAT
  | PrimitiveType.TYPE_DOUBLE => TPrimitiveType.DOUBLE
  | PrimitiveType.TYPE_DATE => TPrimitiveType.DATE
  | PrimitiveType.TYPE_DATETIME => TPrimitiveType.DATETIME
  | PrimitiveType.TYPE_DATEV2 => TPrimitiveType.DATEV2
  | PrimitiveType.TYPE_DATETIMEV2 => TPrimitiveType.DATETIMEV2
  | PrimitiveType.TYPE_TIMEV2 => TPrimitiveType.TIMEV2
  | PrimitiveType.TYPE_VARCHAR => TPrimitiveType.VARCHAR
  | PrimitiveType.TYPE_STRING => TPrimitiveType.STRING
  | PrimitiveType.TYPE_JSONB => TPrimitiveType.JSONB
  | PrimitiveType.TYPE_VARIANT => TPrimitiveType.VARIANT
  | PrimitiveType.TYPE_BINARY => TPrimitiveType.BINARY
  | PrimitiveType.TYPE_IPV4 => TPrimitiveType.IPV4
  | PrimitiveType.TYPE_IPV6 => TPrimitiveType.IPV6
  | PrimitiveType.TYPE_DECIMALV2 => TPrimitiveType.DECIMALV2
  | PrimitiveType.TYPE_DECIMAL32 => TPrimitiveType.DECIMAL32
  | PrimitiveType.TYPE_DECIMAL64 => TPrimitiveType.DECIMAL64
  | PrimitiveType.TYPE_DECIMAL128I => TPrimitiveType.DECIMAL128I
  | PrimitiveType.TYPE_DECIMAL256 => TPrimitiveType.DECIMAL256
  | PrimitiveType.TYPE_CHAR => TPrimitiveType.CHAR
  | PrimitiveType.TYPE_HLL => TPrimitiveType.HLL
  | PrimitiveType.TYPE_BITMAP => TPrimitiveType.BITMAP
  | PrimitiveType.TYPE_QUANTILE_STATE => TPrimitiveType.QUANTILE_STATE
  | PrimitiveType.TYPE_ARRAY => TPrimitiveType.ARRAY
  | PrimitiveType.TYPE_MAP => TPrimitiveType.MAP
  | PrimitiveType.TYPE_STRUCT => TPrimitiveType.STRUCT
  | PrimitiveType.TYPE_LAMBDA_FUNCTION => TPrimitiveType.LAMBDA_FUNCTION
  | PrimitiveType.TYPE_AGG_STATE => TPrimitiveType.AGG_STATE
  | PrimitiveType.other _ => TPrimitiveType.INVALID_TYPE

/-- The function `type_to_string`. -/
def type_to_string (t : PrimitiveType) : String :=
  match t with
  | PrimitiveType.INVALID_TYPE => "INVALID"
  | PrimitiveType.TYPE_NULL => "NULL"
  | PrimitiveType.TYPE_BOOLEAN => "BOOL"
  | PrimitiveType.TYPE_TINYINT => "TINYINT"
  | PrimitiveType.TYPE_SMALLINT => "SMALLINT"
  | PrimitiveType.TYPE_INT => "INT"
  | PrimitiveType.TYPE_BIGINT => "BIGINT"
  | PrimitiveType.TYPE_LARGEINT => "LARGEINT"
  | PrimitiveType.TYPE_FLOAT => "FLOAT"
  | PrimitiveType.TYPE_DOUBLE => "DOUBLE"
  | PrimitiveType.TYPE_DATE => "DATE"
  | PrimitiveType.TYPE_DATETIME => "DATETIME"
  | PrimitiveType.TYPE_DATEV2 => "DATEV2"
  | PrimitiveType.TYPE_DATETIMEV2 => "DATETIMEV2"
  | PrimitiveType.TYPE_TIMEV2 => "TIMEV2"
  | PrimitiveType.TYPE_VARCHAR => "VARCHAR"
  | PrimitiveType.TYPE_STRING => "STRING"
  | PrimitiveType.TYPE_JSONB => "JSONB"
  | PrimitiveType.TYPE_BINARY => "BINARY"
  | PrimitiveType.TYPE_IPV4 => "IPV4"
  | PrimitiveType.TYPE_IPV6 => "IPV6"
  | PrimitiveType.TYPE_DECIMALV2 => "DECIMALV2"
  | PrimitiveType.TYPE_DECIMAL32 => "DECIMAL32"
  | PrimitiveType.TYPE_DECIMAL64 => "DECIMAL64"
  | PrimitiveType.TYPE_DECIMAL128I => "DECIMAL128I"
  | PrimitiveType.TYPE_DECIMAL256 => "DECIMAL256"
  | PrimitiveType.TYPE_CHAR => "CHAR"
  | PrimitiveType.TYPE_HLL => "HLL"
  | PrimitiveType.TYPE_BITMAP => "BITMAP"
  | PrimitiveType.TYPE_QUANTILE_STATE => "QUANTILE_STATE"
  | PrimitiveType.TYPE_AGG_STATE => "AGG_STATE"
  | PrimitiveType.TYPE_ARRAY => "ARRAY"
  | PrimitiveType.TYPE_MAP => "MAP"
  | PrimitiveType.TYPE_STRUCT => "STRUCT"
  | PrimitiveType.TYPE_LAMBDA_FUNCTION => "LAMBDA_FUNCTION TYPE"
  | PrimitiveType.TYPE_VARIANT => "VARIANT"
  | PrimitiveType.other _ => ""

/-- The `case` labels of `type_to_string`: the tags it recognises. -/
def type_to_string_cases : List PrimitiveType :=
  [PrimitiveType.INVALID_TYPE, PrimitiveType.TYPE_NULL, PrimitiveType.TYPE_BOOLEAN,
   PrimitiveType.TYPE_TINYINT, PrimitiveType.TYPE_SMALLINT, PrimitiveType.TYPE_INT,
   PrimitiveType.TYPE_BIGINT, PrimitiveType.TYPE_LARGEINT, PrimitiveType.TYPE_FLOAT,
   PrimitiveType.TYPE_DOUBLE, PrimitiveType.TYPE_DATE, PrimitiveType.TYPE_DATETIME,
   PrimitiveType.TYPE_DATEV2, PrimitiveType.TYPE_DATETIMEV2, PrimitiveType.TYPE_TIMEV2,
   PrimitiveType.TYPE_VARCHAR, PrimitiveType.TYPE_STRING, PrimitiveType.TYPE_JSONB,
   PrimitiveType.TYPE_BINARY, PrimitiveType.TYPE_IPV4, PrimitiveType.TYPE_IPV6,
   PrimitiveType.TYPE_DECIMALV2, PrimitiveType.TYPE_DECIMAL32, PrimitiveType.TYPE_DECIMAL64,
   PrimitiveType.TYPE_DECIMAL128I, PrimitiveType.TYPE_DECIMAL256, PrimitiveType.TYPE_CHAR,
   PrimitiveType.TYPE_HLL, PrimitiveType.TYPE_BITMAP, PrimitiveType.TYPE_QUANTILE_STATE,
   PrimitiveType.TYPE_AGG_STATE, PrimitiveType.TYPE_ARRAY, PrimitiveType.TYPE_MAP,
   PrimitiveType.TYPE_STRUCT, PrimitiveType.TYPE_LAMBDA_FUNCTION, PrimitiveType.TYPE_VARIANT]

/-- The `case` labels of `thrift_to_type`: the wire tags it recognises. -/
def thrift_to_type_cases : List TPrimitiveType :=
  [TPrimitiveType.INVALID_TYPE, TPrimitiveType.NULL_TYPE, TPrimitiveType.BOOLEAN,
   TPrimitiveType.TINYINT, TPrimitiveType.SMALLINT, TPrimitiveType.INT, TPrimitiveType.BIGINT,
   TPrimitiveType.LARGEINT, TPrimitiveType.FLOAT, TPrimitiveType.DOUBLE, TPrimitiveType.DATE,
   TPrimitiveType.DATETIME, TPrimitiveType.DATEV2, TPrimitiveType.DATETIMEV2,
   TPrimitiveType.TIMEV2, TPrimitiveType.TIME, TPrimitiveType.VARCHAR, TPrimitiveType.STRING,
   TPrimitiveType.JSONB, TPrimitiveType.BINARY, TPrimitiveType.IPV4, TPrimitiveType.IPV6,
   TPrimitiveType.DECIMALV2, TPrimitiveType.DECIMAL32, TPrimitiveType.DECIMAL64,
   TPrimitiveType.DECIMAL128I, TPrimitiveType.DECIMAL256, TPrimitiveType.CHAR,
   TPrimitiveType.HLL, TPrimitiveType.BITMAP, TPrimitiveType.QUANTILE_STATE,
   TPrimitiveType.ARRAY, TPrimitiveType.MAP, TPrimitiveType.STRUCT,
   TPrimitiveType.LAMBDA_FUNCTION, TPrimitiveType.AGG_STATE, TPrimitiveType.VARIANT]

/-! ## `vec/functions/function_bit_count.cpp` -/

/-- The template argument `T` of `BitCountImpl<T>`: one of the five signed
integer types the `if constexpr` test names, or any other C++ type, given by its
name and its `sizeof`. -/
inductive CppType where
  | Int8 : CppType
  | Int16 : CppType
  | Int32 : CppType
  | Int64 : CppType
  | Int128 : CppType
  | other (name : String) (size_of : Nat) : CppType
deriving DecidableEq

/-- The value `sizeof(T)`. -/
def CppType.size_of : CppType → Nat
  | CppType.Int8 => 1
  | CppType.Int16 => 2
  | CppType.Int32 => 4
  | CppType.Int64 => 8
  | CppType.Int128 => 16
  | CppType.other _ size => size

/-- The error codes `function_bit_count.cpp` uses. -/
inductive ErrorCode where
  | INVALID_ARGUMENT : ErrorCode
deriving DecidableEq

/-- The thrown `doris::Exception`: an error code and a message. -/
structure Exception where
  code : ErrorCode
  message : String
deriving DecidableEq

/-- The member `BitCountImpl<T>::ResultType`:
`sizeof(T) * 8 >= 128 ? TYPE_SMALLINT : TYPE_TINYINT`. -/
def BitCountImpl.ResultType (T : CppType) : PrimitiveType :=
  if T.size_of * 8 ≥ 128 then PrimitiveType.TYPE_SMALLINT else PrimitiveType.TYPE_TINYINT

/-- The width in bits of `PrimitiveTypeTraits<ResultType>::CppType`: `Int16` for
`TYPE_SMALLINT`, `Int8` for `TYPE_TINYINT`. -/
def BitCountImpl.result_bits (T : CppType) : Nat :=
  if BitCountImpl.ResultType T = PrimitiveType.TYPE_SMALLINT then 16 else 8

/-- The conversion `static_cast<std::make_unsigned_t<T>>(a)` for a `T` of `bits`
bits: the value modulo `2 ^ bits`. -/
def to_unsigned (bits : Nat) (a : Int) : Nat := (a % (2 : Int) ^ bits).toNat

/-- The function `std::popcount` on an unsigned value of `bits` bits: the number
of its bits that are 1. -/
def popcount (bits : Nat) (x : Nat) : Nat :=
  (List.range bits).countP (fun i => x.testBit i)

/-- The call `cast_set<To, int, false>(v)`: an unchecked narrowing conversion to
the signed type of `bits` bits, two's complement. -/
def cast_set (bits : Nat) (v : Int) : Int :=
  let u := v % (2 : Int) ^ bits
  if u < (2 : Int) ^ (bits - 1) then u else u - (2 : Int) ^ bits

/-- The function `BitCountImpl<T>::apply`. For the five signed integer types the
`if constexpr` branch counts the bits of the argument; for every other type the
function throws. -/
def BitCountImpl.apply (T : CppType) (a : Int) : Except Exception Int :=
  match T with
  | CppType.other _ _ =>
    Except.error { code := ErrorCode.INVALID_ARGUMENT
                   message := "bit_count only support using INTEGER as operator" }
  | _ =>
    Except.ok (cast_set (BitCountImpl.result_bits T)
      ((popcount (T.size_of * 8) (to_unsigned (T.size_of * 8) a) : Nat) : Int))

/-! ## Data types of the arguments -/

/-- Modelled from the spec: the classes of `vec/data_types` are declared outside
the embedded sources. A data type is a scalar type, a nullable wrapper around a
type, or an array type with its nested type; specification 4.3 speaks of the
array type of an input and of its nested type being nullable. -/
inductive DataType where
  | scalar (type : PrimitiveType) : DataType
  | nullable (nested : DataType) : DataType
  | array (nested : DataType) : DataType
deriving DecidableEq

/-- The method `IDataType::is_nullable`. -/
def DataType.is_nullable : DataType → Bool
  | DataType.nullable _ => true
  | _ => false

/-- The call `check_and_get_data_type<DataTypeArray>(arg.get())`, followed by
`get_nested_type()`: the nested type of an array type, the null pointer (`none`)
for any other type. -/
def check_and_get_nested_type : DataType → Option DataType
  | DataType.array nested => some nested
  | _ => none

/-- The loop of `ArrayMapImpl::get_return_type`: `res` after the loop, which
stops at the first argument whose nested type is nullable. The outer `none` is
the dereference of the null pointer that `check_and_get_data_type` returns for
an argument that is not an array type. -/
def ArrayMapImpl.get_return_type_loop : List DataType → Option (Option DataType)
  | [] => some none
  | arg :: rest =>
    match check_and_get_nested_type arg with
    | none => none
    | some nested =>
      if nested.is_nullable then some (some arg)
      else ArrayMapImpl.get_return_type_loop rest

/-- The function `ArrayMapImpl::get_return_type`: `res = res ? res : arguments[0]`
after the loop. The result is `none` where the source dereferences a null
pointer or indexes an empty `arguments`. -/
def ArrayMapImpl.get_return_type (arguments : List DataType) : Option DataType :=
  match ArrayMapImpl.get_return_type_loop arguments with
  | none => none
  | some (some res) => some res
  | some none => arguments.head?

/-- The nested type of an array type is nullable. -/
def DataType.nested_is_nullable (t : DataType) : Bool :=
  match check_and_get_nested_type t with
  | none => false
  | some nested => nested.is_nullable

/-- The argument types `Array(Int)` and `Array(Nullable(Int))`. -/
def types_plain_then_nullable : List DataType :=
  [DataType.array (DataType.scalar PrimitiveType.TYPE_INT),
   DataType.array (DataType.nullable (DataType.scalar PrimitiveType.TYPE_INT))]

/-- The column `execute_impl` of `FunctionArrayPop` stores in the result slot for
the source `src`. -/
def pop_column [Inhabited α] (pop : PopType) (src : ColumnArrayExecutionData α) :
    ColumnArrayExecutionData α :=
  assemble_column_array
    (slice_array (create_mutable_data src.nested_col src.nested_nullmap_data.isSome) src
      (List.replicate src.offsets_ptr.length pop.start_offset)
      (FunctionArrayPop.length_column src))

/-- Modelled from the spec: the broadcast of a constant column is defined outside
the embedded sources. Glossary of the specification: a constant column holds one
logical value reused for every row. This is the full column of `n` rows that
materializes it: every row repeats row 0 of `d`, with its null markers, in a
nested column of the same physical representation. -/
def ColumnArrayExecutionData.replicate_row [Inhabited α] (d : ColumnArrayExecutionData α)
    (n : Nat) : ColumnArrayExecutionData α :=
  let row : List (α × Nat) :=
    (List.range' (d.row_begin 0) (d.row_end 0 - d.row_begin 0)).map
      (fun pos => (d.nested_col.data.getD pos default, d.null_flag_at pos))
  { nested_col := { kind := d.nested_col.kind
                    data := ((List.replicate n row).flatten).map Prod.fst }
    nested_nullmap_data :=
      if d.nested_nullmap_data.isSome then
        some (((List.replicate n row).flatten).map Prod.snd)
      else none
    offsets_ptr := cum_offsets 0 ((List.replicate n row).map List.length) }

/-- One row `[2, 3, 4]` of integers in a nested column of another physical
representation than `ints_1223`. -/
def ints_234_wide : ColumnArrayExecutionData Int :=
  { nested_col := { kind := 4, data := [2, 3, 4] }
    nested_nullmap_data := some [0, 0, 0]
    offsets_ptr := [3] }

/-- Three rows `[1, 2]`, `[]`, `[2]` of integers. -/
def ints_three_rows : ColumnArrayExecutionData Int :=
  { nested_col := { kind := 3, data := [1, 2, 2] }
    nested_nullmap_data := some [0, 0, 0]
    offsets_ptr := [2, 2, 3] }

/-- The state of the row loop of `OpenMapImpl::apply` over the batch
`[start_row, end_row)`, builder and `dst_off`, after it has processed the rows up
to and including `row`. -/
def OpenMapImpl.apply_state_after [BEq α] [Inhabited α] (operation : MapOperation)
    (dst : ColumnArrayMutableData α) (params : List (ColumnArrayExecutionData α))
    (col_const : List Bool) (start_row end_row row : Nat) : ColumnArrayMutableData α × Nat :=
  ((List.range' start_row (end_row - start_row)).take (row + 1 - start_row)).foldl
    (OpenMapImpl.apply_row operation params col_const) (dst, 0)

/-- The `case` labels of `to_thrift`: the internal tags it handles by a named
case. -/
def to_thrift_cases : List PrimitiveType :=
  [PrimitiveType.INVALID_TYPE, PrimitiveType.TYPE_NULL, PrimitiveType.TYPE_BOOLEAN,
   PrimitiveType.TYPE_TINYINT, PrimitiveType.TYPE_SMALLINT, PrimitiveType.TYPE_INT,
   PrimitiveType.TYPE_BIGINT, PrimitiveType.TYPE_LARGEINT, PrimitiveType.TYPE_FLOAT,
   PrimitiveType.TYPE_DOUBLE, PrimitiveType.TYPE_DATE, PrimitiveType.TYPE_DATETIME,
   PrimitiveType.TYPE_DATEV2, PrimitiveType.TYPE_DATETIMEV2, PrimitiveType.TYPE_TIMEV2,
   PrimitiveType.TYPE_VARCHAR, PrimitiveType.TYPE_STRING, PrimitiveType.TYPE_JSONB,
   PrimitiveType.TYPE_VARIANT, PrimitiveType.TYPE_BINARY, PrimitiveType.TYPE_IPV4,
   PrimitiveType.TYPE_IPV6, PrimitiveType.TYPE_DECIMALV2, PrimitiveType.TYPE_DECIMAL32,
   PrimitiveType.TYPE_DECIMAL64, PrimitiveType.TYPE_DECIMAL128I, PrimitiveType.TYPE_DECIMAL256,
   PrimitiveType.TYPE_CHAR, PrimitiveType.TYPE_HLL, PrimitiveType.TYPE_BITMAP,
   PrimitiveType.TYPE_QUANTILE_STATE, PrimitiveType.TYPE_ARRAY, PrimitiveType.TYPE_MAP,
   PrimitiveType.TYPE_STRUCT, PrimitiveType.TYPE_LAMBDA_FUNCTION, PrimitiveType.TYPE_AGG_STATE]

/-- The values stored in the nested column for row `row`, the placeholders of
null elements included, in order. -/
def ColumnArrayExecutionData.row_values [Inhabited α] (d : ColumnArrayExecutionData α)
    (row : Nat) : List α :=
  (List.range' (d.row_begin row) (d.row_end row - d.row_begin row)).map
    (fun pos => d.nested_col.data.getD pos default)

/-- The nullmap entries of row `row`, in order (0 everywhere without nullmap). -/
def ColumnArrayExecutionData.row_null_flags (d : ColumnArrayExecutionData α) (row : Nat) :
    List Nat :=
  (List.range' (d.row_begin row) (d.row_end row - d.row_begin row)).map d.null_flag_at

/-- The members `action` and `map` of `OpenMapImpl` after `reset()` and the inner
loop of `OpenMapImpl::apply` over all arguments, for logical row `row`. -/
def OpenMapImpl.after_arguments [BEq α] [Inhabited α] (col_const : List Bool)
    (row : Nat) (params : List (ColumnArrayExecutionData α)) : OpenMapImpl α :=
  OpenMapImpl.apply_params col_const row 0 params OpenMapImpl.reset

/-- One row `[null, 7]` of integers. -/
def ints_null_7 : ColumnArrayExecutionData Int :=
  { nested_col := { kind := 3, data := [0, 7] }
    nested_nullmap_data := some [1, 0]
    offsets_ptr := [2] }

/-! ## Floating-point elements -/

/-- A `Float64` element, given by its 64 bits: the sign, 11 exponent bits and 52
fraction bits. -/
structure Float64 where
  bits : Nat

/-- NaN: every exponent bit is set and the fraction is not 0. -/
def Float64.is_nan (x : Float64) : Bool :=
  (x.bits / 2 ^ 52) % 2 ^ 11 == 2 ^ 11 - 1 && x.bits % 2 ^ 52 != 0

/-- Positive or negative zero: every bit but the sign is 0. -/
def Float64.is_zero (x : Float64) : Bool := x.bits % 2 ^ 63 == 0

/-- The comparison `operator==` of `double`, which the frequency map applies to
the keys of a `Float64` column: NaN equals nothing, the two zeros are equal, and
two other values are equal when their bits are. -/
def Float64.operator_eq (x y : Float64) : Bool :=
  !x.is_nan && !y.is_nan && ((x.is_zero && y.is_zero) || x.bits % 2 ^ 64 == y.bits % 2 ^ 64)

instance Float64.instBEq : BEq Float64 := ⟨Float64.operator_eq⟩

/-- The element `insert_default()` appends to a `Float64` column: 0.0. -/
instance Float64.instInhabited : Inhabited Float64 := ⟨⟨0⟩⟩

/-- The quiet NaN with the bits `0x7FF8000000000000`. -/
def Float64.quiet_nan : Float64 := ⟨0x7FF8000000000000⟩

/-- The number 2.0, with the bits `0x4000000000000000`. -/
def Float64.two : Float64 := ⟨0x4000000000000000⟩

/-- One row `[NaN, 2.0]` of doubles, without a null element. -/
def doubles_nan_2 : ColumnArrayExecutionData Float64 :=
  { nested_col := { kind := 7, data := [Float64.quiet_nan, Float64.two] }
    nested_nullmap_data := some [0, 0]
    offsets_ptr := [2] }

/-- One row `[2.0, NaN]` of doubles, without a null element. -/
def doubles_2_nan : ColumnArrayExecutionData Float64 :=
  { nested_col := { kind := 7, data := [Float64.two, Float64.quiet_nan] }
    nested_nullmap_data := some [0, 0]
    offsets_ptr := [2] }

/-- One row `[NaN]` of doubles, without a null element. -/
def doubles_nan : ColumnArrayExecutionData Float64 :=
  { nested_col := { kind := 7, data := [Float64.quiet_nan] }
    nested_nullmap_data := some [0]
    offsets_ptr := [1] }

/-! ## The builder after the row loop -/

theorem append_cells_nil (dst : ColumnArrayMutableData α) : dst.append_cells [] = dst := by
  cases dst with
  | mk c nm o =>
    cases nm <;> simp [ColumnArrayMutableData.append_cells]

theorem append_cells_append (dst : ColumnArrayMutableData α) (xs ys : List (α × Nat)) :
    (dst.append_cells xs).append_cells ys = dst.append_cells (xs ++ ys) := by
  cases dst with
  | mk c nm o =>
    cases nm <;> simp [ColumnArrayMutableData.append_cells]

theorem push_value_push_nullmap (dst : ColumnArrayMutableData α) (v : α) (flag : Nat) :
    (dst.push_value v).push_nullmap flag = dst.append_cells [(v, flag)] := by
  cases dst with
  | mk c nm o =>
    cases nm <;>
      simp [ColumnArrayMutableData.append_cells, ColumnArrayMutableData.push_value,
        ColumnArrayMutableData.push_nullmap]

theorem insert_default_push_nullmap [Inhabited α] (dst : ColumnArrayMutableData α) (flag : Nat) :
    (dst.insert_default).push_nullmap flag = dst.append_cells [(default, flag)] := by
  cases dst with
  | mk c nm o =>
    cases nm <;>
      simp [ColumnArrayMutableData.append_cells, ColumnArrayMutableData.insert_default,
        ColumnArrayMutableData.push_nullmap]

theorem emit_entries_eq (operation : MapOperation) (n : Nat) (map : Map α)
    (st : ColumnArrayMutableData α × Nat) :
    OpenMapImpl.emit_entries operation n map st
      = (st.1.append_cells ((emitted_entries operation n map).map (fun entry => (entry.1, 0))),
         st.2 + (emitted_entries operation n map).length) := by
  induction map generalizing st with
  | nil => simp [OpenMapImpl.emit_entries, emitted_entries, append_cells_nil]
  | cons e rest ih =>
    unfold OpenMapImpl.emit_entries
    by_cases h : (operation = MapOperation.INTERSECT ∧ e.2 = n) ∨ operation = MapOperation.UNION
    · rw [if_pos h, ih]
      have hf : emitted_entries operation n (e :: rest) = e :: emitted_entries operation n rest := by
        simp [emitted_entries, List.filter_cons, h]
      rw [hf, push_value_push_nullmap, append_cells_append]
      simp [Nat.add_assoc, Nat.add_comm]
    · rw [if_neg h, ih]
      have hf : emitted_entries operation n (e :: rest) = emitted_entries operation n rest := by
        simp [emitted_entries, List.filter_cons, h]
      rw [hf]

theorem apply_row_eq [DecidableEq α] [Inhabited α] (operation : MapOperation)
    (params : List (ColumnArrayExecutionData α)) (col_const : List Bool)
    (st : ColumnArrayMutableData α × Nat) (row : Nat) :
    OpenMapImpl.apply_row operation params col_const st row
      = ((st.1.append_cells (row_cells operation params col_const row)).push_offset
            (st.2 + (row_cells operation params col_const row).length),
         st.2 + (row_cells operation params col_const row).length) := by
  unfold OpenMapImpl.apply_row row_cells
  simp only [emit_entries_eq]
  split
  · simp [insert_default_push_nullmap, append_cells_append, Nat.add_assoc, Nat.add_comm]
  · simp [append_cells_append]

/-- A row loop whose step appends the cells of the row and pushes the running
element count produces the concatenated cells and the cumulative offsets. -/
theorem foldl_cells_eq (cells : Nat → List (α × Nat))
    (step : ColumnArrayMutableData α × Nat → Nat → ColumnArrayMutableData α × Nat)
    (hstep : ∀ st row, step st row
      = ((st.1.append_cells (cells row)).push_offset (st.2 + (cells row).length),
         st.2 + (cells row).length))
    (rows : List Nat) (st : ColumnArrayMutableData α × Nat) :
    (rows.foldl step st).1
      = { (st.1.append_cells (rows.map cells).flatten) with
          offsets_ptr := st.1.offsets_ptr
            ++ cum_offsets st.2 (rows.map (fun r => (cells r).length)) } := by
  induction rows generalizing st with
  | nil =>
    cases st with
    | mk dst off =>
      cases dst with
      | mk c nm o => cases nm <;> simp [cum_offsets, ColumnArrayMutableData.append_cells]
  | cons r rs ih =>
    rw [List.foldl_cons, ih, hstep]
    cases st with
    | mk dst off =>
      cases dst with
      | mk c nm o =>
        cases nm <;>
          simp [cum_offsets, ColumnArrayMutableData.append_cells,
            ColumnArrayMutableData.push_offset]

/-! ## Reading a row back from the assembled column -/

theorem cum_offsets_length (acc : Nat) (ns : List Nat) : (cum_offsets acc ns).length = ns.length := by
  induction ns generalizing acc with
  | nil => rfl
  | cons n ns ih => simp [cum_offsets, ih]

theorem cum_offsets_getD {β : Type} (L : List (List β)) (acc k : Nat) (hk : k < L.length) :
    (cum_offsets acc (L.map List.length)).getD k 0 = acc + ((L.take (k + 1)).flatten).length := by
  induction L generalizing acc k with
  | nil => simp at hk
  | cons l L ih =>
    cases k with
    | zero => simp [cum_offsets]
    | succ k =>
      have hk2 : k < L.length := by simpa using hk
      simp only [List.map_cons, cum_offsets, List.getD_cons_succ, List.take_succ_cons,
        List.flatten_cons, List.length_append]
      rw [ih (acc + l.length) k hk2]
      omega

theorem flatten_split {β : Type} (L : List (List β)) (k : Nat) (hk : k < L.length) :
    L.flatten = (L.take k).flatten ++ L[k] ++ (L.drop (k + 1)).flatten := by
  have h : L = L.take k ++ L[k] :: L.drop (k + 1) := by
    rw [← List.drop_eq_getElem_cons hk, List.take_append_drop]
  exact (congrArg List.flatten h).trans
    (by rw [List.flatten_append, List.flatten_cons, List.append_assoc])

theorem take_succ_flatten_length {β : Type} (L : List (List β)) (k : Nat) (hk : k < L.length) :
    ((L.take (k + 1)).flatten).length = ((L.take k).flatten).length + L[k].length := by
  rw [List.take_succ, List.getElem?_eq_getElem hk]
  simp only [Option.toList, List.flatten_append, List.length_append, List.flatten_cons,
    List.flatten_nil, List.append_nil]

theorem element_at_mid [Inhabited α] (kind : Nat) (A B C : List (α × Nat)) (has_nullmap : Bool)
    (offs : List Nat) (j : Nat) (hj : j < B.length) :
    ColumnArrayExecutionData.element_at
      { nested_col := { kind := kind, data := (A ++ B ++ C).map Prod.fst }
        nested_nullmap_data := if has_nullmap then some ((A ++ B ++ C).map Prod.snd) else none
        offsets_ptr := offs } (A.length + j)
      = read_cell has_nullmap B[j] := by
  have h1 : ((A ++ B ++ C).map Prod.fst).getD (A.length + j) default = B[j].1 := by
    have hlt : A.length + j < ((A ++ B ++ C).map Prod.fst).length := by simp; omega
    rw [List.getD_eq_getElem _ _ hlt]
    simp [List.getElem_append_left, List.getElem_append_right, hj]
  have h2 : ((A ++ B ++ C).map Prod.snd).getD (A.length + j) 0 = B[j].2 := by
    have hlt : A.length + j < ((A ++ B ++ C).map Prod.snd).length := by simp; omega
    rw [List.getD_eq_getElem _ _ hlt]
    simp [List.getElem_append_left, List.getElem_append_right, hj]
  cases has_nullmap with
  | false =>
    simp only [ColumnArrayExecutionData.element_at, ColumnArrayExecutionData.is_null_at,
      read_cell, h1]
    simp
  | true =>
    simp only [ColumnArrayExecutionData.element_at, ColumnArrayExecutionData.is_null_at, read_cell,
      if_true, h1, h2, Bool.true_and]

theorem row_elements_read_back [Inhabited α] (kind : Nat) (L : List (List (α × Nat)))
    (has_nullmap : Bool) (k : Nat) (hk : k < L.length) :
    ColumnArrayExecutionData.row_elements
      { nested_col := { kind := kind, data := L.flatten.map Prod.fst }
        nested_nullmap_data := if has_nullmap then some (L.flatten.map Prod.snd) else none
        offsets_ptr := cum_offsets 0 (L.map List.length) } k
      = L[k].map (read_cell has_nullmap) := by
  have hb : ColumnArrayExecutionData.row_begin
      ({ nested_col := { kind := kind, data := L.flatten.map Prod.fst }
         nested_nullmap_data := if has_nullmap then some (L.flatten.map Prod.snd) else none
         offsets_ptr := cum_offsets 0 (L.map List.length) } : ColumnArrayExecutionData α) k
      = ((L.take k).flatten).length := by
    unfold ColumnArrayExecutionData.row_begin
    cases k with
    | zero => simp
    | succ k =>
      have hk2 : k < L.length := by omega
      show (if k + 1 = 0 then 0 else (cum_offsets 0 (L.map List.length)).getD (k + 1 - 1) 0) = _
      rw [if_neg (Nat.succ_ne_zero k), Nat.add_sub_cancel, cum_offsets_getD L 0 k hk2,
        Nat.zero_add]
  have he : ColumnArrayExecutionData.row_end
      ({ nested_col := { kind := kind, data := L.flatten.map Prod.fst }
         nested_nullmap_data := if has_nullmap then some (L.flatten.map Prod.snd) else none
         offsets_ptr := cum_offsets 0 (L.map List.length) } : ColumnArrayExecutionData α) k
      = ((L.take k).flatten).length + L[k].length := by
    show (cum_offsets 0 (L.map List.length)).getD k 0 = _
    rw [cum_offsets_getD L 0 k hk, Nat.zero_add, take_succ_flatten_length L k hk]
  unfold ColumnArrayExecutionData.row_elements
  rw [hb, he, Nat.add_sub_cancel_left]
  apply List.ext_getElem
  · simp
  · intro j h1 h2
    have hj : j < L[k].length := by simpa using h2
    simp only [List.getElem_map, List.getElem_range', Nat.one_mul]
    rw [flatten_split L k hk]
    exact element_at_mid kind _ _ _ has_nullmap _ j hj

/-- Reading row `k` back from the column assembled after a row loop over a fresh
builder gives the cells appended for the `k`-th processed row. -/
theorem fresh_row_elements [Inhabited α] (cells : Nat → List (α × Nat))
    (step : ColumnArrayMutableData α × Nat → Nat → ColumnArrayMutableData α × Nat)
    (hstep : ∀ st row, step st row
      = ((st.1.append_cells (cells row)).push_offset (st.2 + (cells row).length),
         st.2 + (cells row).length))
    (col : IColumn α) (nullable : Bool) (rows : List Nat) (k : Nat) (hk : k < rows.length) :
    (assemble_column_array
        (rows.foldl step (create_mutable_data col nullable, 0)).1).row_elements k
      = (cells rows[k]).map (read_cell nullable) := by
  have heq : assemble_column_array (rows.foldl step (create_mutable_data col nullable, 0)).1
      = { nested_col := { kind := col.kind, data := ((rows.map cells).flatten).map Prod.fst }
          nested_nullmap_data :=
            if nullable then some (((rows.map cells).flatten).map Prod.snd) else none
          offsets_ptr := cum_offsets 0 ((rows.map cells).map List.length) } := by
    rw [foldl_cells_eq cells step hstep]
    cases nullable <;>
      simp [assemble_column_array, create_mutable_data, ColumnArrayMutableData.append_cells,
        List.map_map, Function.comp_def]
  have hk2 : k < (rows.map cells).length := by simpa using hk
  rw [heq, row_elements_read_back _ _ _ _ hk2, List.getElem_map]

theorem apply_row_elements [DecidableEq α] [Inhabited α] (operation : MapOperation)
    (col : IColumn α) (nullable : Bool) (params : List (ColumnArrayExecutionData α))
    (col_const : List Bool) (start_row end_row row : Nat)
    (h1 : start_row ≤ row) (h2 : row < end_row) :
    (assemble_column_array
        (OpenMapImpl.apply operation (create_mutable_data col nullable) params col_const
          start_row end_row)).row_elements (row - start_row)
      = (row_cells operation params col_const row).map (read_cell nullable) := by
  have hk : row - start_row < (List.range' start_row (end_row - start_row)).length := by
    simp; omega
  unfold OpenMapImpl.apply
  rw [fresh_row_elements (row_cells operation params col_const) _
    (apply_row_eq operation params col_const) col nullable _ _ hk, List.getElem_range']
  congr 2
  omega

/-! ## The frequency map -/

/-- On an element type whose `==` is equality of values, `Map.incr` compares the
keys themselves. -/
theorem Map.incr_cons [DecidableEq α] (k : α) (c : Nat) (m : Map α) (key : α) :
    Map.incr ((k, c) :: m) key
      = if k = key then (k, c + 1) :: m else (k, c) :: Map.incr m key := by
  by_cases h : k = key
  · simp [Map.incr, h]
  · simp [Map.incr, h]

/-- On an element type whose `==` is equality of values, the keys `Action.apply`
keeps of one row are the deduplicated row. -/
theorem pwFilter_beq_eq_dedup [DecidableEq α] (l : List α) :
    l.pwFilter (fun a b => (a == b) = false) = l.dedup := by
  induction l with
  | nil => rfl
  | cons a l ih =>
    by_cases h : a ∈ l.dedup
    · rw [List.dedup_cons_of_mem (List.mem_dedup.1 h), List.pwFilter_cons_of_neg, ih]
      rw [ih]
      intro hall
      have := hall a h
      simp at this
    · rw [List.dedup_cons_of_not_mem (fun h2 => h (List.mem_dedup.2 h2)),
        List.pwFilter_cons_of_pos, ih]
      rw [ih]
      intro b hb
      have hne : a ≠ b := fun h2 => h (h2 ▸ hb)
      simpa using hne

theorem Map.incr_keys [DecidableEq α] (m : Map α) (key : α) :
    (Map.incr m key).map Prod.fst
      = if key ∈ m.map Prod.fst then m.map Prod.fst else m.map Prod.fst ++ [key] := by
  induction m with
  | nil => simp [Map.incr]
  | cons e m ih =>
    obtain ⟨k, c⟩ := e
    rw [Map.incr_cons]
    by_cases h : k = key
    · simp [h]
    · rw [if_neg h, List.map_cons, ih]
      have hne : ¬ key = k := fun h2 => h h2.symm
      by_cases hm : key ∈ m.map Prod.fst
      · simp [hm]
      · simp only [hm, if_false, List.map_cons, List.mem_cons, hne, false_or, List.cons_append]

theorem Map.incr_WF [DecidableEq α] (m : Map α) (key : α) (h : Map.WF m) :
    Map.WF (Map.incr m key) := by
  constructor
  · rw [Map.incr_keys]
    by_cases hm : key ∈ m.map Prod.fst
    · rw [if_pos hm]; exact h.1
    · rw [if_neg hm]
      exact List.Nodup.append h.1 (List.nodup_singleton key)
        (by
          intro a ha hb
          rw [List.mem_singleton] at hb
          exact hm (hb ▸ ha))
  · have h2 := h.2
    clear h
    induction m with
    | nil =>
      intro e he
      simp [Map.incr] at he
      simp [he]
    | cons e0 m ih =>
      obtain ⟨k, c⟩ := e0
      intro e he
      rw [Map.incr_cons] at he
      by_cases hk : k = key
      · rw [if_pos hk] at he
        rcases List.mem_cons.1 he with h3 | h3
        · rw [h3]; exact Nat.le_add_left 1 c
        · exact h2 e (List.mem_cons_of_mem _ h3)
      · rw [if_neg hk] at he
        rcases List.mem_cons.1 he with h3 | h3
        · exact h2 e (h3 ▸ List.mem_cons_self _ _)
        · exact ih (fun e he => h2 e (List.mem_cons_of_mem _ he)) e h3

theorem Map.count_incr [DecidableEq α] (m : Map α) (key v : α) :
    Map.count (Map.incr m key) v = Map.count m v + if key = v then 1 else 0 := by
  induction m with
  | nil => simp [Map.incr, Map.count]
  | cons e m ih =>
    obtain ⟨k, c⟩ := e
    rw [Map.incr_cons]
    by_cases hk : k = key
    · subst hk
      by_cases hv : k = v <;> simp [Map.count, hv]
    · rw [if_neg hk]
      by_cases hv : k = v
      · have : ¬ key = v := fun h2 => hk (hv.trans h2.symm)
        simp [Map.count, hv, this]
      · simp [Map.count, hv, ih]

theorem Map.count_eq_zero [DecidableEq α] (m : Map α) (v : α) (h : v ∉ m.map Prod.fst) :
    Map.count m v = 0 := by
  induction m with
  | nil => rfl
  | cons e m ih =>
    obtain ⟨k, c⟩ := e
    simp only [List.map_cons, List.mem_cons, not_or] at h
    have hk : ¬ k = v := fun h2 => h.1 h2.symm
    simp [Map.count, hk, ih h.2]

theorem Map.mem_iff_count [DecidableEq α] (m : Map α) (h : Map.WF m) (v : α) (c : Nat) :
    (v, c) ∈ m ↔ 1 ≤ c ∧ Map.count m v = c := by
  induction m with
  | nil =>
    simp only [List.not_mem_nil, Map.count, false_iff, not_and]
    intro h1 h2
    omega
  | cons e m ih =>
    obtain ⟨k, c0⟩ := e
    have hnd : k ∉ m.map Prod.fst ∧ (m.map Prod.fst).Nodup := by
      simpa using h.1
    have hwf : Map.WF m := ⟨hnd.2, fun e he => h.2 e (List.mem_cons_of_mem _ he)⟩
    have hc0 : 1 ≤ c0 := h.2 (k, c0) (List.mem_cons_self _ _)
    by_cases hk : k = v
    · subst hk
      have hnot : (k, c) ∉ m := fun hm => hnd.1 (List.mem_map.2 ⟨(k, c), hm, rfl⟩)
      simp only [List.mem_cons, Prod.mk.injEq, true_and, hnot, or_false, Map.count, if_true]
      constructor
      · intro h1; subst h1; exact ⟨hc0, rfl⟩
      · intro h1; exact h1.2.symm
    · have hne : ¬ ((v, c) = (k, c0)) := fun h2 => hk (Prod.mk.inj h2).1.symm
      simp only [List.mem_cons, hne, false_or, Map.count, hk, if_false]
      exact ih hwf

theorem Map.foldl_incr_WF [DecidableEq α] (ks : List α) (m : Map α) (h : Map.WF m) :
    Map.WF (ks.foldl Map.incr m) := by
  induction ks generalizing m with
  | nil => exact h
  | cons k ks ih => exact ih _ (Map.incr_WF m k h)

theorem Map.count_foldl_incr [DecidableEq α] (ks : List α) (hks : ks.Nodup) (m : Map α) (v : α) :
    Map.count (ks.foldl Map.incr m) v = Map.count m v + if v ∈ ks then 1 else 0 := by
  induction ks generalizing m with
  | nil => simp
  | cons k ks ih =>
    have hnd : k ∉ ks ∧ ks.Nodup := by simpa using hks
    rw [List.foldl_cons, ih hnd.2, Map.count_incr]
    by_cases hk : k = v
    · subst hk
      simp [hnd.1]
    · have hne : ¬ v = k := fun h2 => hk h2.symm
      simp [hk, hne]

theorem frequency_map_WF [DecidableEq α] (rows : List (List (Option α))) (m : Map α)
    (h : Map.WF m) : Map.WF (frequency_map rows m) := by
  induction rows generalizing m with
  | nil => exact h
  | cons r rows ih => exact ih _ (Map.foldl_incr_WF _ m h)

theorem frequency_map_count [DecidableEq α] (rows : List (List (Option α))) (m : Map α) (v : α) :
    Map.count (frequency_map rows m) v
      = Map.count m v + rows.countP (fun r => decide (some v ∈ r)) := by
  induction rows generalizing m with
  | nil => simp [frequency_map]
  | cons r rows ih =>
    have hstep : frequency_map (r :: rows) m
        = frequency_map rows ((r.filterMap id).dedup.foldl Map.incr m) := rfl
    rw [hstep, ih, Map.count_foldl_incr _ (List.nodup_dedup _)]
    have hmem : v ∈ (r.filterMap id).dedup ↔ some v ∈ r := by
      rw [List.mem_dedup, List.mem_filterMap]
      constructor
      · rintro ⟨a, ha, hav⟩
        have : a = some v := hav
        exact this ▸ ha
      · intro hv
        exact ⟨some v, hv, rfl⟩
    by_cases hv : some v ∈ r
    · rw [if_pos (hmem.2 hv), List.countP_cons, if_pos (by simpa using hv)]
      omega
    · rw [if_neg (fun h => hv (hmem.1 h)), List.countP_cons, if_neg (by simpa using hv)]
      omega

theorem frequency_map_mem [DecidableEq α] (rows : List (List (Option α))) (v : α) (c : Nat) :
    (v, c) ∈ frequency_map rows [] ↔
      1 ≤ c ∧ rows.countP (fun r => decide (some v ∈ r)) = c := by
  have hwf : Map.WF (frequency_map rows ([] : Map α)) :=
    frequency_map_WF rows [] ⟨List.nodup_nil, fun e he => absurd he (List.not_mem_nil e)⟩
  rw [Map.mem_iff_count _ hwf, frequency_map_count]
  simp [Map.count]

/-! ## One row of the set operation -/

theorem argument_rows_cons [Inhabited α] (col_const : List Bool) (row i : Nat)
    (p : ColumnArrayExecutionData α) (ps : List (ColumnArrayExecutionData α)) :
    argument_rows col_const row i (p :: ps)
      = p.row_elements (index_check_const row (col_const.getD i false))
          :: argument_rows col_const row (i + 1) ps := by
  simp [argument_rows, List.enumFrom]

theorem argument_rows_length [Inhabited α] (col_const : List Bool) (row i : Nat)
    (ps : List (ColumnArrayExecutionData α)) :
    (argument_rows col_const row i ps).length = ps.length := by
  simp [argument_rows]

theorem apply_params_eq [DecidableEq α] [Inhabited α] (col_const : List Bool) (row i : Nat)
    (ps : List (ColumnArrayExecutionData α)) (impl : OpenMapImpl α) :
    OpenMapImpl.apply_params col_const row i ps impl
      = { action := { null_seen := impl.action.null_seen
                        ++ (argument_rows col_const row i ps).map (fun r => r.contains none) }
          map := frequency_map (argument_rows col_const row i ps) impl.map } := by
  induction ps generalizing i impl with
  | nil =>
    cases impl with
    | mk a m => cases a; simp [OpenMapImpl.apply_params, argument_rows, frequency_map]
  | cons p ps ih =>
    rw [argument_rows_cons]
    unfold OpenMapImpl.apply_params
    simp only [Action.apply, pwFilter_beq_eq_dedup]
    rw [ih]
    simp [frequency_map]

theorem row_cells_eq [DecidableEq α] [Inhabited α] (operation : MapOperation)
    (params : List (ColumnArrayExecutionData α)) (col_const : List Bool) (row : Nat) :
    row_cells operation params col_const row
      = (if rows_apply_null operation (argument_rows col_const row 0 params)
          then [(default, 1)] else [])
        ++ (emitted_entries operation params.length
              (frequency_map (argument_rows col_const row 0 params) [])).map
            (fun entry => (entry.1, 0)) := by
  unfold row_cells
  simp only [apply_params_eq, OpenMapImpl.reset, Action.reset, List.nil_append]
  have h : Action.apply_null operation
      { null_seen := (argument_rows col_const row 0 params).map (fun r => r.contains none) }
      = rows_apply_null operation (argument_rows col_const row 0 params) := by
    cases operation
    · simp only [Action.apply_null, rows_apply_null]
      induction argument_rows col_const row 0 params with
      | nil => rfl
      | cons r rs ih => simp only [List.map_cons, List.all_cons, ih, id]
    · simp only [Action.apply_null, rows_apply_null]
      induction argument_rows col_const row 0 params with
      | nil => rfl
      | cons r rs ih => simp only [List.map_cons, List.any_cons, ih, id]
  rw [h]

/-! ## The dispatcher -/

theorem execute_internal_eq [DecidableEq α] [Inhabited α] (operation : MapOperation)
    (candidates : List Nat) (dst : ColumnArrayMutableData α)
    (datas : List (ColumnArrayExecutionData α)) (col_const : List Bool)
    (start_row end_row : Nat) :
    ArrayMapImpl.execute_internal operation candidates dst datas col_const start_row end_row
      = if candidates.any (fun c => datas.all (fun data => data.nested_col.kind == c)) then
          (true, OpenMapImpl.apply operation dst datas col_const start_row end_row)
        else (false, dst) := by
  induction candidates with
  | nil => simp [ArrayMapImpl.execute_internal]
  | cons c cs ih =>
    unfold ArrayMapImpl.execute_internal ArrayMapImpl.execute_internal_one
    by_cases h : datas.all (fun data => data.nested_col.kind == c) = true
    · simp [h]
    · simp only [h, if_false, Bool.false_eq_true, List.any_cons, Bool.false_or]
      exact ih

theorem execute_ok [DecidableEq α] [Inhabited α] (operation : MapOperation)
    (candidates : List Nat) (res_ptr : ColumnPtr α) (d0 : ColumnArrayExecutionData α)
    (ds : List (ColumnArrayExecutionData α)) (col_const : List Bool) (start_row end_row : Nat)
    (hkind : ∃ c ∈ candidates, ∀ d ∈ d0 :: ds, d.nested_col.kind = c) :
    ArrayMapImpl.execute operation candidates res_ptr (d0 :: ds) col_const start_row end_row
      = (Status.OK, some (assemble_column_array
          (OpenMapImpl.apply operation
            (create_mutable_data d0.nested_col d0.nested_nullmap_data.isSome)
            (d0 :: ds) col_const start_row end_row))) := by
  have hany : candidates.any
      (fun c => (d0 :: ds).all (fun data => data.nested_col.kind == c)) = true := by
    obtain ⟨c, hc, hall⟩ := hkind
    rw [List.any_eq_true]
    refine ⟨c, hc, ?_⟩
    rw [List.all_eq_true]
    intro d hd
    simpa using hall d hd
  unfold ArrayMapImpl.execute
  simp only [execute_internal_eq, hany, if_true]

/-- The elements of the output row of logical row `row`, read back from the
column `ArrayMapImpl::execute` returns. -/
theorem execute_row_elements [DecidableEq α] [Inhabited α] (operation : MapOperation)
    (candidates : List Nat) (res_ptr : ColumnPtr α) (d0 : ColumnArrayExecutionData α)
    (ds : List (ColumnArrayExecutionData α)) (col_const : List Bool)
    (start_row end_row row : Nat)
    (hkind : ∃ c ∈ candidates, ∀ d ∈ d0 :: ds, d.nested_col.kind = c)
    (h1 : start_row ≤ row) (h2 : row < end_row) :
    ∃ res, ArrayMapImpl.execute operation candidates res_ptr (d0 :: ds) col_const
          start_row end_row = (Status.OK, some res)
      ∧ res.row_elements (row - start_row)
          = (if rows_apply_null operation (argument_rows col_const row 0 (d0 :: ds))
              then [if d0.nested_nullmap_data.isSome then none else some default] else [])
            ++ (emitted_entries operation (d0 :: ds).length
                  (frequency_map (argument_rows col_const row 0 (d0 :: ds)) [])).map
                (fun entry => some entry.1) := by
  refine ⟨_, execute_ok operation candidates res_ptr d0 ds col_const start_row end_row hkind, ?_⟩
  rw [apply_row_elements _ _ _ _ _ _ _ _ h1 h2, row_cells_eq]
  rw [List.map_append, List.map_map]
  congr 1
  · split <;> simp [read_cell]
  · apply List.map_congr_left
    intro e _
    simp [read_cell]

/-! ## What a row of the output contains -/

theorem emitted_keys_nodup [DecidableEq α] (operation : MapOperation) (n : Nat)
    (rows : List (List (Option α))) :
    ((emitted_entries operation n (frequency_map rows [])).map
      (fun entry => some entry.1)).Nodup := by
  have hwf : Map.WF (frequency_map rows ([] : Map α)) :=
    frequency_map_WF rows [] ⟨List.nodup_nil, fun e he => absurd he (List.not_mem_nil e)⟩
  have hsub : ((emitted_entries operation n (frequency_map rows [])).map Prod.fst).Nodup :=
    List.Nodup.sublist (List.Sublist.map _ (List.filter_sublist _)) hwf.1
  have h := List.Nodup.map (Option.some_injective α) hsub
  rwa [List.map_map] at h

theorem mem_emitted_intersect [DecidableEq α] (rows : List (List (Option α)))
    (hne : rows ≠ []) (v : α) :
    some v ∈ (emitted_entries MapOperation.INTERSECT rows.length (frequency_map rows [])).map
        (fun entry => some entry.1)
      ↔ ∀ r ∈ rows, some v ∈ r := by
  have hpos : 1 ≤ rows.length := by
    cases rows with
    | nil => exact absurd rfl hne
    | cons r rs => simp
  have hcount : rows.countP (fun r => decide (some v ∈ r)) = rows.length
      ↔ ∀ r ∈ rows, some v ∈ r := by
    rw [List.countP_eq_length]
    simp
  rw [← hcount]
  simp only [List.mem_map, emitted_entries, List.mem_filter, Option.some.injEq]
  constructor
  · rintro ⟨⟨k, c⟩, ⟨hmem, hpred⟩, hk⟩
    simp only at hk
    subst hk
    have hc : c = rows.length := by simpa using hpred
    exact hc ▸ ((frequency_map_mem rows k c).1 hmem).2
  · intro h
    refine ⟨(v, rows.length), ⟨(frequency_map_mem rows v rows.length).2 ⟨hpos, h⟩, ?_⟩, rfl⟩
    simp

theorem mem_emitted_union [DecidableEq α] (rows : List (List (Option α))) (n : Nat) (v : α) :
    some v ∈ (emitted_entries MapOperation.UNION n (frequency_map rows [])).map
        (fun entry => some entry.1)
      ↔ ∃ r ∈ rows, some v ∈ r := by
  have hcount : 0 < rows.countP (fun r => decide (some v ∈ r)) ↔ ∃ r ∈ rows, some v ∈ r := by
    rw [List.countP_pos_iff]
    simp
  rw [← hcount]
  simp only [List.mem_map, emitted_entries, List.mem_filter, Option.some.injEq]
  constructor
  · rintro ⟨⟨k, c⟩, ⟨hmem, _⟩, hk⟩
    simp only at hk
    subst hk
    have h := (frequency_map_mem rows k c).1 hmem
    omega
  · intro h
    refine ⟨(v, rows.countP (fun r => decide (some v ∈ r))),
      ⟨(frequency_map_mem rows v _).2 ⟨h, rfl⟩, ?_⟩, rfl⟩
    simp

theorem none_not_mem_emitted (operation : MapOperation) (n : Nat) (m : Map α) :
    none ∉ (emitted_entries operation n m).map (fun entry => some entry.1) := by
  simp

theorem rows_apply_null_intersect [DecidableEq α] (rows : List (List (Option α))) :
    rows_apply_null MapOperation.INTERSECT rows = true ↔ ∀ r ∈ rows, none ∈ r := by
  simp [rows_apply_null]

theorem rows_apply_null_union [DecidableEq α] (rows : List (List (Option α))) :
    rows_apply_null MapOperation.UNION rows = true ↔ ∃ r ∈ rows, none ∈ r := by
  simp [rows_apply_null]

theorem nullmap_of_none_mem [Inhabited α] (d : ColumnArrayExecutionData α) (k : Nat)
    (h : none ∈ d.row_elements k) : d.nested_nullmap_data.isSome = true := by
  unfold ColumnArrayExecutionData.row_elements at h
  obtain ⟨off, _, hoff⟩ := List.mem_map.1 h
  unfold ColumnArrayExecutionData.element_at ColumnArrayExecutionData.is_null_at at hoff
  cases hnm : d.nested_nullmap_data with
  | none => simp [hnm] at hoff
  | some m => rfl

theorem null_head_nodup [DecidableEq α] (operation : MapOperation) (n : Nat)
    (rows : List (List (Option α))) (b : Bool) :
    ((if b then ([none] : List (Option α)) else [])
      ++ (emitted_entries operation n (frequency_map rows [])).map
          (fun entry => some entry.1)).Nodup := by
  cases b with
  | false => simpa using emitted_keys_nodup operation n rows
  | true =>
    simp only [if_true, List.singleton_append, List.nodup_cons]
    exact ⟨none_not_mem_emitted operation n _, emitted_keys_nodup operation n rows⟩

/-- The output row of Intersect: one null when every argument row has a null,
then the values present in every argument row. -/
theorem intersect_row_elements [DecidableEq α] [Inhabited α]
    (candidates : List Nat) (res_ptr : ColumnPtr α)
    (datas : List (ColumnArrayExecutionData α)) (col_const : List Bool)
    (start_row end_row row : Nat) (hN : datas ≠ [])
    (hkind : ∃ c ∈ candidates, ∀ d ∈ datas, d.nested_col.kind = c)
    (h1 : start_row ≤ row) (h2 : row < end_row) :
    ∃ res, ArrayMapImpl.execute MapOperation.INTERSECT candidates res_ptr datas col_const
          start_row end_row = (Status.OK, some res)
      ∧ res.row_elements (row - start_row)
          = (if rows_apply_null MapOperation.INTERSECT (argument_rows col_const row 0 datas)
              then [none] else [])
            ++ (emitted_entries MapOperation.INTERSECT
                  (argument_rows col_const row 0 datas).length
                  (frequency_map (argument_rows col_const row 0 datas) [])).map
                (fun entry => some entry.1) := by
  obtain ⟨d0, ds, rfl⟩ := List.exists_cons_of_ne_nil hN
  obtain ⟨res, hres, hrow⟩ := execute_row_elements MapOperation.INTERSECT candidates res_ptr
    d0 ds col_const start_row end_row row hkind h1 h2
  refine ⟨res, hres, ?_⟩
  rw [hrow, argument_rows_length]
  congr 1
  by_cases hnull : rows_apply_null MapOperation.INTERSECT
      (argument_rows col_const row 0 (d0 :: ds)) = true
  · have h0 : none ∈ d0.row_elements (index_check_const row (col_const.getD 0 false)) := by
      have hall := (rows_apply_null_intersect _).1 hnull
      rw [argument_rows_cons] at hall
      exact hall _ (List.mem_cons_self _ _)
    simp [hnull, nullmap_of_none_mem d0 _ h0]
  · simp [hnull]

/-- The output row of Union: the element appended by the `apply_null` branch
when some argument row has a null, then the values present in some argument
row. The appended element reads back as null iff the builder, created from the
first argument, carries a nullmap. -/
theorem union_row_elements [DecidableEq α] [Inhabited α]
    (candidates : List Nat) (res_ptr : ColumnPtr α)
    (datas : List (ColumnArrayExecutionData α)) (col_const : List Bool)
    (start_row end_row row : Nat) (hN : datas ≠ [])
    (hkind : ∃ c ∈ candidates, ∀ d ∈ datas, d.nested_col.kind = c)
    (h1 : start_row ≤ row) (h2 : row < end_row) :
    ∃ res, ArrayMapImpl.execute MapOperation.UNION candidates res_ptr datas col_const
          start_row end_row = (Status.OK, some res)
      ∧ res.row_elements (row - start_row)
          = (if rows_apply_null MapOperation.UNION (argument_rows col_const row 0 datas)
              then [if (datas.head hN).nested_nullmap_data.isSome then none else some default]
              else [])
            ++ (emitted_entries MapOperation.UNION
                  (argument_rows col_const row 0 datas).length
                  (frequency_map (argument_rows col_const row 0 datas) [])).map
                (fun entry => some entry.1) := by
  obtain ⟨d0, ds, rfl⟩ := List.exists_cons_of_ne_nil hN
  obtain ⟨res, hres, hrow⟩ := execute_row_elements MapOperation.UNION candidates res_ptr
    d0 ds col_const start_row end_row row hkind h1 h2
  refine ⟨res, hres, ?_⟩
  rw [hrow, argument_rows_length]
  rfl

theorem countP_isNone_le_one (l : List (Option α)) (h : l.Nodup) :
    l.countP (fun x => x.isNone) ≤ 1 := by
  induction l with
  | nil => simp
  | cons x xs ih =>
    have hx : x ∉ xs ∧ xs.Nodup := List.nodup_cons.1 h
    cases x with
    | none =>
      have hzero : xs.countP (fun x => x.isNone) = 0 := by
        rw [List.countP_eq_zero]
        intro a ha hnone
        cases a with
        | none => exact hx.1 ha
        | some a => simp at hnone
      simp [List.countP_cons, hzero]
    | some a =>
      simpa [List.countP_cons] using ih hx.2

theorem filterMap_id_nodup (l : List (Option α)) (h : l.Nodup) : (l.filterMap id).Nodup := by
  apply List.Nodup.filterMap _ h
  intro a a' b hb hb'
  have e1 : a = some b := hb
  have e2 : a' = some b := hb'
  rw [e1, e2]

/-! ## Intersect and Union -/

/-! The theorems of this section that assume `DecidableEq α` are about an element
type whose `==` is equality of values: the definitions then compare keys with the
`==` that `DecidableEq` gives. `Float64` has no such instance, its `==` is
`Float64.operator_eq`. -/

/-- A NaN equals nothing under `==`, itself included. -/
theorem float64_nan_equals_nothing (x y : Float64) (hx : x.is_nan = true) :
    (x == y) = false ∧ (y == x) = false := by
  constructor
  · show Float64.operator_eq x y = false
    simp [Float64.operator_eq, hx]
  · show Float64.operator_eq y x = false
    simp [Float64.operator_eq, hx]

/-- The comparison `==` of `Float64` on NaN, 2.0 and the two zeros. -/
theorem float64_operator_eq_scenario :
    (Float64.quiet_nan == Float64.quiet_nan) = false
      ∧ (Float64.two == Float64.two) = true
      ∧ (Float64.quiet_nan == Float64.two) = false
      ∧ ((⟨0⟩ : Float64) == (⟨2 ^ 63⟩ : Float64)) = true :=
  ⟨rfl, rfl, rfl, rfl⟩

/-- A key equality that is equality of values is the `==` that `DecidableEq`
gives. -/
theorem lawful_beq_eq_decide [inst : BEq α] [LawfulBEq α] [DecidableEq α] :
    inst = instBEqOfDecidableEq := by
  have h : ∀ a b : α, (a == b) = decide (a = b) := fun a b => by
    by_cases hab : a = b <;> simp [hab]
  cases inst with
  | mk f =>
    unfold instBEqOfDecidableEq
    congr
    funext a b
    exact h a b

/-- C1: for an element type whose key equality `==` is equality of values, for
every row and N >= 1 input arrays backed by one candidate representation,
`ArrayMapImpl::execute` for INTERSECT returns OK and the non-null elements of the
output row are exactly the values that occur as a non-null element in every
argument row, each of them once. -/
theorem intersect_emits_common_values [inst : BEq α] [LawfulBEq α] [Inhabited α]
    (ALL_COLUMNS_SIMPLE : List Nat) (res_ptr : ColumnPtr α)
    (datas : List (ColumnArrayExecutionData α)) (col_const : List Bool)
    (start_row end_row row : Nat) (hN : datas ≠ [])
    (hkind : ∃ c ∈ ALL_COLUMNS_SIMPLE, ∀ d ∈ datas, d.nested_col.kind = c)
    (h1 : start_row ≤ row) (h2 : row < end_row) :
    ∃ res, ArrayMapImpl.execute MapOperation.INTERSECT ALL_COLUMNS_SIMPLE res_ptr datas
          col_const start_row end_row = (Status.OK, some res)
      ∧ (∀ v : α, some v ∈ res.row_elements (row - start_row)
            ↔ ∀ r ∈ argument_rows col_const row 0 datas, some v ∈ r)
      ∧ ((res.row_elements (row - start_row)).filterMap id).Nodup := by
  classical
  obtain rfl : inst = instBEqOfDecidableEq := lawful_beq_eq_decide
  obtain ⟨res, hres, hrow⟩ := intersect_row_elements ALL_COLUMNS_SIMPLE res_ptr datas col_const
    start_row end_row row hN hkind h1 h2
  have hne : argument_rows col_const row 0 datas ≠ [] := by
    intro h
    have hlen := argument_rows_length col_const row 0 datas
    rw [h] at hlen
    exact hN (List.length_eq_zero.1 hlen.symm)
  refine ⟨res, hres, ?_, ?_⟩
  · intro v
    rw [hrow, List.mem_append, mem_emitted_intersect _ hne]
    constructor
    · rintro (h | h)
      · split at h <;> simp at h
      · exact h
    · exact fun h => Or.inr h
  · rw [hrow]
    exact filterMap_id_nodup _ (null_head_nodup _ _ _ _)

theorem intersect_emits_common_values_witness :
    ∃ res, ArrayMapImpl.execute MapOperation.INTERSECT [1, 3] none [ints_1223, ints_234]
          [false, false] 0 1 = (Status.OK, some res)
      ∧ (∀ v : Int, some v ∈ res.row_elements (0 - 0)
            ↔ ∀ r ∈ argument_rows [false, false] 0 0 [ints_1223, ints_234], some v ∈ r)
      ∧ ((res.row_elements (0 - 0)).filterMap id).Nodup :=
  intersect_emits_common_values [1, 3] none [ints_1223, ints_234] [false, false] 0 1 0
    (List.cons_ne_nil _ _) ⟨3, by decide, by decide⟩ (by decide) (by decide)

/-- C1 on a `Float64` column: NaN is a non-null element of both argument rows
`[NaN, 2.0]` and `[2.0, NaN]`, and the output row of Intersect is `[2.0]`. A NaN
key equals no key of the map, so no NaN entry reaches the count 2. -/
theorem intersect_drops_common_nan :
    argument_rows [false, false] 0 0 [doubles_nan_2, doubles_2_nan]
        = [[some Float64.quiet_nan, some Float64.two],
           [some Float64.two, some Float64.quiet_nan]]
      ∧ ∃ res, ArrayMapImpl.execute MapOperation.INTERSECT [6, 7] none
            [doubles_nan_2, doubles_2_nan] [false, false] 0 1 = (Status.OK, some res)
          ∧ res.row_elements (0 - 0) = [some Float64.two] :=
  ⟨rfl, _, rfl, rfl⟩

/-- C6: for an element type whose key equality `==` is equality of values,
`intersect(A, A)` yields, as a set, exactly the elements of the row of `A`, the
null element included, and each of them once. -/
theorem intersect_self_is_dedup [inst : BEq α] [LawfulBEq α] [Inhabited α]
    (ALL_COLUMNS_SIMPLE : List Nat) (res_ptr : ColumnPtr α)
    (A : ColumnArrayExecutionData α) (col_const : List Bool)
    (start_row end_row row : Nat)
    (hkind : A.nested_col.kind ∈ ALL_COLUMNS_SIMPLE)
    (hconst : col_const.getD 0 false = col_const.getD 1 false)
    (h1 : start_row ≤ row) (h2 : row < end_row) :
    ∃ res, ArrayMapImpl.execute MapOperation.INTERSECT ALL_COLUMNS_SIMPLE res_ptr [A, A]
          col_const start_row end_row = (Status.OK, some res)
      ∧ (∀ x : Option α, x ∈ res.row_elements (row - start_row)
            ↔ x ∈ A.row_elements (index_check_const row (col_const.getD 0 false)))
      ∧ (res.row_elements (row - start_row)).Nodup := by
  classical
  obtain rfl : inst = instBEqOfDecidableEq := lawful_beq_eq_decide
  have hk : ∃ c ∈ ALL_COLUMNS_SIMPLE, ∀ d ∈ [A, A], d.nested_col.kind = c :=
    ⟨A.nested_col.kind, hkind, by simp⟩
  obtain ⟨res, hres, hrow⟩ := intersect_row_elements ALL_COLUMNS_SIMPLE res_ptr [A, A]
    col_const start_row end_row row (List.cons_ne_nil _ _) hk h1 h2
  have hrows : argument_rows col_const row 0 [A, A]
      = [A.row_elements (index_check_const row (col_const.getD 0 false)),
         A.row_elements (index_check_const row (col_const.getD 0 false))] := by
    rw [argument_rows_cons, argument_rows_cons, ← hconst]
    simp [argument_rows]
  refine ⟨res, hres, ?_, ?_⟩
  swap
  · rw [hrow]
    exact null_head_nodup _ _ _ _
  rw [hrow, hrows]
  intro x
  rw [List.mem_append]
  cases x with
  | none =>
    constructor
    · rintro (h | h)
      · by_contra hc
        have hnull : ¬ rows_apply_null MapOperation.INTERSECT
            [A.row_elements (index_check_const row (col_const.getD 0 false)),
             A.row_elements (index_check_const row (col_const.getD 0 false))] = true := by
          rw [rows_apply_null_intersect]
          intro hall
          exact hc (hall _ (List.mem_cons_self _ _))
        rw [if_neg hnull] at h
        exact absurd h (List.not_mem_nil _)
      · exact absurd h (none_not_mem_emitted _ _ _)
    · intro h
      left
      have hnull : rows_apply_null MapOperation.INTERSECT
          [A.row_elements (index_check_const row (col_const.getD 0 false)),
           A.row_elements (index_check_const row (col_const.getD 0 false))] = true := by
        rw [rows_apply_null_intersect]
        intro r hr
        simp only [List.mem_cons, List.mem_singleton, List.not_mem_nil, or_false, or_self] at hr
        exact hr ▸ h
      rw [if_pos hnull]
      exact List.mem_singleton_self _
  | some v =>
    rw [mem_emitted_intersect _ (List.cons_ne_nil _ _) v]
    constructor
    · rintro (h | h)
      · split at h <;> simp at h
      · exact h _ (List.mem_cons_self _ _)
    · intro h
      right
      intro r hr
      simp only [List.mem_cons, List.mem_singleton, List.not_mem_nil, or_false, or_self] at hr
      exact hr ▸ h

theorem intersect_self_is_dedup_witness :
    ∃ res, ArrayMapImpl.execute MapOperation.INTERSECT [1, 3] none [ints_1223, ints_1223]
          [false, false] 0 1 = (Status.OK, some res)
      ∧ (∀ x : Option Int, x ∈ res.row_elements (0 - 0)
            ↔ x ∈ ints_1223.row_elements
                (index_check_const 0 (([false, false] : List Bool).getD 0 false)))
      ∧ (res.row_elements (0 - 0)).Nodup :=
  intersect_self_is_dedup [1, 3] none ints_1223 [false, false] 0 1 0
    (by decide) (by decide) (by decide) (by decide)

/-- C6 on a `Float64` column: the row of `A` is `[NaN]` and the output row of
`intersect(A, A)` is empty. -/
theorem intersect_self_drops_nan :
    doubles_nan.row_elements 0 = [some Float64.quiet_nan]
      ∧ ∃ res, ArrayMapImpl.execute MapOperation.INTERSECT [6, 7] none
            [doubles_nan, doubles_nan] [false, false] 0 1 = (Status.OK, some res)
          ∧ res.row_elements (0 - 0) = [] :=
  ⟨rfl, _, rfl, rfl⟩

/-- C2: Union over the rows `[7]`, read from a nested column without nullmap,
and `[null]` returns OK with the one output row `[0, 7]` and no nullmap. The
value 0, appended by the `apply_null` branch, reads back as a non-null element
although it occurs in no argument row. -/
theorem union_placeholder_reads_as_value :
    ArrayMapImpl.execute MapOperation.UNION [1, 3] none [ints_7_plain, ints_null]
        [false, false] 0 1
      = (Status.OK, some { nested_col := { kind := 3, data := [0, 7] }
                           nested_nullmap_data := none
                           offsets_ptr := [2] })
    ∧ argument_rows [false, false] 0 0 [ints_7_plain, ints_null] = [[some 7], [none]]
    ∧ ColumnArrayExecutionData.row_elements
        ({ nested_col := { kind := 3, data := [0, 7] }
           nested_nullmap_data := none
           offsets_ptr := [2] } : ColumnArrayExecutionData Int) 0 = [some 0, some 7] := by
  decide

/-- C4: Union over the rows `[1, 2]`, read from a nested column without
nullmap, and `[null, 2]` returns OK with a column without nullmap whose one
row reads `[0, 1, 2]`: it contains no null element, although the second argument
row contains one. -/
theorem union_null_lost_without_nullmap :
    ArrayMapImpl.execute MapOperation.UNION [1, 3] none [ints_12_plain, ints_null_2]
        [false, false] 0 1
      = (Status.OK, some { nested_col := { kind := 3, data := [0, 1, 2] }
                           nested_nullmap_data := none
                           offsets_ptr := [3] })
    ∧ argument_rows [false, false] 0 0 [ints_12_plain, ints_null_2]
        = [[some 1, some 2], [none, some 2]]
    ∧ ColumnArrayExecutionData.row_elements
        ({ nested_col := { kind := 3, data := [0, 1, 2] }
           nested_nullmap_data := none
           offsets_ptr := [3] } : ColumnArrayExecutionData Int) 0
        = [some 0, some 1, some 2] := by
  decide

/-- Union, when the builder carries a nullmap (the first argument's nested column
has one) or no argument row contains a null element: the non-null elements of
the output row are the values that occur as a non-null element in some argument
row, each once, and the row contains a null element iff some argument row does,
at most once. -/
theorem union_row_with_nullmap [DecidableEq α] [Inhabited α]
    (ALL_COLUMNS_SIMPLE : List Nat) (res_ptr : ColumnPtr α)
    (datas : List (ColumnArrayExecutionData α)) (col_const : List Bool)
    (start_row end_row row : Nat) (hN : datas ≠ [])
    (hkind : ∃ c ∈ ALL_COLUMNS_SIMPLE, ∀ d ∈ datas, d.nested_col.kind = c)
    (h1 : start_row ≤ row) (h2 : row < end_row)
    (hbuilder : (datas.head hN).nested_nullmap_data.isSome = true
      ∨ ∀ r ∈ argument_rows col_const row 0 datas, none ∉ r) :
    ∃ res, ArrayMapImpl.execute MapOperation.UNION ALL_COLUMNS_SIMPLE res_ptr datas
          col_const start_row end_row = (Status.OK, some res)
      ∧ (∀ v : α, some v ∈ res.row_elements (row - start_row)
            ↔ ∃ r ∈ argument_rows col_const row 0 datas, some v ∈ r)
      ∧ ((res.row_elements (row - start_row)).filterMap id).Nodup
      ∧ (none ∈ res.row_elements (row - start_row)
            ↔ ∃ r ∈ argument_rows col_const row 0 datas, none ∈ r)
      ∧ (res.row_elements (row - start_row)).countP (fun x => x.isNone) ≤ 1 := by
  obtain ⟨res, hres, hrow⟩ := union_row_elements ALL_COLUMNS_SIMPLE res_ptr datas col_const
    start_row end_row row hN hkind h1 h2
  have hrow2 : res.row_elements (row - start_row)
      = (if rows_apply_null MapOperation.UNION (argument_rows col_const row 0 datas)
          then ([none] : List (Option α)) else [])
        ++ (emitted_entries MapOperation.UNION (argument_rows col_const row 0 datas).length
              (frequency_map (argument_rows col_const row 0 datas) [])).map
            (fun entry => some entry.1) := by
    rw [hrow]
    congr 1
    by_cases hnull : rows_apply_null MapOperation.UNION
        (argument_rows col_const row 0 datas) = true
    · rcases hbuilder with hb | hb
      · simp [hnull, hb]
      · obtain ⟨r, hr, hnone⟩ := (rows_apply_null_union _).1 hnull
        exact absurd hnone (hb r hr)
    · simp [hnull]
  refine ⟨res, hres, ?_, ?_, ?_, ?_⟩
  · intro v
    rw [hrow2, List.mem_append, mem_emitted_union]
    constructor
    · rintro (h | h)
      · split at h <;> simp at h
      · exact h
    · exact fun h => Or.inr h
  · rw [hrow2]
    exact filterMap_id_nodup _ (null_head_nodup _ _ _ _)
  · rw [hrow2, List.mem_append, ← rows_apply_null_union]
    constructor
    · rintro (h | h)
      · by_contra hc
        simp [hc] at h
      · exact absurd h (none_not_mem_emitted _ _ _)
    · intro h
      left
      simp [h]
  · rw [hrow2]
    exact countP_isNone_le_one _ (null_head_nodup _ _ _ _)

/-- The scenarios of the specification: Intersect over `[1, 2, 2, 3]` and
`[2, 3, 4]` gives the row `[2, 3]`; Intersect over `[1, null]` and `[null, 2]`
gives a row with one null element and nothing else. -/
theorem intersect_scenarios :
    ArrayMapImpl.execute MapOperation.INTERSECT [1, 3] none [ints_1223, ints_234]
        [false, false] 0 1
      = (Status.OK, some { nested_col := { kind := 3, data := [2, 3] }
                           nested_nullmap_data := some [0, 0]
                           offsets_ptr := [2] })
    ∧ ArrayMapImpl.execute MapOperation.INTERSECT [1, 3] none [ints_1_null, ints_null_2]
        [false, false] 0 1
      = (Status.OK, some { nested_col := { kind := 3, data := [0] }
                           nested_nullmap_data := some [1]
                           offsets_ptr := [1] }) := by
  decide

/-- The scenario of the specification: Union over the string rows `["a", "b"]`
and `["b", "c"]` gives a row with the three elements `"a"`, `"b"`, `"c"`. -/
theorem union_scenario :
    ArrayMapImpl.execute MapOperation.UNION [1, 9] none [strings_ab, strings_bc]
        [false, false] 0 1
      = (Status.OK, some { nested_col := { kind := 9, data := ["a", "b", "c"] }
                           nested_nullmap_data := some [0, 0, 0]
                           offsets_ptr := [3] }) := by
  decide

/-! ## `slice_array` and `execute_impl` of `FunctionArrayPop` -/

theorem slice_copy_foldl [Inhabited α] (src : ColumnArrayExecutionData α)
    (positions : List Nat) (dst : ColumnArrayMutableData α) :
    positions.foldl (slice_copy_element src) dst
      = dst.append_cells (positions.map
          (fun pos => (src.nested_col.data.getD pos default, src.null_flag_at pos))) := by
  induction positions generalizing dst with
  | nil => simp [append_cells_nil]
  | cons p ps ih =>
    rw [List.foldl_cons, ih]
    unfold slice_copy_element
    rw [push_value_push_nullmap, append_cells_append]
    rfl

theorem slice_row_eq [Inhabited α] (src : ColumnArrayExecutionData α)
    (offset_column length_column : List Int) (st : ColumnArrayMutableData α × Nat) (row : Nat) :
    slice_row src offset_column length_column st row
      = ((st.1.append_cells (slice_cells src offset_column length_column row)).push_offset
            (st.2 + (slice_cells src offset_column length_column row).length),
         st.2 + (slice_cells src offset_column length_column row).length) := by
  unfold slice_row slice_cells
  simp only [slice_copy_foldl, List.length_map]

theorem read_cell_slice [Inhabited α] (src : ColumnArrayExecutionData α) (pos : Nat) :
    read_cell src.nested_nullmap_data.isSome
        (src.nested_col.data.getD pos default, src.null_flag_at pos)
      = src.element_at pos := by
  unfold read_cell ColumnArrayExecutionData.element_at ColumnArrayExecutionData.is_null_at
    ColumnArrayExecutionData.null_flag_at
  cases src.nested_nullmap_data <;> simp

/-- Row `k` of the column assembled from `slice_array` holds the elements of the
selected sub-range of row `k` of the source. -/
theorem slice_row_elements [Inhabited α] (src : ColumnArrayExecutionData α)
    (offset_column length_column : List Int) (k : Nat) (hk : k < src.offsets_ptr.length) :
    (assemble_column_array
        (slice_array (create_mutable_data src.nested_col src.nested_nullmap_data.isSome) src
          offset_column length_column)).row_elements k
      = (List.range'
          (src.row_begin k
            + (slice_range (src.row_end k - src.row_begin k) (offset_column.getD k 0)
                (length_column.getD k 0)).1)
          ((slice_range (src.row_end k - src.row_begin k) (offset_column.getD k 0)
                (length_column.getD k 0)).2
            - (slice_range (src.row_end k - src.row_begin k) (offset_column.getD k 0)
                (length_column.getD k 0)).1)).map src.element_at := by
  have hk2 : k < (List.range src.offsets_ptr.length).length := by simpa using hk
  unfold slice_array
  rw [fresh_row_elements (slice_cells src offset_column length_column) _
    (slice_row_eq src offset_column length_column) _ _ _ _ hk2, List.getElem_range]
  unfold slice_cells
  rw [List.map_map]
  apply List.map_congr_left
  intro pos _
  exact read_cell_slice src pos

theorem execute_impl_ok [Inhabited α] (pop : PopType) (block : List (Column α))
    (arguments : List Nat) (result input_rows_count : Nat) (A : ColumnArrayExecutionData α)
    (argument : Nat) (rest : List Nat) (harg : arguments = argument :: rest)
    (hblock : block[argument]? = some (Column.array A)) (hres : result < block.length) :
    FunctionArrayPop.execute_impl pop block arguments result input_rows_count
      = some (Status.OK, block.set result (Column.array (assemble_column_array
          (slice_array (create_mutable_data A.nested_col A.nested_nullmap_data.isSome) A
            (List.replicate A.offsets_ptr.length pop.start_offset)
            (FunctionArrayPop.length_column A))))) := by
  subst harg
  unfold FunctionArrayPop.execute_impl
  simp only [hblock, extract_column_array_info, hres, if_true]

theorem size_t_sub_eq (a b : Nat) (h1 : b ≤ a) (h2 : a < 2 ^ 64) : size_t_sub a b = a - b := by
  unfold size_t_sub
  omega

theorem length_column_getD (A : ColumnArrayExecutionData α) (k : Nat)
    (hk : k < A.offsets_ptr.length) (hmono : A.row_begin k ≤ A.row_end k)
    (hbound : A.row_end k < 2 ^ 63) :
    (FunctionArrayPop.length_column A).getD k 0
      = ((A.row_end k - A.row_begin k : Nat) : Int) - 1 := by
  have hlt : k < (FunctionArrayPop.length_column A).length := by
    simp [FunctionArrayPop.length_column, hk]
  rw [List.getD_eq_getElem _ _ hlt]
  simp only [FunctionArrayPop.length_column, List.getElem_map, List.getElem_range]
  rw [size_t_sub_eq _ _ hmono (by omega)]
  unfold to_int64 size_t_sub
  split <;> omega

theorem offset_column_getD (n : Nat) (start : Int) (k : Nat) (hk : k < n) :
    (List.replicate n start).getD k 0 = start := by
  have hlt : k < (List.replicate n start).length := by simpa using hk
  rw [List.getD_eq_getElem _ _ hlt, List.getElem_replicate]

theorem row_elements_length [Inhabited α] (A : ColumnArrayExecutionData α) (k : Nat) :
    (A.row_elements k).length = A.row_end k - A.row_begin k := by
  simp [ColumnArrayExecutionData.row_elements]

theorem slice_range_popback (len : Nat) :
    slice_range len 1 ((len : Int) - 1) = (0, len - 1) := by
  unfold slice_range
  simp only [Prod.mk.injEq]
  constructor <;> omega

theorem slice_range_popfront (len : Nat) :
    slice_range len 2 ((len : Int) - 1) = (min 1 len, len) := by
  unfold slice_range
  simp only [Prod.mk.injEq]
  constructor <;> omega

theorem take_range' (s n m : Nat) : (List.range' s n).take m = List.range' s (min m n) := by
  apply List.ext_getElem
  · simp
  · intro j h1 h2
    simp [List.getElem_take, List.getElem_range']

theorem drop_range' (s n m : Nat) : (List.range' s n).drop m = List.range' (s + m) (n - m) := by
  apply List.ext_getElem
  · simp
  · intro j h1 h2
    simp [List.getElem_drop, List.getElem_range', Nat.add_assoc]

/-! ## `array_popback` and `array_popfront` -/

/-- C8: for an array column and a row with `len` elements, `array_popback`
(start offset 1, length `len - 1`) returns OK and its output row holds the
elements at the positions `[0, max(len - 1, 0))` of the row, in the same order
and with the same null markers. -/
theorem popback_row_elements [Inhabited α] (block : List (Column α)) (arguments : List Nat)
    (result input_rows_count : Nat) (A : ColumnArrayExecutionData α)
    (argument : Nat) (rest : List Nat) (k : Nat)
    (harg : arguments = argument :: rest)
    (hblock : block[argument]? = some (Column.array A)) (hres : result < block.length)
    (hk : k < A.offsets_ptr.length) (hmono : A.row_begin k ≤ A.row_end k)
    (hbound : A.row_end k < 2 ^ 63) :
    ∃ res, FunctionArrayPop.execute_impl FunctionArrayPopback block arguments result
          input_rows_count = some (Status.OK, block.set result (Column.array res))
      ∧ res.row_elements k = (A.row_elements k).take ((A.row_elements k).length - 1) := by
  refine ⟨_, execute_impl_ok FunctionArrayPopback block arguments result input_rows_count A
    argument rest harg hblock hres, ?_⟩
  rw [slice_row_elements _ _ _ k hk, offset_column_getD _ _ _ hk,
    length_column_getD A k hk hmono hbound]
  have hstart : FunctionArrayPopback.start_offset = 1 := rfl
  rw [hstart, slice_range_popback, row_elements_length]
  unfold ColumnArrayExecutionData.row_elements
  rw [← List.map_take, take_range']
  congr 2
  omega

theorem popback_row_elements_witness :
    ∃ res, FunctionArrayPop.execute_impl FunctionArrayPopback
          [Column.array ints_two_rows, Column.other []] [0] 1 2
          = some (Status.OK,
              [Column.array ints_two_rows, Column.other []].set 1 (Column.array res))
      ∧ res.row_elements 0
          = (ints_two_rows.row_elements 0).take ((ints_two_rows.row_elements 0).length - 1) :=
  popback_row_elements [Column.array ints_two_rows, Column.other []] [0] 1 2 ints_two_rows
    0 [] 0 rfl rfl (by decide) (by decide) (by decide) (by decide)

/-- C9: for an array column and a row with `len` elements, `array_popfront`
(start offset 2, length `len - 1`) returns OK and its output row holds the
elements at the positions `[min(1, len), len)` of the row, in the same order and
with the same null markers. -/
theorem popfront_row_elements [Inhabited α] (block : List (Column α)) (arguments : List Nat)
    (result input_rows_count : Nat) (A : ColumnArrayExecutionData α)
    (argument : Nat) (rest : List Nat) (k : Nat)
    (harg : arguments = argument :: rest)
    (hblock : block[argument]? = some (Column.array A)) (hres : result < block.length)
    (hk : k < A.offsets_ptr.length) (hmono : A.row_begin k ≤ A.row_end k)
    (hbound : A.row_end k < 2 ^ 63) :
    ∃ res, FunctionArrayPop.execute_impl FunctionArrayPopfront block arguments result
          input_rows_count = some (Status.OK, block.set result (Column.array res))
      ∧ res.row_elements k
          = ((A.row_elements k).take (A.row_elements k).length).drop
              (min 1 (A.row_elements k).length) := by
  refine ⟨_, execute_impl_ok FunctionArrayPopfront block arguments result input_rows_count A
    argument rest harg hblock hres, ?_⟩
  rw [slice_row_elements _ _ _ k hk, offset_column_getD _ _ _ hk,
    length_column_getD A k hk hmono hbound]
  have hstart : FunctionArrayPopfront.start_offset = 2 := rfl
  rw [hstart, slice_range_popfront, List.take_length, row_elements_length]
  unfold ColumnArrayExecutionData.row_elements
  rw [← List.map_drop, drop_range']

theorem popfront_row_elements_witness :
    ∃ res, FunctionArrayPop.execute_impl FunctionArrayPopfront
          [Column.array ints_two_rows, Column.other []] [0] 1 2
          = some (Status.OK,
              [Column.array ints_two_rows, Column.other []].set 1 (Column.array res))
      ∧ res.row_elements 0
          = ((ints_two_rows.row_elements 0).take (ints_two_rows.row_elements 0).length).drop
              (min 1 (ints_two_rows.row_elements 0).length) :=
  popfront_row_elements [Column.array ints_two_rows, Column.other []] [0] 1 2 ints_two_rows
    0 [] 0 rfl rfl (by decide) (by decide) (by decide) (by decide)

/-- The scenario of the specification: `array_popback([10, 20, 30])` is
`[10, 20]`, `array_popfront([10, 20, 30])` is `[20, 30]`, and both map `[]` to
`[]`. -/
theorem pop_scenario :
    FunctionArrayPop.execute_impl FunctionArrayPopback
        [Column.array ints_two_rows, Column.other []] [0] 1 2
      = some (Status.OK, [Column.array ints_two_rows,
          Column.array { nested_col := { kind := 3, data := [10, 20] }
                         nested_nullmap_data := some [0, 0]
                         offsets_ptr := [2, 2] }])
    ∧ FunctionArrayPop.execute_impl FunctionArrayPopfront
        [Column.array ints_two_rows, Column.other []] [0] 1 2
      = some (Status.OK, [Column.array ints_two_rows,
          Column.array { nested_col := { kind := 3, data := [20, 30] }
                         nested_nullmap_data := some [0, 0]
                         offsets_ptr := [2, 2] }]) := by
  decide

/-- C10: for a row with 0 or 1 elements, `array_popback` and `array_popfront`
return OK with an empty output row. For a row with 0 elements the length handed
to the slice is the wrap-around of `0 - 1` on `size_t`, stored as -1 in the
`Int64` length column. -/
theorem pop_short_row_is_empty [Inhabited α] (pop : PopType) (block : List (Column α))
    (arguments : List Nat) (result input_rows_count : Nat) (A : ColumnArrayExecutionData α)
    (argument : Nat) (rest : List Nat) (k : Nat)
    (hpop : pop = FunctionArrayPopback ∨ pop = FunctionArrayPopfront)
    (harg : arguments = argument :: rest)
    (hblock : block[argument]? = some (Column.array A)) (hres : result < block.length)
    (hk : k < A.offsets_ptr.length) (hmono : A.row_begin k ≤ A.row_end k)
    (hbound : A.row_end k < 2 ^ 63) (hshort : (A.row_elements k).length ≤ 1) :
    ∃ res, FunctionArrayPop.execute_impl pop block arguments result input_rows_count
          = some (Status.OK, block.set result (Column.array res))
      ∧ res.row_elements k = []
      ∧ ((A.row_elements k).length = 0 →
          size_t_sub (size_t_sub (A.row_end k) (A.row_begin k)) 1 = 2 ^ 64 - 1
            ∧ (FunctionArrayPop.length_column A).getD k 0 = -1) := by
  refine ⟨_, execute_impl_ok pop block arguments result input_rows_count A
    argument rest harg hblock hres, ?_, ?_⟩
  · rw [slice_row_elements _ _ _ k hk, offset_column_getD _ _ _ hk,
      length_column_getD A k hk hmono hbound]
    rw [row_elements_length] at hshort
    have hlen : ∀ s n : Nat, n = 0 → (List.range' s n).map A.element_at = [] := by
      intro s n hn
      subst hn
      rfl
    rcases hpop with hpop | hpop
    · have hstart : pop.start_offset = 1 := by rw [hpop]; rfl
      rw [hstart, slice_range_popback]
      exact hlen _ _ (by omega)
    · have hstart : pop.start_offset = 2 := by rw [hpop]; rfl
      rw [hstart, slice_range_popfront]
      exact hlen _ _ (by omega)
  · intro hzero
    rw [row_elements_length] at hzero
    constructor
    · rw [size_t_sub_eq _ _ hmono (by omega), hzero]
      unfold size_t_sub
      omega
    · rw [length_column_getD A k hk hmono hbound, hzero]
      rfl

theorem pop_short_row_is_empty_witness :
    ∃ res, FunctionArrayPop.execute_impl FunctionArrayPopfront
          [Column.array ints_two_rows, Column.other []] [0] 1 2
          = some (Status.OK,
              [Column.array ints_two_rows, Column.other []].set 1 (Column.array res))
      ∧ res.row_elements 1 = []
      ∧ ((ints_two_rows.row_elements 1).length = 0 →
          size_t_sub (size_t_sub (ints_two_rows.row_end 1) (ints_two_rows.row_begin 1)) 1
              = 2 ^ 64 - 1
            ∧ (FunctionArrayPop.length_column ints_two_rows).getD 1 0 = -1) :=
  pop_short_row_is_empty FunctionArrayPopfront [Column.array ints_two_rows, Column.other []]
    [0] 1 2 ints_two_rows 0 [] 1 (Or.inr rfl) rfl rfl (by decide) (by decide) (by decide)
    (by decide) (by decide)

/-! ## `primitive_type.cpp` -/

/-- C18: `type_to_string` is total, and it returns the empty string exactly for
the values that are not among its `case` labels. -/
theorem type_to_string_empty_iff_unrecognised (t : PrimitiveType) :
    type_to_string t = "" ↔ t ∉ type_to_string_cases := by
  cases t <;> simp [type_to_string, type_to_string_cases]

/-- C19: `thrift_to_type` fails, in its `CHECK(false)` branch, exactly for the
wire values that are not among its `case` labels. For every recognised wire tag
it returns the corresponding internal tag: a named tag that `to_thrift` sends
back to the wire tag, `TYPE_TIMEV2` for `TIME`, and `INVALID_TYPE` for the wire
tag `INVALID_TYPE` only. -/
theorem thrift_to_type_fails_iff_unrecognised (ttype : TPrimitiveType) :
    (thrift_to_type ttype = none ↔ ttype ∉ thrift_to_type_cases)
      ∧ (ttype ∈ thrift_to_type_cases ↔ ∃ p, thrift_to_type ttype = some p)
      ∧ (∀ p, thrift_to_type ttype = some p →
          p ∈ to_thrift_cases
            ∧ (ttype ≠ TPrimitiveType.TIME → to_thrift p = ttype)
            ∧ (ttype = TPrimitiveType.TIME → p = PrimitiveType.TYPE_TIMEV2)
            ∧ (p = PrimitiveType.INVALID_TYPE ↔ ttype = TPrimitiveType.INVALID_TYPE)) := by
  refine ⟨?_, ?_, ?_⟩
  · cases ttype <;> simp [thrift_to_type, thrift_to_type_cases]
  · cases ttype <;> simp [thrift_to_type, thrift_to_type_cases]
  · intro p hp
    cases ttype <;> simp only [thrift_to_type, Option.some.injEq] at hp <;>
      first
        | (subst hp; simp [to_thrift, to_thrift_cases])
        | exact absurd hp (by simp)

/-! ## `function_bit_count.cpp` -/

/-- The function `BitCountImpl<T>::apply` throws exactly for the types other than
the five signed integer types. -/
theorem bit_count_apply_error_iff (T : CppType) (a : Int) :
    BitCountImpl.apply T a
        = Except.error { code := ErrorCode.INVALID_ARGUMENT
                         message := "bit_count only support using INTEGER as operator" }
      ↔ T ∉ [CppType.Int8, CppType.Int16, CppType.Int32, CppType.Int64, CppType.Int128] := by
  cases T <;> simp [BitCountImpl.apply]

/-- C20: whatever types count as numeric, as long as the signed integer types of
8, 16, 32, 64 and 128 bits do, `BitCountImpl<T>::apply` throws the
invalid-argument exception for every argument whose type is not numeric, and it
returns a value for every argument of one of these five types. -/
theorem bit_count_apply_invalid_argument (numeric : CppType → Prop)
    (hnumeric : ∀ T ∈ [CppType.Int8, CppType.Int16, CppType.Int32, CppType.Int64,
      CppType.Int128], numeric T) :
    (∀ (T : CppType) (a : Int), ¬ numeric T →
        BitCountImpl.apply T a
          = Except.error { code := ErrorCode.INVALID_ARGUMENT
                           message := "bit_count only support using INTEGER as operator" })
    ∧ (∀ (T : CppType) (a : Int),
        T ∈ [CppType.Int8, CppType.Int16, CppType.Int32, CppType.Int64, CppType.Int128] →
        ∃ r, BitCountImpl.apply T a = Except.ok r) := by
  constructor
  · intro T a hT
    rw [bit_count_apply_error_iff]
    exact fun hmem => hT (hnumeric T hmem)
  · intro T a hT
    cases T with
    | other name size => simp at hT
    | _ => exact ⟨_, rfl⟩

theorem bit_count_apply_invalid_argument_witness :
    (∀ (T : CppType) (a : Int), ¬ (T.size_of ≤ 16) →
        BitCountImpl.apply T a
          = Except.error { code := ErrorCode.INVALID_ARGUMENT
                           message := "bit_count only support using INTEGER as operator" })
    ∧ (∀ (T : CppType) (a : Int),
        T ∈ [CppType.Int8, CppType.Int16, CppType.Int32, CppType.Int64, CppType.Int128] →
        ∃ r, BitCountImpl.apply T a = Except.ok r) :=
  bit_count_apply_invalid_argument (fun T => T.size_of ≤ 16) (by decide)

/-! ## `ArrayMapImpl::get_return_type` -/

theorem get_return_type_loop_eq (arguments : List DataType)
    (harray : ∀ arg ∈ arguments, ∃ nested, arg = DataType.array nested) :
    ArrayMapImpl.get_return_type_loop arguments
      = some (arguments.find? DataType.nested_is_nullable) := by
  induction arguments with
  | nil => rfl
  | cons arg rest ih =>
    obtain ⟨nested, rfl⟩ := harray arg (List.mem_cons_self _ _)
    have ih2 := ih (fun a ha => harray a (List.mem_cons_of_mem _ ha))
    unfold ArrayMapImpl.get_return_type_loop
    by_cases hn : nested.is_nullable = true
    · simp [check_and_get_nested_type, hn, List.find?_cons, DataType.nested_is_nullable]
    · simp [check_and_get_nested_type, hn, List.find?_cons, DataType.nested_is_nullable, ih2]

/-- C14: for a non-empty list of array types, `get_return_type` returns the first
argument whose nested type is nullable if there is one, and the first argument
otherwise; the nested type of the returned type is nullable iff the nested type
of some argument is. -/
theorem get_return_type_first_nullable (arguments : List DataType)
    (hne : arguments ≠ [])
    (harray : ∀ arg ∈ arguments, ∃ nested, arg = DataType.array nested) :
    ArrayMapImpl.get_return_type arguments
        = some ((arguments.find? DataType.nested_is_nullable).getD (arguments.head hne))
      ∧ (((arguments.find? DataType.nested_is_nullable).getD
            (arguments.head hne)).nested_is_nullable = true
          ↔ ∃ arg ∈ arguments, arg.nested_is_nullable = true) := by
  constructor
  · unfold ArrayMapImpl.get_return_type
    rw [get_return_type_loop_eq arguments harray]
    cases hfind : arguments.find? DataType.nested_is_nullable with
    | none =>
      cases arguments with
      | nil => exact absurd rfl hne
      | cons a rest => simp
    | some res => simp
  · cases hfind : arguments.find? DataType.nested_is_nullable with
    | none =>
      simp only [Option.getD_none]
      have hall := List.find?_eq_none.1 hfind
      constructor
      · intro h
        exact absurd h (hall _ (List.head_mem hne))
      · rintro ⟨arg, harg, h⟩
        exact absurd h (hall arg harg)
    | some res =>
      simp only [Option.getD_some]
      have h1 := List.find?_some hfind
      have h2 := List.mem_of_find?_eq_some hfind
      exact ⟨fun _ => ⟨res, h2, h1⟩, fun _ => h1⟩

theorem get_return_type_first_nullable_witness :
    ArrayMapImpl.get_return_type types_plain_then_nullable
        = some ((types_plain_then_nullable.find? DataType.nested_is_nullable).getD
            (types_plain_then_nullable.head (List.cons_ne_nil _ _)))
      ∧ (((types_plain_then_nullable.find? DataType.nested_is_nullable).getD
            (types_plain_then_nullable.head (List.cons_ne_nil _ _))).nested_is_nullable = true
          ↔ ∃ arg ∈ types_plain_then_nullable, arg.nested_is_nullable = true) :=
  get_return_type_first_nullable types_plain_then_nullable (List.cons_ne_nil _ _)
    (by
      intro arg harg
      simp only [types_plain_then_nullable, List.mem_cons, List.mem_singleton,
        List.not_mem_nil, or_false] at harg
      rcases harg with h | h
      · exact ⟨_, h⟩
      · exact ⟨_, h⟩)

/-- The return type for `Array(Int)` and `Array(Nullable(Int))` is the second
argument; for a single `Array(Int)` it is that argument. -/
theorem get_return_type_scenario :
    ArrayMapImpl.get_return_type types_plain_then_nullable
        = some (DataType.array (DataType.nullable (DataType.scalar PrimitiveType.TYPE_INT)))
    ∧ ArrayMapImpl.get_return_type [DataType.array (DataType.scalar PrimitiveType.TYPE_INT)]
        = some (DataType.array (DataType.scalar PrimitiveType.TYPE_INT)) := by
  decide

/-! ## The dispatcher of `ArrayMapImpl` -/

theorem execute_internal_one_fst [DecidableEq α] [Inhabited α] (operation : MapOperation)
    (candidate : Nat) (dst : ColumnArrayMutableData α)
    (datas : List (ColumnArrayExecutionData α)) (col_const : List Bool)
    (start_row end_row : Nat) :
    (ArrayMapImpl.execute_internal_one operation candidate dst datas col_const
        start_row end_row).1 = true
      ↔ ∀ d ∈ datas, d.nested_col.kind = candidate := by
  unfold ArrayMapImpl.execute_internal_one
  by_cases h : datas.all (fun data => data.nested_col.kind == candidate) = true
  · simp only [h, if_true, true_iff]
    intro d hd
    simpa using (List.all_eq_true.1 h) d hd
  · simp only [h, if_false, Bool.false_eq_true, false_iff]
    intro hall
    apply h
    rw [List.all_eq_true]
    intro d hd
    simpa using hall d hd

theorem any_candidate_iff (candidates : List Nat) (datas : List (ColumnArrayExecutionData α)) :
    candidates.any (fun c => datas.all (fun data => data.nested_col.kind == c)) = true
      ↔ ∃ c ∈ candidates, ∀ d ∈ datas, d.nested_col.kind = c := by
  simp [List.any_eq_true, List.all_eq_true]

theorem execute_internal_first_match [DecidableEq α] [Inhabited α] (operation : MapOperation)
    (before : List Nat) (candidate : Nat) (after : List Nat) (dst : ColumnArrayMutableData α)
    (datas : List (ColumnArrayExecutionData α)) (col_const : List Bool)
    (start_row end_row : Nat)
    (hbefore : ∀ c ∈ before, ¬ ∀ d ∈ datas, d.nested_col.kind = c)
    (hmatch : ∀ d ∈ datas, d.nested_col.kind = candidate) :
    ArrayMapImpl.execute_internal operation (before ++ candidate :: after) dst datas col_const
        start_row end_row
      = ArrayMapImpl.execute_internal_one operation candidate dst datas col_const
          start_row end_row := by
  induction before with
  | nil =>
    have h1 := (execute_internal_one_fst operation candidate dst datas col_const
      start_row end_row).2 hmatch
    simp only [List.nil_append]
    unfold ArrayMapImpl.execute_internal
    simp only [h1, if_true]
  | cons c rest ih =>
    have hc : ¬ (ArrayMapImpl.execute_internal_one operation c dst datas col_const
        start_row end_row).1 = true := by
      rw [execute_internal_one_fst]
      exact hbefore c (List.mem_cons_self _ _)
    have hdst : (ArrayMapImpl.execute_internal_one operation c dst datas col_const
        start_row end_row).2 = dst := by
      unfold ArrayMapImpl.execute_internal_one at hc ⊢
      split
      · rename_i hall
        simp [hall] at hc
      · rfl
    simp only [List.cons_append]
    unfold ArrayMapImpl.execute_internal
    simp only [hc, if_false, Bool.false_eq_true, hdst]
    exact ih (fun c' hc' => hbefore c' (List.mem_cons_of_mem _ hc'))

/-- C12: the single-candidate overload selects a candidate iff every input's
nested column is backed by it; over the candidate list the result is that of the
first candidate that backs all inputs, computed on the untouched builder by one
run of the row transform, whatever follows it in the list; and `execute`
returns the "Unexpected columns" error iff no candidate backs all inputs, OK
otherwise. -/
theorem execute_dispatch [DecidableEq α] [Inhabited α] (operation : MapOperation)
    (ALL_COLUMNS_SIMPLE : List Nat) (res_ptr : ColumnPtr α)
    (datas : List (ColumnArrayExecutionData α)) (col_const : List Bool)
    (start_row end_row : Nat) :
    (∀ (candidate : Nat) (dst : ColumnArrayMutableData α),
        (ArrayMapImpl.execute_internal_one operation candidate dst datas col_const
            start_row end_row).1 = true
          ↔ ∀ d ∈ datas, d.nested_col.kind = candidate)
    ∧ (∀ (before : List Nat) (candidate : Nat) (after : List Nat)
          (dst : ColumnArrayMutableData α),
        (∀ c ∈ before, ¬ ∀ d ∈ datas, d.nested_col.kind = c) →
        (∀ d ∈ datas, d.nested_col.kind = candidate) →
        ArrayMapImpl.execute_internal operation (before ++ candidate :: after) dst datas
            col_const start_row end_row
          = (true, OpenMapImpl.apply operation dst datas col_const start_row end_row))
    ∧ ((ArrayMapImpl.execute operation ALL_COLUMNS_SIMPLE res_ptr datas col_const
            start_row end_row).1 = Status.RuntimeError "Unexpected columns"
          ↔ ¬ ∃ c ∈ ALL_COLUMNS_SIMPLE, ∀ d ∈ datas, d.nested_col.kind = c)
    ∧ ((ArrayMapImpl.execute operation ALL_COLUMNS_SIMPLE res_ptr datas col_const
            start_row end_row).1 = Status.OK
          ↔ ∃ c ∈ ALL_COLUMNS_SIMPLE, ∀ d ∈ datas, d.nested_col.kind = c) := by
  refine ⟨fun candidate dst => execute_internal_one_fst operation candidate dst datas
    col_const start_row end_row, ?_, ?_, ?_⟩
  · intro before candidate after dst hbefore hmatch
    rw [execute_internal_first_match operation before candidate after dst datas col_const
      start_row end_row hbefore hmatch]
    unfold ArrayMapImpl.execute_internal_one
    have hall : datas.all (fun data => data.nested_col.kind == candidate) = true := by
      rw [List.all_eq_true]
      intro d hd
      simpa using hmatch d hd
    simp only [hall, if_true]
  · rw [← any_candidate_iff]
    unfold ArrayMapImpl.execute
    simp only [execute_internal_eq]
    by_cases h : ALL_COLUMNS_SIMPLE.any
        (fun c => datas.all (fun data => data.nested_col.kind == c)) = true
    · simp [h]
    · simp [h]
  · rw [← any_candidate_iff]
    unfold ArrayMapImpl.execute
    simp only [execute_internal_eq]
    by_cases h : ALL_COLUMNS_SIMPLE.any
        (fun c => datas.all (fun data => data.nested_col.kind == c)) = true
    · simp [h]
    · simp [h]

/-- C13: when no candidate backs all inputs, `_execute_internal` returns false
with the builder exactly as it received it, so that nothing was appended for any
row, and `execute` returns the "Unexpected columns" error with `res_ptr`
unchanged. -/
theorem execute_fails_before_any_row [DecidableEq α] [Inhabited α] (operation : MapOperation)
    (ALL_COLUMNS_SIMPLE : List Nat) (res_ptr : ColumnPtr α)
    (datas : List (ColumnArrayExecutionData α)) (col_const : List Bool)
    (start_row end_row : Nat)
    (hnone : ¬ ∃ c ∈ ALL_COLUMNS_SIMPLE, ∀ d ∈ datas, d.nested_col.kind = c) :
    (∀ dst : ColumnArrayMutableData α,
        ArrayMapImpl.execute_internal operation ALL_COLUMNS_SIMPLE dst datas col_const
          start_row end_row = (false, dst))
    ∧ ArrayMapImpl.execute operation ALL_COLUMNS_SIMPLE res_ptr datas col_const
          start_row end_row
        = (Status.RuntimeError "Unexpected columns", res_ptr) := by
  have hany : ¬ ALL_COLUMNS_SIMPLE.any
      (fun c => datas.all (fun data => data.nested_col.kind == c)) = true := by
    rw [any_candidate_iff]
    exact hnone
  constructor
  · intro dst
    rw [execute_internal_eq]
    simp only [hany, if_false, Bool.false_eq_true]
  · unfold ArrayMapImpl.execute
    simp only [execute_internal_eq, hany, if_false, Bool.false_eq_true]

theorem execute_fails_before_any_row_witness :
    (∀ dst : ColumnArrayMutableData Int,
        ArrayMapImpl.execute_internal MapOperation.INTERSECT [1, 3, 4] dst
          [ints_1223, ints_234_wide] [false, false] 0 1 = (false, dst))
    ∧ ArrayMapImpl.execute MapOperation.INTERSECT [1, 3, 4] (some ints_null)
          [ints_1223, ints_234_wide] [false, false] 0 1
        = (Status.RuntimeError "Unexpected columns", some ints_null) :=
  execute_fails_before_any_row MapOperation.INTERSECT [1, 3, 4] (some ints_null)
    [ints_1223, ints_234_wide] [false, false] 0 1 (by decide)

/-! ## The nullmap of the output builder -/

/-- The column `ArrayMapImpl::execute` returns carries a nullmap iff the first
argument's nested column does. -/
theorem execute_nullmap_of_first_argument [DecidableEq α] [Inhabited α]
    (operation : MapOperation) (ALL_COLUMNS_SIMPLE : List Nat) (res_ptr : ColumnPtr α)
    (d0 : ColumnArrayExecutionData α) (ds : List (ColumnArrayExecutionData α))
    (col_const : List Bool) (start_row end_row : Nat)
    (hkind : ∃ c ∈ ALL_COLUMNS_SIMPLE, ∀ d ∈ d0 :: ds, d.nested_col.kind = c) :
    ∃ res, ArrayMapImpl.execute operation ALL_COLUMNS_SIMPLE res_ptr (d0 :: ds) col_const
          start_row end_row = (Status.OK, some res)
      ∧ res.nested_nullmap_data.isSome = d0.nested_nullmap_data.isSome := by
  refine ⟨_, execute_ok operation ALL_COLUMNS_SIMPLE res_ptr d0 ds col_const start_row end_row
    hkind, ?_⟩
  unfold OpenMapImpl.apply
  rw [foldl_cells_eq (row_cells operation (d0 :: ds) col_const) _
    (apply_row_eq operation (d0 :: ds) col_const)]
  cases h : d0.nested_nullmap_data <;>
    simp [assemble_column_array, create_mutable_data, ColumnArrayMutableData.append_cells, h]

/-- The column `array_popback` / `array_popfront` return carries a nullmap iff the
source's nested column does. -/
theorem pop_nullmap_of_source [Inhabited α] (pop : PopType) (block : List (Column α))
    (arguments : List Nat) (result input_rows_count : Nat) (A : ColumnArrayExecutionData α)
    (argument : Nat) (rest : List Nat) (harg : arguments = argument :: rest)
    (hblock : block[argument]? = some (Column.array A)) (hres : result < block.length) :
    ∃ res, FunctionArrayPop.execute_impl pop block arguments result input_rows_count
          = some (Status.OK, block.set result (Column.array res))
      ∧ res.nested_nullmap_data.isSome = A.nested_nullmap_data.isSome := by
  refine ⟨_, execute_impl_ok pop block arguments result input_rows_count A argument rest
    harg hblock hres, ?_⟩
  unfold slice_array
  rw [foldl_cells_eq (slice_cells A _ _) _ (slice_row_eq A _ _)]
  cases h : A.nested_nullmap_data <;>
    simp [assemble_column_array, create_mutable_data, ColumnArrayMutableData.append_cells, h]

/-- C15: Intersect and Union over the rows `[7]`, read from a nested column
without nullmap, and `[null]`, read from one with a nullmap, return OK with a
column that carries no nullmap, although the second source carries one. -/
theorem builder_nullmap_ignores_later_arguments :
    (ArrayMapImpl.execute MapOperation.INTERSECT [1, 3] none [ints_7_plain, ints_null]
        [false, false] 0 1).2.map (fun res => res.nested_nullmap_data) = some none
    ∧ (ArrayMapImpl.execute MapOperation.UNION [1, 3] none [ints_7_plain, ints_null]
        [false, false] 0 1).2.map (fun res => res.nested_nullmap_data) = some none
    ∧ ints_7_plain.nested_nullmap_data = none
    ∧ ints_null.nested_nullmap_data = some [1] := by
  decide

/-! ## The offsets invariant of the row loop -/

theorem cum_offsets_pairwise (acc : Nat) (ns : List Nat) :
    (cum_offsets acc ns).Pairwise (fun a b => a ≤ b) ∧ ∀ x ∈ cum_offsets acc ns, acc ≤ x := by
  induction ns generalizing acc with
  | nil => simp [cum_offsets]
  | cons n ns ih =>
    obtain ⟨h1, h2⟩ := ih (acc + n)
    constructor
    · simp only [cum_offsets, List.pairwise_cons]
      exact ⟨h2, h1⟩
    · intro x hx
      simp only [cum_offsets, List.mem_cons] at hx
      rcases hx with hx | hx
      · omega
      · have := h2 x hx
        omega

theorem fresh_fold_parts (cells : Nat → List (α × Nat))
    (step : ColumnArrayMutableData α × Nat → Nat → ColumnArrayMutableData α × Nat)
    (hstep : ∀ st row, step st row
      = ((st.1.append_cells (cells row)).push_offset (st.2 + (cells row).length),
         st.2 + (cells row).length))
    (col : IColumn α) (nullable : Bool) (rows : List Nat) :
    (rows.foldl step (create_mutable_data col nullable, 0)).1.offsets_ptr
        = cum_offsets 0 ((rows.map cells).map List.length)
      ∧ (rows.foldl step (create_mutable_data col nullable, 0)).1.nested_col.data
        = ((rows.map cells).flatten).map Prod.fst
      ∧ (rows.foldl step (create_mutable_data col nullable, 0)).1.nested_nullmap_data
        = if nullable then some (((rows.map cells).flatten).map Prod.snd) else none := by
  rw [foldl_cells_eq cells step hstep]
  cases nullable <;>
    simp [create_mutable_data, ColumnArrayMutableData.append_cells, List.map_map,
      Function.comp_def]

/-- The offsets of a row loop over a fresh builder: after each row one more
offset, equal to the number of elements appended so far, and the offsets never
decrease. -/
theorem fresh_fold_offsets (cells : Nat → List (α × Nat))
    (step : ColumnArrayMutableData α × Nat → Nat → ColumnArrayMutableData α × Nat)
    (hstep : ∀ st row, step st row
      = ((st.1.append_cells (cells row)).push_offset (st.2 + (cells row).length),
         st.2 + (cells row).length))
    (col : IColumn α) (nullable : Bool) (rows : List Nat) (k : Nat) (hk : k < rows.length) :
    ((rows.take (k + 1)).foldl step (create_mutable_data col nullable, 0)).1.offsets_ptr.length
        = k + 1
      ∧ ((rows.take (k + 1)).foldl step
            (create_mutable_data col nullable, 0)).1.offsets_ptr.getD k 0
          = ((rows.take (k + 1)).foldl step
              (create_mutable_data col nullable, 0)).1.nested_col.data.length
      ∧ (rows.foldl step (create_mutable_data col nullable, 0)).1.offsets_ptr.length
          = rows.length
      ∧ (rows.foldl step (create_mutable_data col nullable, 0)).1.offsets_ptr.getD k 0
          = ((rows.take (k + 1)).foldl step
              (create_mutable_data col nullable, 0)).1.nested_col.data.length
      ∧ ((rows.foldl step (create_mutable_data col nullable, 0)).1.offsets_ptr).Pairwise
          (fun a b => a ≤ b) := by
  obtain ⟨hm1, hm2, _⟩ := fresh_fold_parts cells step hstep col nullable (rows.take (k + 1))
  obtain ⟨hf1, _, _⟩ := fresh_fold_parts cells step hstep col nullable rows
  have hlen : (rows.take (k + 1)).length = k + 1 := by
    rw [List.length_take]
    omega
  have hkm : k < ((rows.take (k + 1)).map cells).length := by
    rw [List.length_map, hlen]
    omega
  have hkf : k < (rows.map cells).length := by
    rw [List.length_map]
    exact hk
  have hfull : ((rows.take (k + 1)).map cells).take (k + 1) = (rows.take (k + 1)).map cells := by
    apply List.take_of_length_le
    rw [List.length_map, hlen]
  have hpre : (rows.map cells).take (k + 1) = (rows.take (k + 1)).map cells := by
    rw [List.map_take]
  refine ⟨?_, ?_, ?_, ?_, ?_⟩
  · rw [hm1, cum_offsets_length, List.length_map, List.length_map, hlen]
  · rw [hm1, hm2, cum_offsets_getD _ 0 k hkm, hfull, List.length_map, Nat.zero_add]
  · rw [hf1, cum_offsets_length, List.length_map, List.length_map]
  · rw [hf1, hm2, cum_offsets_getD _ 0 k hkf, hpre, List.length_map, Nat.zero_add]
  · rw [hf1]
    exact (cum_offsets_pairwise 0 _).1

/-- C16: for a batch `[start_row, end_row)` processed on a freshly created builder
exactly one offset is pushed per row: after processing the row with index `r` in
the batch and in the builder (the logical row `start_row + r`) the offsets
builder has size `r + 1` and its entry for row `r` is the number of elements of
the nested column builder so far; the finished builder has one offset per row,
keeps that entry, and its offsets never decrease. -/
theorem offsets_invariant [DecidableEq α] [Inhabited α] (operation : MapOperation)
    (col : IColumn α) (nullable : Bool) (params : List (ColumnArrayExecutionData α))
    (col_const : List Bool) (start_row end_row r : Nat)
    (hr : start_row + r < end_row) :
    (OpenMapImpl.apply_state_after operation (create_mutable_data col nullable) params
        col_const start_row end_row (start_row + r)).1.offsets_ptr.length = r + 1
      ∧ (OpenMapImpl.apply_state_after operation (create_mutable_data col nullable) params
          col_const start_row end_row (start_row + r)).1.offsets_ptr.getD r 0
        = (OpenMapImpl.apply_state_after operation (create_mutable_data col nullable) params
            col_const start_row end_row (start_row + r)).1.nested_col.data.length
      ∧ (OpenMapImpl.apply operation (create_mutable_data col nullable) params col_const
          start_row end_row).offsets_ptr.length = end_row - start_row
      ∧ (OpenMapImpl.apply operation (create_mutable_data col nullable) params col_const
          start_row end_row).offsets_ptr.getD r 0
        = (OpenMapImpl.apply_state_after operation (create_mutable_data col nullable) params
            col_const start_row end_row (start_row + r)).1.nested_col.data.length
      ∧ ((OpenMapImpl.apply operation (create_mutable_data col nullable) params col_const
          start_row end_row).offsets_ptr).Pairwise (fun a b => a ≤ b) := by
  have hk : r < (List.range' start_row (end_row - start_row)).length := by
    rw [List.length_range']
    omega
  have hidx : start_row + r + 1 - start_row = r + 1 := by omega
  have h := fresh_fold_offsets (row_cells operation params col_const) _
    (apply_row_eq operation params col_const) col nullable
    (List.range' start_row (end_row - start_row)) r hk
  rw [List.length_range'] at h
  unfold OpenMapImpl.apply_state_after OpenMapImpl.apply
  rw [hidx]
  exact h

theorem offsets_invariant_witness :
    (OpenMapImpl.apply_state_after MapOperation.UNION
        (create_mutable_data ints_three_rows.nested_col true)
        [ints_three_rows, ints_three_rows] [false, false] 1 3 (1 + 1)).1.offsets_ptr.length
        = 1 + 1
      ∧ (OpenMapImpl.apply_state_after MapOperation.UNION
          (create_mutable_data ints_three_rows.nested_col true)
          [ints_three_rows, ints_three_rows] [false, false] 1 3 (1 + 1)).1.offsets_ptr.getD 1 0
        = (OpenMapImpl.apply_state_after MapOperation.UNION
            (create_mutable_data ints_three_rows.nested_col true)
            [ints_three_rows, ints_three_rows] [false, false] 1 3
              (1 + 1)).1.nested_col.data.length
      ∧ (OpenMapImpl.apply MapOperation.UNION
          (create_mutable_data ints_three_rows.nested_col true)
          [ints_three_rows, ints_three_rows] [false, false] 1 3).offsets_ptr.length = 3 - 1
      ∧ (OpenMapImpl.apply MapOperation.UNION
          (create_mutable_data ints_three_rows.nested_col true)
          [ints_three_rows, ints_three_rows] [false, false] 1 3).offsets_ptr.getD 1 0
        = (OpenMapImpl.apply_state_after MapOperation.UNION
            (create_mutable_data ints_three_rows.nested_col true)
            [ints_three_rows, ints_three_rows] [false, false] 1 3
              (1 + 1)).1.nested_col.data.length
      ∧ ((OpenMapImpl.apply MapOperation.UNION
          (create_mutable_data ints_three_rows.nested_col true)
          [ints_three_rows, ints_three_rows] [false, false] 1 3).offsets_ptr).Pairwise
            (fun a b => a ≤ b) :=
  offsets_invariant MapOperation.UNION ints_three_rows.nested_col true
    [ints_three_rows, ints_three_rows] [false, false] 1 3 1 (by decide)

/-- The offsets of a three-row batch: Union of a column with itself over the rows
`[1, 2]`, `[]`, `[2]` pushes the offsets 2, 2, 3. -/
theorem offsets_scenario :
    (OpenMapImpl.apply MapOperation.UNION (create_mutable_data ints_three_rows.nested_col true)
        [ints_three_rows, ints_three_rows] [false, false] 0 3).offsets_ptr = [2, 2, 3]
    ∧ (OpenMapImpl.apply_state_after MapOperation.UNION
        (create_mutable_data ints_three_rows.nested_col true)
        [ints_three_rows, ints_three_rows] [false, false] 0 3 1).1.offsets_ptr = [2, 2] := by
  decide

/-! ## `array_popfront` after `array_popback` -/

theorem cum_offsets_getD_zero (acc : Nat) (ns : List Nat) (h : 0 < ns.length) :
    (cum_offsets acc ns).getD 0 0 = acc + ns[0] := by
  cases ns with
  | nil => simp at h
  | cons n ns => simp [cum_offsets]

theorem cum_offsets_getD_succ (acc : Nat) (ns : List Nat) (k : Nat) (h : k + 1 < ns.length) :
    (cum_offsets acc ns).getD (k + 1) 0 = (cum_offsets acc ns).getD k 0 + ns[k + 1] := by
  induction ns generalizing acc k with
  | nil => simp at h
  | cons n ns ih =>
    have h2 : k < ns.length := by simpa using h
    cases k with
    | zero =>
      simp only [cum_offsets, List.getD_cons_succ, List.getD_cons_zero, List.getElem_cons_succ]
      rw [cum_offsets_getD_zero _ _ h2]
    | succ k =>
      simp only [cum_offsets, List.getD_cons_succ, List.getElem_cons_succ]
      exact ih (acc + n) k h2

theorem slice_range_width_le (len : Nat) (start size : Int) :
    (slice_range len start size).2 - (slice_range len start size).1 ≤ len := by
  unfold slice_range
  simp only
  omega

theorem slice_cells_length_le [Inhabited α] (src : ColumnArrayExecutionData α)
    (offset_column length_column : List Int) (row : Nat) :
    (slice_cells src offset_column length_column row).length
      ≤ src.row_end row - src.row_begin row := by
  unfold slice_cells
  simp only [List.length_map, List.length_range']
  exact slice_range_width_le _ _ _

theorem pop_column_offsets [Inhabited α] (pop : PopType) (A : ColumnArrayExecutionData α) :
    (pop_column pop A).offsets_ptr
      = cum_offsets 0 ((List.range A.offsets_ptr.length).map
          (fun row => (slice_cells A (List.replicate A.offsets_ptr.length pop.start_offset)
            (FunctionArrayPop.length_column A) row).length)) := by
  unfold pop_column slice_array
  rw [foldl_cells_eq (slice_cells A _ _) _ (slice_row_eq A _ _)]
  simp [assemble_column_array, create_mutable_data]

theorem pop_column_row_end_succ [Inhabited α] (pop : PopType) (A : ColumnArrayExecutionData α)
    (k : Nat) (hk : k + 1 < A.offsets_ptr.length) :
    (pop_column pop A).row_end (k + 1)
      = (pop_column pop A).row_end k
        + (slice_cells A (List.replicate A.offsets_ptr.length pop.start_offset)
            (FunctionArrayPop.length_column A) (k + 1)).length := by
  unfold ColumnArrayExecutionData.row_end
  rw [pop_column_offsets, cum_offsets_getD_succ _ _ k (by simpa using hk)]
  simp

theorem pop_column_row_end_zero [Inhabited α] (pop : PopType) (A : ColumnArrayExecutionData α)
    (hk : 0 < A.offsets_ptr.length) :
    (pop_column pop A).row_end 0
      = (slice_cells A (List.replicate A.offsets_ptr.length pop.start_offset)
            (FunctionArrayPop.length_column A) 0).length := by
  unfold ColumnArrayExecutionData.row_end
  rw [pop_column_offsets, cum_offsets_getD_zero _ _ (by simpa using hk)]
  simp

/-- The popped column has as many rows as the source, its offsets are ordered,
and no row ends later than in the source. -/
theorem pop_column_well_formed [Inhabited α] (pop : PopType) (A : ColumnArrayExecutionData α)
    (k : Nat) (hk : k < A.offsets_ptr.length)
    (hmono : ∀ j, j ≤ k → A.row_begin j ≤ A.row_end j) :
    (pop_column pop A).offsets_ptr.length = A.offsets_ptr.length
      ∧ (pop_column pop A).row_begin k ≤ (pop_column pop A).row_end k
      ∧ (pop_column pop A).row_end k ≤ A.row_end k := by
  refine ⟨?_, ?_, ?_⟩
  · rw [pop_column_offsets, cum_offsets_length]
    simp
  · cases k with
    | zero => simp [ColumnArrayExecutionData.row_begin]
    | succ k =>
      rw [pop_column_row_end_succ pop A k hk]
      have hb : (pop_column pop A).row_begin (k + 1) = (pop_column pop A).row_end k := by
        simp [ColumnArrayExecutionData.row_begin, ColumnArrayExecutionData.row_end]
      omega
  · induction k with
    | zero =>
      rw [pop_column_row_end_zero pop A hk]
      have h1 := slice_cells_length_le A (List.replicate A.offsets_ptr.length pop.start_offset)
        (FunctionArrayPop.length_column A) 0
      omega
    | succ k ih =>
      rw [pop_column_row_end_succ pop A k hk]
      have h1 := slice_cells_length_le A (List.replicate A.offsets_ptr.length pop.start_offset)
        (FunctionArrayPop.length_column A) (k + 1)
      have h2 := ih (by omega) (fun j hj => hmono j (by omega))
      have h3 := hmono (k + 1) (Nat.le_refl _)
      have hb : A.row_begin (k + 1) = A.row_end k := by
        simp [ColumnArrayExecutionData.row_begin, ColumnArrayExecutionData.row_end]
      omega

theorem pop_column_row_elements [Inhabited α] (pop : PopType) (A : ColumnArrayExecutionData α)
    (k : Nat) (hk : k < A.offsets_ptr.length) (hmono : A.row_begin k ≤ A.row_end k)
    (hbound : A.row_end k < 2 ^ 63) :
    (pop_column pop A).row_elements k
      = (List.range'
          (A.row_begin k
            + (slice_range (A.row_end k - A.row_begin k) pop.start_offset
                (((A.row_end k - A.row_begin k : Nat) : Int) - 1)).1)
          ((slice_range (A.row_end k - A.row_begin k) pop.start_offset
                (((A.row_end k - A.row_begin k : Nat) : Int) - 1)).2
            - (slice_range (A.row_end k - A.row_begin k) pop.start_offset
                (((A.row_end k - A.row_begin k : Nat) : Int) - 1)).1)).map A.element_at := by
  unfold pop_column
  rw [slice_row_elements _ _ _ k hk, offset_column_getD _ _ _ hk,
    length_column_getD A k hk hmono hbound]

theorem popback_column_row [Inhabited α] (A : ColumnArrayExecutionData α)
    (k : Nat) (hk : k < A.offsets_ptr.length) (hmono : A.row_begin k ≤ A.row_end k)
    (hbound : A.row_end k < 2 ^ 63) :
    (pop_column FunctionArrayPopback A).row_elements k
      = (A.row_elements k).take ((A.row_elements k).length - 1) := by
  rw [pop_column_row_elements _ A k hk hmono hbound]
  have hstart : FunctionArrayPopback.start_offset = 1 := rfl
  rw [hstart, slice_range_popback, row_elements_length]
  unfold ColumnArrayExecutionData.row_elements
  rw [← List.map_take, take_range']
  congr 2
  omega

theorem popfront_column_row [Inhabited α] (A : ColumnArrayExecutionData α)
    (k : Nat) (hk : k < A.offsets_ptr.length) (hmono : A.row_begin k ≤ A.row_end k)
    (hbound : A.row_end k < 2 ^ 63) :
    (pop_column FunctionArrayPopfront A).row_elements k
      = (A.row_elements k).drop (min 1 (A.row_elements k).length) := by
  rw [pop_column_row_elements _ A k hk hmono hbound]
  have hstart : FunctionArrayPopfront.start_offset = 2 := rfl
  rw [hstart, slice_range_popfront, row_elements_length]
  unfold ColumnArrayExecutionData.row_elements
  rw [← List.map_drop, drop_range']

theorem execute_impl_pop_column [Inhabited α] (pop : PopType) (block : List (Column α))
    (arguments : List Nat) (result input_rows_count : Nat) (A : ColumnArrayExecutionData α)
    (argument : Nat) (rest : List Nat) (harg : arguments = argument :: rest)
    (hblock : block[argument]? = some (Column.array A)) (hres : result < block.length) :
    FunctionArrayPop.execute_impl pop block arguments result input_rows_count
      = some (Status.OK, block.set result (Column.array (pop_column pop A))) :=
  execute_impl_ok pop block arguments result input_rows_count A argument rest harg hblock hres

/-- C11: `array_popfront` applied to the result of `array_popback`. Both calls
return OK; for a row with `len >= 2` elements the final row holds the elements at
the positions `[1, len - 1)` of the source row, in order; for a row with 0 or 1
elements `array_popback`, `array_popfront` and their composition all give an
empty row. -/
theorem popfront_of_popback [Inhabited α] (block : List (Column α))
    (argument first_result second_result input_rows_count : Nat) (rest rest2 : List Nat)
    (A : ColumnArrayExecutionData α) (k : Nat)
    (hblock : block[argument]? = some (Column.array A))
    (hfirst : first_result < block.length) (hsecond : second_result < block.length)
    (hk : k < A.offsets_ptr.length)
    (hmono : ∀ j, j ≤ k → A.row_begin j ≤ A.row_end j)
    (hbound : A.row_end k < 2 ^ 63) :
    ∃ B C F,
      FunctionArrayPop.execute_impl FunctionArrayPopback block (argument :: rest)
          first_result input_rows_count
        = some (Status.OK, block.set first_result (Column.array B))
      ∧ FunctionArrayPop.execute_impl FunctionArrayPopfront
          (block.set first_result (Column.array B)) (first_result :: rest2)
          second_result input_rows_count
        = some (Status.OK,
            (block.set first_result (Column.array B)).set second_result (Column.array C))
      ∧ FunctionArrayPop.execute_impl FunctionArrayPopfront block (argument :: rest)
          first_result input_rows_count
        = some (Status.OK, block.set first_result (Column.array F))
      ∧ (2 ≤ (A.row_elements k).length →
          C.row_elements k
            = ((A.row_elements k).take ((A.row_elements k).length - 1)).drop 1)
      ∧ ((A.row_elements k).length ≤ 1 →
          B.row_elements k = [] ∧ F.row_elements k = [] ∧ C.row_elements k = []) := by
  have hA := hmono k (Nat.le_refl _)
  obtain ⟨hB1, hB2, hB3⟩ := pop_column_well_formed FunctionArrayPopback A k hk hmono
  have hkB : k < (pop_column FunctionArrayPopback A).offsets_ptr.length := by
    rw [hB1]
    exact hk
  have hboundB : (pop_column FunctionArrayPopback A).row_end k < 2 ^ 63 :=
    Nat.lt_of_le_of_lt hB3 hbound
  have hblock2 : (block.set first_result
      (Column.array (pop_column FunctionArrayPopback A)))[first_result]?
        = some (Column.array (pop_column FunctionArrayPopback A)) := by
    simp [hfirst]
  have hrowB := popback_column_row A k hk hA hbound
  have hrowF := popfront_column_row A k hk hA hbound
  have hrowC := popfront_column_row (pop_column FunctionArrayPopback A) k hkB hB2 hboundB
  refine ⟨pop_column FunctionArrayPopback A,
    pop_column FunctionArrayPopfront (pop_column FunctionArrayPopback A),
    pop_column FunctionArrayPopfront A,
    execute_impl_pop_column _ block _ first_result input_rows_count A argument rest rfl
      hblock hfirst,
    execute_impl_pop_column _ _ _ second_result input_rows_count _ first_result rest2 rfl
      hblock2 (by simpa using hsecond),
    execute_impl_pop_column _ block _ first_result input_rows_count A argument rest rfl
      hblock hfirst, ?_, ?_⟩
  · intro hlen
    rw [hrowC, hrowB]
    have hl : ((A.row_elements k).take ((A.row_elements k).length - 1)).length
        = (A.row_elements k).length - 1 := by
      rw [List.length_take]
      omega
    rw [hl]
    congr 1
    omega
  · intro hlen
    have hBnil : (pop_column FunctionArrayPopback A).row_elements k = [] := by
      rw [hrowB]
      have h0 : (A.row_elements k).length - 1 = 0 := by omega
      rw [h0]
      rfl
    refine ⟨hBnil, ?_, ?_⟩
    · rw [hrowF]
      apply List.drop_eq_nil_of_le
      omega
    · rw [hrowC, hBnil]
      rfl

theorem popfront_of_popback_witness :
    ∃ B C F,
      FunctionArrayPop.execute_impl FunctionArrayPopback
          [Column.array ints_two_rows, Column.other [], Column.other []] (0 :: [])
          1 2
        = some (Status.OK,
            [Column.array ints_two_rows, Column.other [], Column.other []].set 1
              (Column.array B))
      ∧ FunctionArrayPop.execute_impl FunctionArrayPopfront
          ([Column.array ints_two_rows, Column.other [], Column.other []].set 1
            (Column.array B)) (1 :: [])
          2 2
        = some (Status.OK,
            ([Column.array ints_two_rows, Column.other [], Column.other []].set 1
              (Column.array B)).set 2 (Column.array C))
      ∧ FunctionArrayPop.execute_impl FunctionArrayPopfront
          [Column.array ints_two_rows, Column.other [], Column.other []] (0 :: [])
          1 2
        = some (Status.OK,
            [Column.array ints_two_rows, Column.other [], Column.other []].set 1
              (Column.array F))
      ∧ (2 ≤ (ints_two_rows.row_elements 0).length →
          C.row_elements 0
            = ((ints_two_rows.row_elements 0).take
                ((ints_two_rows.row_elements 0).length - 1)).drop 1)
      ∧ ((ints_two_rows.row_elements 0).length ≤ 1 →
          B.row_elements 0 = [] ∧ F.row_elements 0 = [] ∧ C.row_elements 0 = []) :=
  popfront_of_popback [Column.array ints_two_rows, Column.other [], Column.other []]
    0 1 2 2 [] [] ints_two_rows 0 rfl (by decide) (by decide) (by decide) (by decide)
    (by decide)

/-- The round trip on the rows `[10, 20, 30]` and `[]`: `array_popfront` of
`array_popback` gives the rows `[20]` and `[]`. -/
theorem popfront_of_popback_scenario :
    pop_column FunctionArrayPopfront (pop_column FunctionArrayPopback ints_two_rows)
      = { nested_col := { kind := 3, data := [20] }
          nested_nullmap_data := some [0]
          offsets_ptr := [1, 1] } := by
  decide

/-! ## Constant arguments -/

/-- A constant argument on three rows: Intersect of the rows `[1, 2]`, `[]`, `[2]`
with the constant row `[2, 3, 4]` gives the rows `[2]`, `[]`, `[2]`. -/
theorem constant_argument_scenario :
    ArrayMapImpl.execute MapOperation.INTERSECT [1, 3] none [ints_three_rows, ints_234]
        [false, true] 0 3
      = (Status.OK, some { nested_col := { kind := 3, data := [2, 2] }
                           nested_nullmap_data := some [0, 0]
                           offsets_ptr := [1, 1, 2] })
    ∧ ints_234.replicate_row 3
      = { nested_col := { kind := 3, data := [2, 3, 4, 2, 3, 4, 2, 3, 4] }
          nested_nullmap_data := some [0, 0, 0, 0, 0, 0, 0, 0, 0]
          offsets_ptr := [3, 6, 9] } := by
  decide

/-! ## Round trips between the wire tags and the internal tags -/

theorem mem_to_thrift_cases (p : PrimitiveType) :
    p ∈ to_thrift_cases ↔ ∀ n, p ≠ PrimitiveType.other n := by
  cases p <;> simp [to_thrift_cases]

theorem thrift_to_type_to_thrift (p : PrimitiveType) (hp : p ∈ to_thrift_cases) :
    thrift_to_type (to_thrift p) = some p := by
  cases p <;> first | rfl | simp [to_thrift_cases] at hp

/-- C23: for every internal tag `p` that `to_thrift` handles by a named case,
`thrift_to_type (to_thrift p)` returns `p`; `to_thrift` is injective on these
tags, and among them only `INVALID_TYPE` is sent to the wire value
`INVALID_TYPE`. -/
theorem to_thrift_round_trip :
    (∀ p ∈ to_thrift_cases, thrift_to_type (to_thrift p) = some p)
    ∧ (∀ p ∈ to_thrift_cases, ∀ q ∈ to_thrift_cases, to_thrift p = to_thrift q → p = q)
    ∧ (∀ p ∈ to_thrift_cases,
        to_thrift p = TPrimitiveType.INVALID_TYPE → p = PrimitiveType.INVALID_TYPE) := by
  refine ⟨thrift_to_type_to_thrift, ?_, ?_⟩
  · intro p hp q hq h
    have h1 := thrift_to_type_to_thrift p hp
    have h2 := thrift_to_type_to_thrift q hq
    rw [h] at h1
    exact Option.some.inj (h1.symm.trans h2)
  · intro p hp h
    have h1 := thrift_to_type_to_thrift p hp
    rw [h] at h1
    exact (Option.some.inj h1).symm

theorem to_thrift_thrift_to_type (t : TPrimitiveType) (ht : t ∈ thrift_to_type_cases)
    (htime : t ≠ TPrimitiveType.TIME) : (thrift_to_type t).map to_thrift = some t := by
  cases t <;> first | rfl | exact absurd rfl htime | simp [thrift_to_type_cases] at ht

/-- C24: for every wire tag `t` that `thrift_to_type` recognises, other than
`TIME`, `to_thrift (thrift_to_type t)` is `t`; `TIME` and `TIMEV2` both map to
`TYPE_TIMEV2`, so that `TIME` comes back as `TIMEV2`; and two distinct recognised
wire tags with the same internal tag are `TIME` and `TIMEV2`. -/
theorem thrift_to_type_round_trip :
    (∀ t ∈ thrift_to_type_cases, t ≠ TPrimitiveType.TIME →
        (thrift_to_type t).map to_thrift = some t)
    ∧ thrift_to_type TPrimitiveType.TIME = some PrimitiveType.TYPE_TIMEV2
    ∧ thrift_to_type TPrimitiveType.TIMEV2 = some PrimitiveType.TYPE_TIMEV2
    ∧ (thrift_to_type TPrimitiveType.TIME).map to_thrift = some TPrimitiveType.TIMEV2
    ∧ (∀ t ∈ thrift_to_type_cases, ∀ u ∈ thrift_to_type_cases, t ≠ u →
        thrift_to_type t = thrift_to_type u →
        (t = TPrimitiveType.TIME ∧ u = TPrimitiveType.TIMEV2)
          ∨ (t = TPrimitiveType.TIMEV2 ∧ u = TPrimitiveType.TIME)) := by
  refine ⟨to_thrift_thrift_to_type, rfl, rfl, rfl, ?_⟩
  intro t ht u hu hne h
  by_cases h1 : t = TPrimitiveType.TIME
  · by_cases h2 : u = TPrimitiveType.TIME
    · exact absurd (h1.trans h2.symm) hne
    · have hu2 := to_thrift_thrift_to_type u hu h2
      rw [← h, h1] at hu2
      exact Or.inl ⟨h1, (Option.some.inj hu2).symm⟩
  · have ht2 := to_thrift_thrift_to_type t ht h1
    by_cases h2 : u = TPrimitiveType.TIME
    · rw [h, h2] at ht2
      exact Or.inr ⟨(Option.some.inj ht2).symm, h2⟩
    · have hu2 := to_thrift_thrift_to_type u hu h2
      rw [h] at ht2
      exact absurd (Option.some.inj (ht2.symm.trans hu2)) hne

/-! ## `BitCountImpl` on the signed integer types -/

theorem popcount_le (bits x : Nat) : popcount bits x ≤ bits := by
  unfold popcount
  exact (List.countP_le_length _).trans (by simp)

theorem popcount_all_ones (bits : Nat) : popcount bits (2 ^ bits - 1) = bits := by
  unfold popcount
  have h : (List.range bits).countP (fun i => (2 ^ bits - 1).testBit i)
      = (List.range bits).length := by
    rw [List.countP_eq_length]
    intro i hi
    rw [Nat.testBit_two_pow_sub_one]
    simpa using hi
  rw [h, List.length_range]

theorem popcount_zero (bits : Nat) : popcount bits 0 = 0 := by
  unfold popcount
  rw [List.countP_eq_zero]
  intro i _
  simp

theorem to_unsigned_neg_one (bits : Nat) : to_unsigned bits (-1) = 2 ^ bits - 1 := by
  unfold to_unsigned
  have hpos : (0 : Int) < (2 : Int) ^ bits := by positivity
  have h : (-1 : Int) % (2 : Int) ^ bits = (2 : Int) ^ bits - 1 := by
    have h1 : (-1 : Int) % (2 : Int) ^ bits = (-1 + (2 : Int) ^ bits) % (2 : Int) ^ bits :=
      (Int.add_emod_self).symm
    have h2 : (-1 + (2 : Int) ^ bits) % (2 : Int) ^ bits = -1 + (2 : Int) ^ bits :=
      Int.emod_eq_of_lt (by omega) (by omega)
    rw [h1, h2]
    ring
  rw [h]
  have hcast : ((2 : Int) ^ bits - 1) = ((2 ^ bits - 1 : Nat) : Int) := by
    have h1 : 1 ≤ 2 ^ bits := Nat.one_le_two_pow
    push_cast [Nat.cast_sub h1]
    ring
  rw [hcast, Int.toNat_ofNat]

theorem to_unsigned_zero (bits : Nat) : to_unsigned bits 0 = 0 := by
  simp [to_unsigned]

theorem cast_set_8 (v : Int) (h0 : 0 ≤ v) (h1 : v < 128) : cast_set 8 v = v := by
  unfold cast_set
  norm_num
  omega

theorem cast_set_16 (v : Int) (h0 : 0 ≤ v) (h1 : v < 32768) : cast_set 16 v = v := by
  unfold cast_set
  norm_num
  omega

theorem to_unsigned_twos_complement (bits : Nat) (a : Int)
    (h1 : -((2 : Int) ^ bits) ≤ a) (h2 : a < (2 : Int) ^ bits) :
    ((to_unsigned bits a : Nat) : Int) = if 0 ≤ a then a else a + (2 : Int) ^ bits := by
  unfold to_unsigned
  have hpos : (0 : Int) < (2 : Int) ^ bits := by positivity
  have hnn : 0 ≤ a % (2 : Int) ^ bits := Int.emod_nonneg a (ne_of_gt hpos)
  rw [Int.toNat_of_nonneg hnn]
  by_cases ha : 0 ≤ a
  · rw [if_pos ha]
    exact Int.emod_eq_of_lt ha h2
  · rw [if_neg ha]
    have h3 : a % (2 : Int) ^ bits = (a + (2 : Int) ^ bits) % (2 : Int) ^ bits :=
      (Int.add_emod_self).symm
    rw [h3]
    exact Int.emod_eq_of_lt (by omega) (by omega)

theorem bit_count_apply_eq (T : CppType)
    (hT : T ∈ [CppType.Int8, CppType.Int16, CppType.Int32, CppType.Int64, CppType.Int128])
    (a : Int) :
    BitCountImpl.apply T a
        = Except.ok ((popcount (T.size_of * 8) (to_unsigned (T.size_of * 8) a) : Nat) : Int)
      ∧ BitCountImpl.ResultType T
        = (if T.size_of * 8 = 128 then PrimitiveType.TYPE_SMALLINT
            else PrimitiveType.TYPE_TINYINT)
      ∧ ((T.size_of * 8 : Nat) : Int) < (2 : Int) ^ (BitCountImpl.result_bits T - 1) := by
  have hle := popcount_le (T.size_of * 8) (to_unsigned (T.size_of * 8) a)
  simp only [List.mem_cons, List.mem_singleton, List.not_mem_nil, or_false] at hT
  rcases hT with rfl | rfl | rfl | rfl | rfl
  · refine ⟨?_, by decide, by decide⟩
    have hbits : BitCountImpl.result_bits CppType.Int8 = 8 := by decide
    have hb : CppType.Int8.size_of * 8 ≤ 64 := by decide
    simp only [BitCountImpl.apply, hbits]
    rw [cast_set_8 _ (by omega) (by omega)]
  · refine ⟨?_, by decide, by decide⟩
    have hbits : BitCountImpl.result_bits CppType.Int16 = 8 := by decide
    have hb : CppType.Int16.size_of * 8 ≤ 64 := by decide
    simp only [BitCountImpl.apply, hbits]
    rw [cast_set_8 _ (by omega) (by omega)]
  · refine ⟨?_, by decide, by decide⟩
    have hbits : BitCountImpl.result_bits CppType.Int32 = 8 := by decide
    have hb : CppType.Int32.size_of * 8 ≤ 64 := by decide
    simp only [BitCountImpl.apply, hbits]
    rw [cast_set_8 _ (by omega) (by omega)]
  · refine ⟨?_, by decide, by decide⟩
    have hbits : BitCountImpl.result_bits CppType.Int64 = 8 := by decide
    have hb : CppType.Int64.size_of * 8 ≤ 64 := by decide
    simp only [BitCountImpl.apply, hbits]
    rw [cast_set_8 _ (by omega) (by omega)]
  · refine ⟨?_, by decide, by decide⟩
    have hbits : BitCountImpl.result_bits CppType.Int128 = 16 := by decide
    have hb : CppType.Int128.size_of * 8 ≤ 128 := by decide
    simp only [BitCountImpl.apply, hbits]
    rw [cast_set_16 _ (by omega) (by omega)]

/-- C22: for a signed integer `a` of one of the widths `w` = 8, 16, 32, 64, 128,
`BitCountImpl::apply` returns the number of 1 bits among the `w` bits of the two's
complement representation of `a` (`a` itself when `a >= 0`, `a + 2^w` otherwise);
the result lies between 0 and `w`, it is `w` for -1 and 0 for 0; the result type is
`TYPE_SMALLINT` for `w = 128` and `TYPE_TINYINT` otherwise, and `w` is below the
largest value of its C++ type, so that the narrowing cast changes nothing. -/
theorem bit_count_apply_counts_bits (T : CppType)
    (hT : T ∈ [CppType.Int8, CppType.Int16, CppType.Int32, CppType.Int64, CppType.Int128])
    (a : Int)
    (hlow : -((2 : Int) ^ (T.size_of * 8 - 1)) ≤ a) (hhigh : a < (2 : Int) ^ (T.size_of * 8 - 1)) :
    BitCountImpl.apply T a
        = Except.ok ((popcount (T.size_of * 8) (to_unsigned (T.size_of * 8) a) : Nat) : Int)
      ∧ ((to_unsigned (T.size_of * 8) a : Nat) : Int)
          = (if 0 ≤ a then a else a + (2 : Int) ^ (T.size_of * 8))
      ∧ popcount (T.size_of * 8) (to_unsigned (T.size_of * 8) a) ≤ T.size_of * 8
      ∧ BitCountImpl.apply T (-1) = Except.ok ((T.size_of * 8 : Nat) : Int)
      ∧ BitCountImpl.apply T 0 = Except.ok 0
      ∧ BitCountImpl.ResultType T
          = (if T.size_of * 8 = 128 then PrimitiveType.TYPE_SMALLINT
              else PrimitiveType.TYPE_TINYINT)
      ∧ ((T.size_of * 8 : Nat) : Int) < (2 : Int) ^ (BitCountImpl.result_bits T - 1) := by
  obtain ⟨h1, h2, h3⟩ := bit_count_apply_eq T hT a
  have hpow : (2 : Int) ^ (T.size_of * 8 - 1) ≤ (2 : Int) ^ (T.size_of * 8) :=
    pow_le_pow_right₀ (by norm_num) (Nat.sub_le _ _)
  refine ⟨h1, to_unsigned_twos_complement _ a (by omega) (by omega), popcount_le _ _, ?_, ?_,
    h2, h3⟩
  · rw [(bit_count_apply_eq T hT (-1)).1, to_unsigned_neg_one, popcount_all_ones]
  · rw [(bit_count_apply_eq T hT 0).1, to_unsigned_zero, popcount_zero]
    rfl

theorem bit_count_apply_counts_bits_witness :
    BitCountImpl.apply CppType.Int8 (-3)
        = Except.ok ((popcount (CppType.Int8.size_of * 8)
            (to_unsigned (CppType.Int8.size_of * 8) (-3)) : Nat) : Int)
      ∧ ((to_unsigned (CppType.Int8.size_of * 8) (-3) : Nat) : Int)
          = (if (0 : Int) ≤ -3 then -3 else -3 + (2 : Int) ^ (CppType.Int8.size_of * 8))
      ∧ popcount (CppType.Int8.size_of * 8) (to_unsigned (CppType.Int8.size_of * 8) (-3))
          ≤ CppType.Int8.size_of * 8
      ∧ BitCountImpl.apply CppType.Int8 (-1)
          = Except.ok ((CppType.Int8.size_of * 8 : Nat) : Int)
      ∧ BitCountImpl.apply CppType.Int8 0 = Except.ok 0
      ∧ BitCountImpl.ResultType CppType.Int8
          = (if CppType.Int8.size_of * 8 = 128 then PrimitiveType.TYPE_SMALLINT
              else PrimitiveType.TYPE_TINYINT)
      ∧ ((CppType.Int8.size_of * 8 : Nat) : Int)
          < (2 : Int) ^ (BitCountImpl.result_bits CppType.Int8 - 1) :=
  bit_count_apply_counts_bits CppType.Int8 (by decide) (-3) (by decide) (by decide)

/-- Values of `bit_count`: 7 ones in the 8-bit representation of -3, 2 in that of
5, 8 in that of -1. -/
theorem bit_count_scenario :
    BitCountImpl.apply CppType.Int8 (-3) = Except.ok 7
    ∧ BitCountImpl.apply CppType.Int8 5 = Except.ok 2
    ∧ BitCountImpl.apply CppType.Int8 (-1) = Except.ok 8
    ∧ BitCountImpl.apply CppType.Int16 (-1) = Except.ok 16 :=
  ⟨rfl, rfl, rfl, rfl⟩

/-! ## Null markers of a row -/

theorem row_map_read_back {β : Type} (g : Nat → β) (h : α × Nat → β)
    (d : ColumnArrayExecutionData α) (L : List (List (α × Nat)))
    (hoff : d.offsets_ptr = cum_offsets 0 (L.map List.length)) (k : Nat) (hk : k < L.length)
    (hg : ∀ (A B C : List (α × Nat)) (j : Nat) (hj : j < B.length),
      L.flatten = A ++ B ++ C → g (A.length + j) = h B[j]) :
    (List.range' (d.row_begin k) (d.row_end k - d.row_begin k)).map g = L[k].map h := by
  have hb : d.row_begin k = ((L.take k).flatten).length := by
    unfold ColumnArrayExecutionData.row_begin
    rw [hoff]
    cases k with
    | zero => simp
    | succ k =>
      have hk2 : k < L.length := by omega
      rw [if_neg (Nat.succ_ne_zero k), Nat.add_sub_cancel, cum_offsets_getD L 0 k hk2,
        Nat.zero_add]
  have he : d.row_end k = ((L.take k).flatten).length + L[k].length := by
    unfold ColumnArrayExecutionData.row_end
    rw [hoff, cum_offsets_getD L 0 k hk, Nat.zero_add, take_succ_flatten_length L k hk]
  rw [hb, he, Nat.add_sub_cancel_left]
  apply List.ext_getElem
  · simp
  · intro j h1 h2
    have hj : j < L[k].length := by simpa using h2
    simp only [List.getElem_map, List.getElem_range', Nat.one_mul]
    exact hg _ _ _ j hj (flatten_split L k hk)

theorem getD_map_mid {β γ : Type} (f : β → γ) (A B C : List β) (j : Nat) (hj : j < B.length)
    (dflt : γ) : ((A ++ B ++ C).map f).getD (A.length + j) dflt = f B[j] := by
  have hlt : A.length + j < ((A ++ B ++ C).map f).length := by simp; omega
  rw [List.getD_eq_getElem _ _ hlt]
  simp [List.getElem_append_left, List.getElem_append_right, hj]

/-- The values and the nullmap entries of row `r` of the column assembled from
`OpenMapImpl::apply` on a fresh builder are those of the cells the row loop
appended for the `r`-th row of the batch. -/
theorem apply_row_values_flags [DecidableEq α] [Inhabited α] (operation : MapOperation)
    (col : IColumn α) (nullable : Bool) (params : List (ColumnArrayExecutionData α))
    (col_const : List Bool) (start_row end_row r : Nat) (hr : start_row + r < end_row) :
    (assemble_column_array (OpenMapImpl.apply operation (create_mutable_data col nullable)
        params col_const start_row end_row)).row_values r
        = (row_cells operation params col_const (start_row + r)).map Prod.fst
      ∧ (nullable = true →
          (assemble_column_array (OpenMapImpl.apply operation (create_mutable_data col nullable)
            params col_const start_row end_row)).row_null_flags r
          = (row_cells operation params col_const (start_row + r)).map Prod.snd) := by
  have hk : r < (List.range' start_row (end_row - start_row)).length := by
    rw [List.length_range']
    omega
  have hk2 : r < ((List.range' start_row (end_row - start_row)).map
      (row_cells operation params col_const)).length := by
    rw [List.length_map]
    exact hk
  obtain ⟨hoff, hdata, hnm⟩ := fresh_fold_parts (row_cells operation params col_const) _
    (apply_row_eq operation params col_const) col nullable
    (List.range' start_row (end_row - start_row))
  have hcell : ((List.range' start_row (end_row - start_row)).map
      (row_cells operation params col_const))[r]
      = row_cells operation params col_const (start_row + r) := by
    rw [List.getElem_map, List.getElem_range', Nat.one_mul]
  constructor
  · unfold ColumnArrayExecutionData.row_values
    rw [row_map_read_back _ Prod.fst _ _ hoff r hk2, hcell]
    intro A B C j hj hsplit
    show (OpenMapImpl.apply operation (create_mutable_data col nullable) params col_const
      start_row end_row).nested_col.data.getD (A.length + j) default = _
    unfold OpenMapImpl.apply
    rw [hdata, hsplit]
    exact getD_map_mid Prod.fst A B C j hj default
  · intro hnull
    unfold ColumnArrayExecutionData.row_null_flags
    rw [row_map_read_back _ Prod.snd _ _ hoff r hk2, hcell]
    intro A B C j hj hsplit
    unfold ColumnArrayExecutionData.null_flag_at
    show (match (OpenMapImpl.apply operation (create_mutable_data col nullable) params
      col_const start_row end_row).nested_nullmap_data with
      | none => 0
      | some m => m.getD (A.length + j) 0) = _
    unfold OpenMapImpl.apply
    rw [hnm, hnull, hsplit]
    exact getD_map_mid Prod.snd A B C j hj 0

theorem getD_flags (b : Bool) (n j : Nat) :
    ((if b then [1] else []) ++ List.replicate n 0).getD j 0 = 1 ↔ j = 0 ∧ b = true := by
  cases b with
  | false =>
    simp only [Bool.false_eq_true, if_false, List.nil_append, and_false, iff_false]
    rw [List.getD_eq_getElem?_getD]
    by_cases hj : j < n
    · simp [List.getElem?_replicate, hj]
    · simp [List.getElem?_replicate, hj]
  | true =>
    cases j with
    | zero => simp
    | succ j =>
      simp only [if_true, List.singleton_append, List.getD_cons_succ]
      rw [List.getD_eq_getElem?_getD]
      by_cases hj : j < n
      · simp [List.getElem?_replicate, hj]
      · simp [List.getElem?_replicate, hj]

/-- C21: in the row that `OpenMapImpl::apply` writes for the `r`-th row of the
batch, the element appended by the `apply_null` branch, if any, is the first
element of the row, the emitted map entries follow it; when the builder carries a
nullmap, that first element has the nullmap entry 1, every emitted map entry has
the entry 0, so that an entry of the row is 1 iff it is the first one and the
null element was emitted; and after every row the nullmap, if the builder
carries one, is as long as the nested column. -/
theorem null_element_first_and_only_flag [DecidableEq α] [Inhabited α]
    (operation : MapOperation) (col : IColumn α) (nullable : Bool)
    (params : List (ColumnArrayExecutionData α)) (col_const : List Bool)
    (start_row end_row r : Nat) (hr : start_row + r < end_row) :
    (assemble_column_array (OpenMapImpl.apply operation (create_mutable_data col nullable)
        params col_const start_row end_row)).row_values r
        = (if (OpenMapImpl.after_arguments col_const (start_row + r) params).action.apply_null
              operation then [default] else [])
          ++ (emitted_entries operation params.length
                (OpenMapImpl.after_arguments col_const (start_row + r) params).map).map Prod.fst
      ∧ (nullable = true →
          (assemble_column_array (OpenMapImpl.apply operation (create_mutable_data col nullable)
            params col_const start_row end_row)).row_null_flags r
          = (if (OpenMapImpl.after_arguments col_const (start_row + r) params).action.apply_null
                operation then [1] else [])
            ++ List.replicate (emitted_entries operation params.length
                (OpenMapImpl.after_arguments col_const (start_row + r) params).map).length 0)
      ∧ (nullable = true → ∀ j,
          ((assemble_column_array (OpenMapImpl.apply operation
              (create_mutable_data col nullable) params col_const
              start_row end_row)).row_null_flags r).getD j 0 = 1
            ↔ j = 0 ∧ (OpenMapImpl.after_arguments col_const (start_row + r)
                params).action.apply_null operation = true)
      ∧ (OpenMapImpl.apply_state_after operation (create_mutable_data col nullable) params
            col_const start_row end_row (start_row + r)).1.nested_nullmap_data.map List.length
          = (if nullable then
              some (OpenMapImpl.apply_state_after operation (create_mutable_data col nullable)
                params col_const start_row end_row (start_row + r)).1.nested_col.data.length
            else none) := by
  obtain ⟨hv, hf⟩ := apply_row_values_flags operation col nullable params col_const
    start_row end_row r hr
  have hcells_fst : (row_cells operation params col_const (start_row + r)).map Prod.fst
      = (if (OpenMapImpl.after_arguments col_const (start_row + r) params).action.apply_null
            operation then [default] else [])
        ++ (emitted_entries operation params.length
              (OpenMapImpl.after_arguments col_const (start_row + r) params).map).map
            Prod.fst := by
    unfold row_cells OpenMapImpl.after_arguments
    simp only [List.map_append, List.map_map]
    congr 1
    split <;> rfl
  have hcells_snd : (row_cells operation params col_const (start_row + r)).map Prod.snd
      = (if (OpenMapImpl.after_arguments col_const (start_row + r) params).action.apply_null
            operation then [1] else [])
        ++ List.replicate (emitted_entries operation params.length
              (OpenMapImpl.after_arguments col_const (start_row + r) params).map).length 0 := by
    unfold row_cells OpenMapImpl.after_arguments
    simp only [List.map_append, List.map_map]
    congr 1
    · split <;> rfl
    · show List.map (fun _ => 0) _ = _
      exact List.map_const' _ _
  have hflags := fun hnull => (hf hnull).trans hcells_snd
  refine ⟨hv.trans hcells_fst, hflags, ?_, ?_⟩
  · intro hnull j
    rw [hflags hnull]
    exact getD_flags _ _ j
  · obtain ⟨_, hdata, hnm⟩ := fresh_fold_parts (row_cells operation params col_const) _
      (apply_row_eq operation params col_const) col nullable
      ((List.range' start_row (end_row - start_row)).take (start_row + r + 1 - start_row))
    unfold OpenMapImpl.apply_state_after
    rw [hnm, hdata]
    cases nullable with
    | false => rfl
    | true =>
      show some (List.length _) = some (List.length _)
      rw [List.length_map, List.length_map]

theorem null_element_first_and_only_flag_witness :
    (assemble_column_array (OpenMapImpl.apply MapOperation.UNION
        (create_mutable_data ints_1_null.nested_col true)
        [ints_1_null, ints_null_2] [false, false] 0 1)).row_values 0
        = (if (OpenMapImpl.after_arguments [false, false] (0 + 0)
                [ints_1_null, ints_null_2]).action.apply_null MapOperation.UNION
            then [default] else [])
          ++ (emitted_entries MapOperation.UNION [ints_1_null, ints_null_2].length
                (OpenMapImpl.after_arguments [false, false] (0 + 0)
                  [ints_1_null, ints_null_2]).map).map Prod.fst
      ∧ (true = true →
          (assemble_column_array (OpenMapImpl.apply MapOperation.UNION
            (create_mutable_data ints_1_null.nested_col true)
            [ints_1_null, ints_null_2] [false, false] 0 1)).row_null_flags 0
          = (if (OpenMapImpl.after_arguments [false, false] (0 + 0)
                  [ints_1_null, ints_null_2]).action.apply_null MapOperation.UNION
              then [1] else [])
            ++ List.replicate (emitted_entries MapOperation.UNION
                [ints_1_null, ints_null_2].length
                (OpenMapImpl.after_arguments [false, false] (0 + 0)
                  [ints_1_null, ints_null_2]).map).length 0)
      ∧ (true = true → ∀ j,
          ((assemble_column_array (OpenMapImpl.apply MapOperation.UNION
              (create_mutable_data ints_1_null.nested_col true)
              [ints_1_null, ints_null_2] [false, false] 0 1)).row_null_flags 0).getD j 0 = 1
            ↔ j = 0 ∧ (OpenMapImpl.after_arguments [false, false] (0 + 0)
                [ints_1_null, ints_null_2]).action.apply_null MapOperation.UNION = true)
      ∧ (OpenMapImpl.apply_state_after MapOperation.UNION
            (create_mutable_data ints_1_null.nested_col true)
            [ints_1_null, ints_null_2] [false, false] 0 1
            (0 + 0)).1.nested_nullmap_data.map List.length
          = (if true then
              some (OpenMapImpl.apply_state_after MapOperation.UNION
                (create_mutable_data ints_1_null.nested_col true)
                [ints_1_null, ints_null_2] [false, false] 0 1 (0 + 0)).1.nested_col.data.length
            else none) :=
  null_element_first_and_only_flag MapOperation.UNION ints_1_null.nested_col true
    [ints_1_null, ints_null_2] [false, false] 0 1 0 (by decide)

/-- The row Union writes for `[1, null]` and `[null, 2]`: the placeholder first,
with nullmap entry 1, then the values 1 and 2 with entry 0. -/
theorem null_element_scenario :
    (assemble_column_array (OpenMapImpl.apply MapOperation.UNION
        (create_mutable_data ints_1_null.nested_col true)
        [ints_1_null, ints_null_2] [false, false] 0 1)).row_values 0 = [0, 1, 2]
    ∧ (assemble_column_array (OpenMapImpl.apply MapOperation.UNION
        (create_mutable_data ints_1_null.nested_col true)
        [ints_1_null, ints_null_2] [false, false] 0 1)).row_null_flags 0 = [1, 0, 0] := by
  decide

/-! ## Intersect and Union as operations on sets -/

theorem argument_rows_pair [Inhabited α] (A B : ColumnArrayExecutionData α)
    (const_A const_B : Bool) (row : Nat) :
    argument_rows [const_A, const_B] row 0 [A, B]
      = [A.row_elements (index_check_const row const_A),
         B.row_elements (index_check_const row const_B)] := by
  simp [argument_rows, List.enumFrom]

/-- The output row of Intersect holds exactly the elements, null included, that
occur in every argument row. -/
theorem mem_intersect_row [DecidableEq α] [Inhabited α]
    (ALL_COLUMNS_SIMPLE : List Nat) (res_ptr : ColumnPtr α)
    (datas : List (ColumnArrayExecutionData α)) (col_const : List Bool)
    (start_row end_row row : Nat) (hN : datas ≠ [])
    (hkind : ∃ c ∈ ALL_COLUMNS_SIMPLE, ∀ d ∈ datas, d.nested_col.kind = c)
    (h1 : start_row ≤ row) (h2 : row < end_row) :
    ∃ res, ArrayMapImpl.execute MapOperation.INTERSECT ALL_COLUMNS_SIMPLE res_ptr datas
          col_const start_row end_row = (Status.OK, some res)
      ∧ ∀ x : Option α, x ∈ res.row_elements (row - start_row)
          ↔ ∀ r ∈ argument_rows col_const row 0 datas, x ∈ r := by
  obtain ⟨res, hres, hrow⟩ := intersect_row_elements ALL_COLUMNS_SIMPLE res_ptr datas col_const
    start_row end_row row hN hkind h1 h2
  have hne : argument_rows col_const row 0 datas ≠ [] := by
    intro h
    have hlen := argument_rows_length col_const row 0 datas
    rw [h] at hlen
    exact hN (List.length_eq_zero.1 hlen.symm)
  refine ⟨res, hres, ?_⟩
  intro x
  rw [hrow, List.mem_append]
  cases x with
  | none =>
    rw [← rows_apply_null_intersect]
    constructor
    · rintro (h | h)
      · by_contra hc
        simp [hc] at h
      · exact absurd h (none_not_mem_emitted _ _ _)
    · intro h
      left
      simp [h]
  | some v =>
    rw [mem_emitted_intersect _ hne]
    constructor
    · rintro (h | h)
      · split at h <;> simp at h
      · exact h
    · exact fun h => Or.inr h

/-- The output row of Union holds every element, null included, of the output
row of Intersect for the same inputs. -/
theorem intersect_subset_union [DecidableEq α] [Inhabited α]
    (ALL_COLUMNS_SIMPLE : List Nat) (res_ptr : ColumnPtr α)
    (datas : List (ColumnArrayExecutionData α)) (col_const : List Bool)
    (start_row end_row row : Nat) (hN : datas ≠ [])
    (hkind : ∃ c ∈ ALL_COLUMNS_SIMPLE, ∀ d ∈ datas, d.nested_col.kind = c)
    (h1 : start_row ≤ row) (h2 : row < end_row) :
    ∃ res_i res_u,
      ArrayMapImpl.execute MapOperation.INTERSECT ALL_COLUMNS_SIMPLE res_ptr datas
          col_const start_row end_row = (Status.OK, some res_i)
      ∧ ArrayMapImpl.execute MapOperation.UNION ALL_COLUMNS_SIMPLE res_ptr datas
          col_const start_row end_row = (Status.OK, some res_u)
      ∧ ∀ x : Option α, x ∈ res_i.row_elements (row - start_row)
          → x ∈ res_u.row_elements (row - start_row) := by
  obtain ⟨res_i, hi, hmem⟩ := mem_intersect_row ALL_COLUMNS_SIMPLE res_ptr datas col_const
    start_row end_row row hN hkind h1 h2
  obtain ⟨res_u, hu, hrow⟩ := union_row_elements ALL_COLUMNS_SIMPLE res_ptr datas col_const
    start_row end_row row hN hkind h1 h2
  refine ⟨res_i, res_u, hi, hu, ?_⟩
  intro x hx
  have hall := (hmem x).1 hx
  obtain ⟨d0, ds, rfl⟩ := List.exists_cons_of_ne_nil hN
  have h0 : x ∈ d0.row_elements (index_check_const row (col_const.getD 0 false)) := by
    apply hall
    rw [argument_rows_cons]
    exact List.mem_cons_self _ _
  have hr0 : d0.row_elements (index_check_const row (col_const.getD 0 false))
      ∈ argument_rows col_const row 0 (d0 :: ds) := by
    rw [argument_rows_cons]
    exact List.mem_cons_self _ _
  rw [hrow, List.mem_append]
  cases x with
  | none =>
    left
    have hnull : rows_apply_null MapOperation.UNION
        (argument_rows col_const row 0 (d0 :: ds)) = true :=
      (rows_apply_null_union _).2 ⟨_, hr0, h0⟩
    have hnm := nullmap_of_none_mem d0 _ h0
    simp [hnull, hnm]
  | some v =>
    right
    exact (mem_emitted_union _ _ v).2 ⟨_, hr0, h0⟩

/-- The set of elements of the output row of Intersect does not depend on the
order of the two arguments. -/
theorem intersect_commutes [DecidableEq α] [Inhabited α]
    (ALL_COLUMNS_SIMPLE : List Nat) (res_ptr : ColumnPtr α)
    (A B : ColumnArrayExecutionData α) (const_A const_B : Bool)
    (start_row end_row row : Nat)
    (hkind : ∃ c ∈ ALL_COLUMNS_SIMPLE, A.nested_col.kind = c ∧ B.nested_col.kind = c)
    (h1 : start_row ≤ row) (h2 : row < end_row) :
    ∃ res_ab res_ba,
      ArrayMapImpl.execute MapOperation.INTERSECT ALL_COLUMNS_SIMPLE res_ptr [A, B]
          [const_A, const_B] start_row end_row = (Status.OK, some res_ab)
      ∧ ArrayMapImpl.execute MapOperation.INTERSECT ALL_COLUMNS_SIMPLE res_ptr [B, A]
          [const_B, const_A] start_row end_row = (Status.OK, some res_ba)
      ∧ ∀ x : Option α, x ∈ res_ab.row_elements (row - start_row)
          ↔ x ∈ res_ba.row_elements (row - start_row) := by
  obtain ⟨c, hc, hA, hB⟩ := hkind
  obtain ⟨res_ab, hab, hmab⟩ := mem_intersect_row ALL_COLUMNS_SIMPLE res_ptr [A, B]
    [const_A, const_B] start_row end_row row (List.cons_ne_nil _ _)
    ⟨c, hc, by simp [hA, hB]⟩ h1 h2
  obtain ⟨res_ba, hba, hmba⟩ := mem_intersect_row ALL_COLUMNS_SIMPLE res_ptr [B, A]
    [const_B, const_A] start_row end_row row (List.cons_ne_nil _ _)
    ⟨c, hc, by simp [hA, hB]⟩ h1 h2
  refine ⟨res_ab, res_ba, hab, hba, ?_⟩
  intro x
  rw [hmab x, hmba x, argument_rows_pair, argument_rows_pair]
  simp only [List.mem_cons, List.mem_singleton, List.not_mem_nil, or_false, forall_eq_or_imp,
    forall_eq]
  exact And.comm

/-- The set of elements of the output row of Union does not depend on the order
of the two arguments when both nested columns carry a nullmap. -/
theorem union_commutes_with_nullmaps [DecidableEq α] [Inhabited α]
    (ALL_COLUMNS_SIMPLE : List Nat) (res_ptr : ColumnPtr α)
    (A B : ColumnArrayExecutionData α) (const_A const_B : Bool)
    (start_row end_row row : Nat)
    (hkind : ∃ c ∈ ALL_COLUMNS_SIMPLE, A.nested_col.kind = c ∧ B.nested_col.kind = c)
    (h1 : start_row ≤ row) (h2 : row < end_row)
    (hA : A.nested_nullmap_data.isSome = true) (hB : B.nested_nullmap_data.isSome = true) :
    ∃ res_ab res_ba,
      ArrayMapImpl.execute MapOperation.UNION ALL_COLUMNS_SIMPLE res_ptr [A, B]
          [const_A, const_B] start_row end_row = (Status.OK, some res_ab)
      ∧ ArrayMapImpl.execute MapOperation.UNION ALL_COLUMNS_SIMPLE res_ptr [B, A]
          [const_B, const_A] start_row end_row = (Status.OK, some res_ba)
      ∧ ∀ x : Option α, x ∈ res_ab.row_elements (row - start_row)
          ↔ x ∈ res_ba.row_elements (row - start_row) := by
  obtain ⟨c, hc, hkA, hkB⟩ := hkind
  obtain ⟨res_ab, hab, hvab, _, hnab, _⟩ := union_row_with_nullmap ALL_COLUMNS_SIMPLE res_ptr
    [A, B] [const_A, const_B] start_row end_row row (List.cons_ne_nil _ _)
    ⟨c, hc, by simp [hkA, hkB]⟩ h1 h2 (Or.inl hA)
  obtain ⟨res_ba, hba, hvba, _, hnba, _⟩ := union_row_with_nullmap ALL_COLUMNS_SIMPLE res_ptr
    [B, A] [const_B, const_A] start_row end_row row (List.cons_ne_nil _ _)
    ⟨c, hc, by simp [hkA, hkB]⟩ h1 h2 (Or.inl hB)
  refine ⟨res_ab, res_ba, hab, hba, ?_⟩
  intro x
  cases x with
  | none =>
    rw [hnab, hnba, argument_rows_pair, argument_rows_pair]
    simp only [List.mem_cons, List.mem_singleton, List.not_mem_nil, or_false,
      exists_eq_or_imp, exists_eq_left]
    exact Or.comm
  | some v =>
    rw [hvab v, hvba v, argument_rows_pair, argument_rows_pair]
    simp only [List.mem_cons, List.mem_singleton, List.not_mem_nil, or_false,
      exists_eq_or_imp, exists_eq_left]
    exact Or.comm

/-- C25: Union over the rows `[7]`, read from a nested column without nullmap,
and `[null]` returns a row that reads `[0, 7]`; with the two arguments exchanged
it returns a row that reads `[null, 7]`. The sets of elements of the two output
rows differ. -/
theorem union_depends_on_argument_order :
    ArrayMapImpl.execute MapOperation.UNION [1, 3] none [ints_7_plain, ints_null]
        [false, false] 0 1
      = (Status.OK, some { nested_col := { kind := 3, data := [0, 7] }
                           nested_nullmap_data := none
                           offsets_ptr := [2] })
    ∧ ArrayMapImpl.execute MapOperation.UNION [1, 3] none [ints_null, ints_7_plain]
        [false, false] 0 1
      = (Status.OK, some ints_null_7)
    ∧ ColumnArrayExecutionData.row_elements
        ({ nested_col := { kind := 3, data := [0, 7] }
           nested_nullmap_data := none
           offsets_ptr := [2] } : ColumnArrayExecutionData Int) 0 = [some 0, some 7]
    ∧ ints_null_7.row_elements 0 = [none, some 7] := by
  decide

end doris
